import Mathlib

/-!
# HieloRositaApp: sale and expense registration, sale editing, the store helpers, the
collection hook, accounts, the history lists and the spreadsheet exports

A shallow embedding of

* `register-app/src/hooks/useFirestore.js`  (`useCollection`, `addDocument`, `updateDocument`,
  `deleteDocument`),
* `register-app/src/pages/RegisterSale.jsx` (`handleSubmit`),
* `register-app/src/pages/History.jsx`      (`EditSaleModal.handleSave`, `togglePaymentStatus`,
  `handleDelete`, `groupedSales`, `filteredDateKeys` and the rendered list),
* `register-app/src/pages/RegisterExpense.jsx` (`handleSubmit`),
* `register-app/src/context/AuthContext.jsx` (`createUser`, the `onAuthStateChanged` handler
  of `AuthProvider`),
* `register-app/src/pages/Login.jsx`        (`getEmail`),
* `viewer-app/src/App.jsx`, `viewer-app/src/src/App.jsx` (`filteredSales`, the grouped list,
  `exportData`, `exportToExcel`).

Conventions of the embedding.

* A JavaScript number is an exact rational (`Num`); `NaN` and the infinities are outside the
  model.  Products and differences are taken exactly.  The running totals of the viewer's
  grouped list are sums of doubles, and there `+` is `addDouble`: the double nearest to the
  exact sum, as IEEE 754 binary64 arithmetic rounds.
* The Firestore SDK is an external collaborator.  Every SDK call gets a `Reply` that is an
  input of the model: either the call resolves (`ack`, carrying the server-assigned document id
  and server time) or it rejects (`fault`, carrying `err.message`).
* An `async` handler is run to completion: its awaited steps happen in program order.
* Everything a handler does to the outside is recorded in a `World`: the store, the SDK calls
  issued (oldest first), the `alert` boxes shown and the `console.error` lines.
* `Date` and `Intl` belong to the JavaScript runtime; the pages get them as a `DateEnv`.
* A JavaScript object used as a dictionary is the list of its entries in insertion order
  (`Dict`); its keys here are date labels, never integer-like.
* The Firebase auth SDK is an external collaborator as well: each of its calls gets its
  outcome as an input, and what `AuthContext` does to the outside is recorded in an
  `AuthWorld`.
* A text is its sequence of characters.  `String.prototype.toLowerCase` belongs to the
  JavaScript runtime (its result follows the Unicode tables of the engine): the code that calls
  it gets it as the parameter `toLowerCase`, and what is proved holds for every such function,
  under the stated hypotheses where one is needed.  The examples use `asciiLowerCase` on texts
  whose letters are ASCII.
-/

namespace HieloRosita

/-- A JavaScript number. -/
abbrev Num := ℚ

/-! ## Documents -/

/-- A `products_v2` document as the cache holds it (`{ ...doc.data(), id: doc.id }`). -/
structure Product where
  id : String
  name : String
  category : String
  description : String
  price : Num
  stock : Num
  updatedAt : Option Nat
  deriving DecidableEq

/-- A `clients_v2` document as the cache holds it. -/
structure Client where
  id : String
  name : String
  phone : Option String
  createdAt : Nat
  deriving DecidableEq

/-- The object literal `saleData` of `RegisterSale.handleSubmit`. -/
structure SaleData where
  product : String
  productId : String
  category : String
  quantity : Num
  unit : String
  paymentStatus : String
  price : Num
  total : Num
  client : String
  date : String
  deriving DecidableEq

/-- The `date` field of a stored sale: the ISO text that `handleSubmit` writes, or a Firestore
timestamp object, of which the pages read `seconds`. -/
inductive DateField where
  | text (s : String)
  | timestamp (seconds : Num)
  deriving DecidableEq

/-- A `sales_v2` document as the cache holds it.  `paymentStatus` and `updatedAt` may be
missing from a document. -/
structure Sale where
  id : String
  product : String
  productId : String
  category : String
  quantity : Num
  unit : String
  paymentStatus : Option String
  price : Num
  total : Num
  client : String
  date : DateField
  createdAt : Nat
  updatedAt : Option Nat
  deriving DecidableEq

/-- The fields `RegisterSale.handleSubmit` passes for a new client: `{ name: clientName }`. -/
structure ClientData where
  name : String
  deriving DecidableEq

/-- The fields `RegisterExpense.handleSubmit` passes for a new expense.  The `createdAt` of
its literal is left out: `addDocument` overwrites it with the server time. -/
structure ExpenseData where
  amount : Num
  category : String
  description : String
  date : String
  deriving DecidableEq

/-- An `expenses_v2` document. -/
structure Expense where
  id : String
  amount : Num
  category : String
  description : String
  date : String
  createdAt : Nat
  deriving DecidableEq

/-- The data argument of an `addDocument` call; the constructor fixes the collection. -/
inductive NewDoc where
  | client (d : ClientData)
  | sale (d : SaleData)
  | expense (d : ExpenseData)
  deriving DecidableEq

/-- The fields of a `products_v2` update; `none` means the field is not in the object. -/
structure ProductPatch where
  name : Option String := none
  category : Option String := none
  description : Option String := none
  price : Option Num := none
  stock : Option Num := none
  deriving DecidableEq

/-- The fields of a `sales_v2` update; `none` means the field is not in the object. -/
structure SalePatch where
  client : Option String := none
  quantity : Option Num := none
  price : Option Num := none
  total : Option Num := none
  paymentStatus : Option String := none
  product : Option String := none
  productId : Option String := none
  category : Option String := none
  unit : Option String := none
  date : Option DateField := none
  deriving DecidableEq

/-- The data argument of an `updateDocument` call; the constructor fixes the collection. -/
inductive Patch where
  | product (p : ProductPatch)
  | sale (p : SalePatch)
  deriving DecidableEq

/-- The collections the handlers write to. -/
inductive Coll where
  | clients_v2
  | sales_v2
  | products_v2
  | expenses_v2
  deriving DecidableEq

/-- Collection an `addDocument` call is aimed at. -/
def NewDoc.coll : NewDoc → Coll
  | .client _ => .clients_v2
  | .sale _ => .sales_v2
  | .expense _ => .expenses_v2

/-- Collection an `updateDocument` call is aimed at. -/
def Patch.coll : Patch → Coll
  | .product _ => .products_v2
  | .sale _ => .sales_v2

/-! ## The store collaborator -/

/-- The collections of the remote store, each in insertion order. -/
structure Store where
  clients : List Client
  sales : List Sale
  products : List Product
  expenses : List Expense := []
  deriving DecidableEq

/-- What the backend answers to one SDK call. -/
inductive Reply where
  | ack (id : String) (time : Nat)
  | fault (message : String)
  deriving DecidableEq

/-- An SDK call (`addDoc`, `updateDoc`, `deleteDoc`) as it leaves the client. -/
inductive StoreCall where
  | addDoc (data : NewDoc)
  | updateDoc (id : String) (patch : Patch)
  | deleteDoc (coll : Coll) (id : String)
  deriving DecidableEq

/-- Collection a store call is aimed at. -/
def StoreCall.coll : StoreCall → Coll
  | .addDoc data => data.coll
  | .updateDoc _ patch => patch.coll
  | .deleteDoc coll _ => coll

/-- Overwrite the fields present in the patch, leave the others, stamp `updatedAt`. -/
def ProductPatch.apply (p : ProductPatch) (time : Nat) (d : Product) : Product :=
  { d with
    name := p.name.getD d.name
    category := p.category.getD d.category
    description := p.description.getD d.description
    price := p.price.getD d.price
    stock := p.stock.getD d.stock
    updatedAt := some time }

/-- Overwrite the fields present in the patch, leave the others, stamp `updatedAt`. -/
def SalePatch.apply (p : SalePatch) (time : Nat) (d : Sale) : Sale :=
  { d with
    client := p.client.getD d.client
    quantity := p.quantity.getD d.quantity
    price := p.price.getD d.price
    total := p.total.getD d.total
    paymentStatus := match p.paymentStatus with
      | some s => some s
      | none => d.paymentStatus
    product := p.product.getD d.product
    productId := p.productId.getD d.productId
    category := p.category.getD d.category
    unit := p.unit.getD d.unit
    date := p.date.getD d.date
    updatedAt := some time }

/-- The document the store holds for `{ ...saleData, createdAt: serverTimestamp() }`. -/
def SaleData.toDoc (d : SaleData) (id : String) (time : Nat) : Sale :=
  { id := id, product := d.product, productId := d.productId, category := d.category,
    quantity := d.quantity, unit := d.unit, paymentStatus := some d.paymentStatus,
    price := d.price, total := d.total, client := d.client, date := .text d.date,
    createdAt := time, updatedAt := none }

/-- The document the store holds for `{ name, createdAt: serverTimestamp() }`. -/
def ClientData.toDoc (d : ClientData) (id : String) (time : Nat) : Client :=
  { id := id, name := d.name, phone := none, createdAt := time }

/-- The document the store holds for an expense and the server time as `createdAt`. -/
def ExpenseData.toDoc (d : ExpenseData) (id : String) (time : Nat) : Expense :=
  { id := id, amount := d.amount, category := d.category, description := d.description,
    date := d.date, createdAt := time }

/-- SDK `addDoc(ref, { ...data, createdAt: serverTimestamp() })`: throws the fault's message,
or appends the new document under the server-assigned id. -/
def addDoc (r : Reply) (data : NewDoc) (st : Store) : Except String Store :=
  match r with
  | .fault m => .error m
  | .ack id time =>
    match data with
    | .client d => .ok { st with clients := st.clients ++ [d.toDoc id time] }
    | .sale d => .ok { st with sales := st.sales ++ [d.toDoc id time] }
    | .expense d => .ok { st with expenses := st.expenses ++ [d.toDoc id time] }

/-- SDK `updateDoc(ref, { ...data, updatedAt: serverTimestamp() })`: throws the fault's message,
or overwrites the given fields of the document with that id. -/
def updateDoc (r : Reply) (id : String) (patch : Patch) (st : Store) : Except String Store :=
  match r with
  | .fault m => .error m
  | .ack _ time =>
    match patch with
    | .product p =>
      .ok { st with products := st.products.map (fun d => if d.id = id then p.apply time d else d) }
    | .sale p =>
      .ok { st with sales := st.sales.map (fun d => if d.id = id then p.apply time d else d) }

/-- SDK `deleteDoc(ref)`: throws the fault's message, or removes the document with that id. -/
def deleteDoc (r : Reply) (coll : Coll) (id : String) (st : Store) : Except String Store :=
  match r with
  | .fault m => .error m
  | .ack _ _ =>
    match coll with
    | .clients_v2 => .ok { st with clients := st.clients.filter (fun d => d.id ≠ id) }
    | .sales_v2 => .ok { st with sales := st.sales.filter (fun d => d.id ≠ id) }
    | .products_v2 => .ok { st with products := st.products.filter (fun d => d.id ≠ id) }
    | .expenses_v2 => .ok { st with expenses := st.expenses.filter (fun d => d.id ≠ id) }

/-! ## The observable world -/

/-- The `alert` boxes of `RegisterSale` and `History`. -/
inductive Alert where
  -- "Seleccione un producto"
  | selectProduct
  -- "La cantidad debe ser mayor a 0"
  | quantityPositive
  -- "Ingrese el nombre del cliente"
  | clientRequired
  -- "Solo hay N unidades disponibles." with N the snapshot stock
  | onlyAvailable (stock : Num)
  -- "Venta registrada con éxito!"
  | saleRegistered
  -- "Error al registrar venta"
  | saleFailed
  -- "Error al actualizar la venta"
  | saleUpdateFailed
  -- "Error al eliminar"
  | deleteFailed
  -- "Ingrese un monto válido"
  | amountRequired
  -- "Ingrese una descripción"
  | descriptionRequired
  -- "Gasto registrado con éxito"
  | expenseRegistered
  -- "Error al registrar gasto"
  | expenseFailed
  deriving DecidableEq

/-- Everything outside the component that a handler can change. -/
structure World where
  store : Store
  calls : List StoreCall
  alerts : List Alert
  console : List String
  deriving DecidableEq

/-- Browser `alert(msg)`. -/
def alert (a : Alert) (w : World) : World :=
  { w with alerts := w.alerts ++ [a] }

/-- The tagged result `{ success, error }` of the write helpers. -/
structure WriteResult where
  success : Bool
  error : Option String
  deriving DecidableEq

/-- `useFirestore.addDocument`: one `addDoc` call inside `try`; the `catch` logs the fault and
returns it tagged. -/
def addDocument (r : Reply) (data : NewDoc) (w : World) : WriteResult × World :=
  let w1 := { w with calls := w.calls ++ [StoreCall.addDoc data] }
  match addDoc r data w.store with
  | .ok st => ({ success := true, error := none }, { w1 with store := st })
  | .error m => ({ success := false, error := some m }, { w1 with console := w1.console ++ [m] })

/-- `useFirestore.updateDocument`: one `updateDoc` call inside `try`; the `catch` logs the fault
and returns it tagged. -/
def updateDocument (r : Reply) (id : String) (patch : Patch) (w : World) : WriteResult × World :=
  let w1 := { w with calls := w.calls ++ [StoreCall.updateDoc id patch] }
  match updateDoc r id patch w.store with
  | .ok st => ({ success := true, error := none }, { w1 with store := st })
  | .error m => ({ success := false, error := some m }, { w1 with console := w1.console ++ [m] })

/-- `useFirestore.deleteDocument`: one `deleteDoc` call inside `try`; the `catch` logs the fault
and returns it tagged. -/
def deleteDocument (r : Reply) (coll : Coll) (id : String) (w : World) : WriteResult × World :=
  let w1 := { w with calls := w.calls ++ [StoreCall.deleteDoc coll id] }
  match deleteDoc r coll id w.store with
  | .ok st => ({ success := true, error := none }, { w1 with store := st })
  | .error m => ({ success := false, error := some m }, { w1 with console := w1.console ++ [m] })

/-! ## `RegisterSale` -/

/-- The component state of `RegisterSale` that `handleSubmit` reads and resets. -/
structure Form where
  selectedProduct : Option Product
  quantity : Num
  clientName : String
  unit : String
  paymentStatus : String
  loading : Bool
  deriving DecidableEq

/-- The `saleData` literal: snapshot fields of the selected product, the typed client name,
the chosen unit and payment status, `Number(quantity)` and `price * quantity`. -/
def saleData (p : Product) (f : Form) (now : String) : SaleData :=
  { product := p.name
    productId := p.id
    category := p.category
    quantity := f.quantity
    unit := f.unit
    paymentStatus := f.paymentStatus
    price := p.price
    total := p.price * f.quantity
    client := f.clientName
    date := now }

/-- The body of the `try` block of `RegisterSale.handleSubmit`, for the selected product `p`.
`toLowerCase` is the runtime's lower-casing of texts,
`clients` is the cached `clients_v2` set, `now` is `new Date().toISOString()`, and
`rClient`, `rSale`, `rStock` are the backend's replies to the three store calls
(`rClient` is consumed only on a miss).  An `.error` result stands for a thrown exception. -/
def submitSteps (toLowerCase : String → String) (clients : List Client) (now : String)
    (rClient rSale rStock : Reply)
    (p : Product) (f : Form) (w : World) : Except (String × World) (Form × World) :=
  -- 1. Handle Client (Find or Create)
  let existingClient := clients.find? (fun c => toLowerCase c.name = toLowerCase f.clientName)
  let w1 := match existingClient with
    | some _ => w
    | none => (addDocument rClient (.client { name := f.clientName }) w).2
  -- 2. Register Sale
  let w2 := (addDocument rSale (.sale (saleData p f now)) w1).2
  -- 3. Deduct Stock
  let newStock := p.stock - f.quantity
  let w3 := (updateDocument rStock p.id (.product { stock := some newStock }) w2).2
  let w4 := alert .saleRegistered w3
  -- Reset
  .ok ({ f with selectedProduct := none, quantity := 1, clientName := "" }, w4)

/-- `RegisterSale.handleSubmit`. -/
def handleSubmit (toLowerCase : String → String) (clients : List Client) (now : String)
    (rClient rSale rStock : Reply)
    (f : Form) (w : World) : Form × World :=
  match f.selectedProduct with
  | none => (f, alert .selectProduct w)
  | some p =>
    if f.quantity ≤ 0 then (f, alert .quantityPositive w)
    else if f.clientName = "" then (f, alert .clientRequired w)
    else if p.stock < f.quantity then (f, alert (.onlyAvailable p.stock) w)
    else
      let f1 := { f with loading := true }
      match submitSteps toLowerCase clients now rClient rSale rStock p f1 w with
      | .ok (f2, w2) => ({ f2 with loading := false }, w2)
      | .error (e, w2) =>
        ({ f1 with loading := false }, alert .saleFailed { w2 with console := w2.console ++ [e] })

/-! ## `History`: editing a sale and toggling its payment status -/

/-- A value held in `formData`: the number copied from the sale, or the text typed into an
input (`e.target.value`). -/
inductive FieldValue where
  | num (n : Num)
  | text (s : String)
  deriving DecidableEq

/-- JavaScript `Number(v)`.  A number is returned as it is; for a text the built-in conversion
is the parameter `parseNumber`. -/
def Number (parseNumber : String → Num) : FieldValue → Num
  | .num n => n
  | .text s => parseNumber s

/-- The `formData` state of `EditSaleModal`. -/
structure EditFormData where
  client : String
  quantity : FieldValue
  price : FieldValue
  deriving DecidableEq

/-- The state of `EditSaleModal`: the form, the `loading` flag and whether `onClose` was
called. -/
structure EditModal where
  formData : EditFormData
  loading : Bool
  closed : Bool
  deriving DecidableEq

/-- Initial state of `EditSaleModal` for a sale. -/
def EditModal.ofSale (sale : Sale) : EditModal :=
  { formData := { client := sale.client, quantity := .num sale.quantity, price := .num sale.price }
    loading := false
    closed := false }

/-- `EditSaleModal.handleChange`: `setFormData({ ...formData, [e.target.name]: e.target.value })`.
The three inputs of the modal are named `client`, `quantity` and `price`. -/
def handleChange (name value : String) (m : EditModal) : EditModal :=
  if name = "client" then { m with formData := { m.formData with client := value } }
  else if name = "quantity" then { m with formData := { m.formData with quantity := .text value } }
  else if name = "price" then { m with formData := { m.formData with price := .text value } }
  else m

/-- The body of the `try` block of `EditSaleModal.handleSave`. -/
def saveSteps (parseNumber : String → Num) (r : Reply) (sale : Sale) (m : EditModal) (w : World) :
    Except (String × World) (EditModal × World) :=
  let newTotal := Number parseNumber m.formData.quantity * Number parseNumber m.formData.price
  let w1 := (updateDocument r sale.id
    (.sale { client := some m.formData.client
             quantity := some (Number parseNumber m.formData.quantity)
             price := some (Number parseNumber m.formData.price)
             total := some newTotal }) w).2
  .ok ({ m with closed := true }, w1)

/-- `EditSaleModal.handleSave`. -/
def handleSave (parseNumber : String → Num) (r : Reply) (sale : Sale) (m : EditModal) (w : World) :
    EditModal × World :=
  let m1 := { m with loading := true }
  match saveSteps parseNumber r sale m1 w with
  | .ok (m2, w2) => ({ m2 with loading := false }, w2)
  | .error (e, w2) =>
    ({ m1 with loading := false }, alert .saleUpdateFailed { w2 with console := w2.console ++ [e] })

/-- JavaScript `a || b` on an optional string: `undefined` and the empty string are falsy. -/
def orElse (a : Option String) (b : String) : String :=
  match a with
  | some s => if s = "" then b else s
  | none => b

/-- The body of the `try` block of `History.togglePaymentStatus`. -/
def toggleSteps (r : Reply) (sale : Sale) (w : World) : Except (String × World) World :=
  let currentStatus := orElse sale.paymentStatus "paid"
  let newStatus := if currentStatus = "paid" then "debt" else "paid"
  .ok (updateDocument r sale.id (.sale { paymentStatus := some newStatus }) w).2

/-- `History.togglePaymentStatus`. -/
def togglePaymentStatus (r : Reply) (sale : Sale) (w : World) : World :=
  match toggleSteps r sale w with
  | .ok w1 => w1
  | .error (e, w1) => { w1 with console := w1.console ++ [e] }

/-! ## Store calls as steps

`handleSubmit` awaits each helper, so between two of its store calls the calls of another
device can reach the store.  `issue` is one awaited helper call as a step on the world. -/

/-- One awaited helper call. -/
def issue (c : StoreCall) (r : Reply) (w : World) : World :=
  match c with
  | .addDoc data => (addDocument r data w).2
  | .updateDoc id patch => (updateDocument r id patch w).2
  | .deleteDoc coll id => (deleteDocument r coll id w).2

/-- Run a schedule of helper calls, each with the backend's reply to it, in order. -/
def runCalls (sched : List (StoreCall × Reply)) (w : World) : World :=
  sched.foldl (fun acc cr => issue cr.1 cr.2 acc) w

/-- All interleavings of two sequences that keep the order inside each. -/
def merges {α : Type} : List α → List α → List (List α)
  | [], ys => [ys]
  | xs, [] => [xs]
  | x :: xs, y :: ys =>
    (merges xs (y :: ys)).map (x :: ·) ++ (merges (x :: xs) ys).map (y :: ·)
termination_by xs ys => xs.length + ys.length

/-- The value of the last `stock` overwrite in a schedule, if there is one. -/
def lastStockWrite (sched : List (StoreCall × Reply)) : Option Num :=
  sched.foldl (fun acc cr =>
    match cr.1 with
    | .updateDoc _ (.product p) =>
      match p.stock with
      | some v => some v
      | none => acc
    | _ => acc) none

/-- The helper calls `handleSubmit` awaits, in program order, each with the backend's reply
to it; empty when a validation guard returns first. -/
def submitSchedule (toLowerCase : String → String) (clients : List Client) (now : String)
    (rClient rSale rStock : Reply)
    (f : Form) : List (StoreCall × Reply) :=
  match f.selectedProduct with
  | none => []
  | some p =>
    if f.quantity ≤ 0 then []
    else if f.clientName = "" then []
    else if p.stock < f.quantity then []
    else
      (match clients.find? (fun c => toLowerCase c.name = toLowerCase f.clientName) with
        | some _ => []
        | none => [(StoreCall.addDoc (.client { name := f.clientName }), rClient)])
      ++ [(StoreCall.addDoc (.sale (saleData p f now)), rSale),
          (StoreCall.updateDoc p.id (.product { stock := some (p.stock - f.quantity) }), rStock)]

/-- Every sale of the store has `total = quantity * price`. -/
def totalsOk (st : Store) : Prop :=
  ∀ s ∈ st.sales, s.total = s.quantity * s.price

instance (st : Store) : Decidable (totalsOk st) := by
  unfold totalsOk; infer_instance

/-! ## `useCollection`

The hook keeps three state cells (`data`, `loading`, `error`).  One run of its effect owns a
`mounted` flag, the fallback timer and the live listener; its callbacks close over the value
`loading` had when the effect ran. -/

/-- A document of a query snapshot: `doc.id` and `doc.data()`. -/
structure QueryDoc (φ : Type) where
  id : String
  data : φ
  deriving DecidableEq

/-- The object `{ ...doc.data(), id: doc.id }`: the fields of the document and, as `id`, the
document id. -/
structure Cached (φ : Type) where
  fields : φ
  id : String
  deriving DecidableEq

/-- The state cells of `useCollection`, and the `console` lines it wrote. -/
structure HookState (φ : Type) where
  data : List (Cached φ)
  loading : Bool
  error : Option String
  console : List String
  deriving DecidableEq

/-- The initial state cells: `useState([])`, `useState(true)`, `useState(null)`. -/
def HookState.initial {φ : Type} : HookState φ :=
  { data := [], loading := true, error := none, console := [] }

/-- The variables of one run of the effect: the collection name, `mounted`, the `loading` value
the callbacks closed over, whether `timeoutId` is still scheduled and whether the listener is
attached. -/
structure Subscription where
  collectionName : String
  mounted : Bool
  loading : Bool
  timerPending : Bool
  listening : Bool
  deriving DecidableEq

/-- The effect body up to its `return`: `mounted = true`, the timer is scheduled and the
listener attached. -/
def subscribe {φ : Type} (collectionName : String) (h : HookState φ) : Subscription :=
  { collectionName := collectionName, mounted := true, loading := h.loading, timerPending := true,
    listening := true }

/-- The hook right after the effect ran: the new subscription and the state cells as they
were. -/
def mount {φ : Type} (collectionName : String) (h : HookState φ) : Subscription × HookState φ :=
  (subscribe collectionName h, h)

/-- The timer callback: `if (mounted && loading) { console.warn(...); setLoading(false) }`. -/
def onTimeout {φ : Type} (sub : Subscription) (h : HookState φ) : HookState φ :=
  if sub.mounted && sub.loading then
    { h with loading := false
             console := h.console ++ ["Firestore timeout for " ++ sub.collectionName] }
  else h

/-- The success callback of `onSnapshot`. -/
def onNext {φ : Type} (docs : List (QueryDoc φ)) (sub : Subscription) (h : HookState φ) :
    Subscription × HookState φ :=
  if !sub.mounted then (sub, h)
  else
    let results : List (Cached φ) :=
      docs.foldl (fun acc doc => acc ++ [{ fields := doc.data, id := doc.id }]) []
    ({ sub with timerPending := false }, { h with data := results, loading := false })

/-- The error callback of `onSnapshot`. -/
def onError {φ : Type} (message : String) (sub : Subscription) (h : HookState φ) : HookState φ :=
  if !sub.mounted then h
  else { h with error := some message, loading := false, console := h.console ++ [message] }

/-- The cleanup function of the effect: `mounted = false; unsubscribe(); clearTimeout(timeoutId)`. -/
def cleanup (sub : Subscription) : Subscription :=
  { sub with mounted := false, listening := false, timerPending := false }

/-- What the runtime can hand to a subscription: a snapshot, a delivery error, the expiry of
the fallback timer. -/
inductive SubEvent (φ : Type) where
  | snapshot (docs : List (QueryDoc φ))
  | failure (message : String)
  | timeout

/-- The runtime delivers an event: a timer fires once and only while scheduled, the listener
callbacks run only while the listener is attached. -/
def deliver {φ : Type} (ev : SubEvent φ) (st : Subscription × HookState φ) :
    Subscription × HookState φ :=
  match ev with
  | .timeout =>
    if st.1.timerPending then ({ st.1 with timerPending := false }, onTimeout st.1 st.2) else st
  | .snapshot docs => if st.1.listening then onNext docs st.1 st.2 else st
  | .failure message => if st.1.listening then (st.1, onError message st.1 st.2) else st

/-- Deliver a sequence of events in order. -/
def deliverAll {φ : Type} (evs : List (SubEvent φ)) (st : Subscription × HookState φ) :
    Subscription × HookState φ :=
  evs.foldl (fun acc ev => deliver ev acc) st

/-- What holds of a subscription from its start until its cleanup: it is mounted and listening;
if its callbacks closed over `loading = false` then `loading` is false; and while the timer is
scheduled no snapshot has replaced the data the hook started from. -/
def Live {φ : Type} (h0 : HookState φ) (st : Subscription × HookState φ) : Prop :=
  st.1.mounted = true ∧ st.1.listening = true
    ∧ (st.1.loading = false → st.2.loading = false)
    ∧ (st.1.timerPending = true → st.2.data = h0.data)

/-- Whether an event is a delivery error. -/
def SubEvent.isFailure {φ : Type} : SubEvent φ → Bool
  | .failure _ => true
  | _ => false

/-! ## `History`: deleting, grouping and filtering -/

/-- The `userData` of `useAuth()`: the profile of the signed-in user. -/
structure UserData where
  username : Option String
  role : Option String
  error : Bool := false
  createdAt : Option Nat := none
  deriving DecidableEq

/-- The state of the `History` page. -/
structure HistoryPage where
  userData : Option UserData
  searchTerm : String
  editingSale : Option Sale
  showOnlyDebts : Bool
  deriving DecidableEq

/-- The fields of a sale that neither `handleSave` nor `togglePaymentStatus` writes. -/
def snapshotFields (d : Sale) : String × String × String × String × String × DateField × Nat :=
  (d.id, d.productId, d.product, d.category, d.unit, d.date, d.createdAt)

/-- The body of the `try` block of `History.handleDelete`. -/
def deleteSteps (r : Reply) (id : String) (w : World) : Except (String × World) World :=
  .ok (deleteDocument r .sales_v2 id w).2

/-- `History.handleDelete`; `confirmed` is the answer of `window.confirm`. -/
def handleDelete (confirmed : Bool) (r : Reply) (id : String) (w : World) : World :=
  if confirmed then
    match deleteSteps r id w with
    | .ok w1 => w1
    | .error (e, w1) => alert .deleteFailed { w1 with console := w1.console ++ [e] }
  else w

/-- The buttons of a sale row. -/
inductive RowButton where
  | togglePayment
  | edit
  | delete
  deriving DecidableEq

/-- The buttons `History` renders in a sale row: the payment toggle and the edit button for
everyone, the delete button under `userData?.role === 'admin'`. -/
def rowButtons (userData : Option UserData) : List RowButton :=
  [.togglePayment, .edit] ++
    (if userData.bind (fun u => u.role) = some "admin" then [.delete] else [])

/-- A click on a button of a sale row: the `onClick` of the button if it is rendered, nothing
otherwise. -/
def clickRowButton (page : HistoryPage) (b : RowButton) (sale : Sale) (confirmed : Bool)
    (r : Reply) (w : World) : HistoryPage × World :=
  if b ∈ rowButtons page.userData then
    match b with
    | .togglePayment => (page, togglePaymentStatus r sale w)
    | .edit => ({ page with editingSale := some sale }, w)
    | .delete => (page, handleDelete confirmed r sale.id w)
  else (page, w)

/-- The `Date` and `Intl` facilities of the JavaScript runtime that the pages use, over the
runtime's type of dates. -/
structure DateEnv (δ : Type) where
  /-- The date `new Date()`. -/
  now : δ
  /-- The date `new Date(ms)`. -/
  ofMillis : Num → δ
  /-- The date `new Date(v)` for the value `v` of a `date` field. -/
  ofValue : DateField → δ
  /-- The number `date.getTime()`, which is what `date - date` subtracts. -/
  getTime : δ → Num
  /-- The text `toLocaleDateString('es-ES', ...)` with weekday, year, month and day: the local
  calendar date. -/
  longDate : δ → String
  /-- The text `toLocaleTimeString('es-ES', ...)` with hour and minute. -/
  shortTime : δ → String
  /-- The text `toLocaleDateString('es-PE', ...)` with weekday, day and month, without the
  year. -/
  dayMonth : δ → String

/-- A JavaScript object used as a dictionary: its own string keys in insertion order. -/
abbrev Dict (β : Type) := List (String × β)

/-- Property read `groups[key]`; `none` is `undefined`. -/
def Dict.get? {β : Type} (g : Dict β) (key : String) : Option β :=
  (g.find? (fun e => e.1 = key)).map (fun e => e.2)

/-- Property write `groups[key] = v`: an existing key keeps its place, a new key goes last. -/
def Dict.set {β : Type} (g : Dict β) (key : String) (v : β) : Dict β :=
  if g.any (fun e => e.1 = key) then g.map (fun e => if e.1 = key then (key, v) else e)
  else g ++ [(key, v)]

/-- `Object.keys(groups)`. -/
def Dict.keys {β : Type} (g : Dict β) : List String := g.map (fun e => e.1)

/-- An element of a bucket of `groupedSales`: `{ ...sale, time }`. -/
structure HistoryRow where
  sale : Sale
  time : String
  deriving DecidableEq

/-- The `dateObj` of the reducer of `groupedSales`: `new Date(sale.date.seconds * 1000)` when
`sale.date?.seconds` is truthy, `new Date(sale.date)` otherwise. -/
def dateObj {δ : Type} (env : DateEnv δ) (sale : Sale) : δ :=
  match sale.date with
  | .timestamp seconds => if seconds ≠ 0 then env.ofMillis (seconds * 1000) else env.ofValue sale.date
  | .text _ => env.ofValue sale.date

/-- The `dateKey` of the reducer of `groupedSales`. -/
def dateKey {δ : Type} (env : DateEnv δ) (sale : Sale) : String :=
  env.longDate (dateObj env sale)

/-- The row the reducer pushes for a sale. -/
def historyRow {δ : Type} (env : DateEnv δ) (sale : Sale) : HistoryRow :=
  { sale := sale, time := env.shortTime (dateObj env sale) }

/-- The reducer of `groupedSales`:
`if (!groups[dateKey]) groups[dateKey] = []; groups[dateKey].push({ ...sale, time })`. -/
def groupStep {δ : Type} (env : DateEnv δ) (groups : Dict (List HistoryRow)) (sale : Sale) :
    Dict (List HistoryRow) :=
  let groups1 := match groups.get? (dateKey env sale) with
    | none => groups.set (dateKey env sale) []
    | some _ => groups
  match groups1.get? (dateKey env sale) with
  | some rows => groups1.set (dateKey env sale) (rows ++ [historyRow env sale])
  | none => groups1

/-- `History.groupedSales`: `sales.reduce(..., {})`. -/
def groupedSales {δ : Type} (env : DateEnv δ) (sales : List Sale) : Dict (List HistoryRow) :=
  sales.foldl (groupStep env) []

/-- JavaScript `s.includes(t)`: `t` occurs in `s` as a contiguous run of characters. -/
def includes (s t : String) : Bool :=
  s.data.tails.any (fun rest => t.data.isPrefixOf rest)

/-- The predicate that `filteredDateKeys` and the per-bucket filter of `History` both apply to
a row. -/
def rowMatches (toLowerCase : String → String) (page : HistoryPage) (s : HistoryRow) : Bool :=
  (includes (toLowerCase s.sale.client) (toLowerCase page.searchTerm) ||
      includes (toLowerCase s.sale.product) (toLowerCase page.searchTerm)) &&
    (!page.showOnlyDebts || s.sale.paymentStatus = some "debt")

/-- `History.filteredDateKeys`: the keys whose bucket has some matching row. -/
def filteredDateKeys (toLowerCase : String → String) (page : HistoryPage)
    (groups : Dict (List HistoryRow)) : List String :=
  groups.keys.filter (fun key => ((groups.get? key).getD []).any (rowMatches toLowerCase page))

/-- The list `History` renders when not loading: for each filtered key, in order, the rows of
its bucket that match. -/
def historyList (toLowerCase : String → String) {δ : Type} (env : DateEnv δ) (page : HistoryPage)
    (sales : List Sale) :
    List (String × List HistoryRow) :=
  (filteredDateKeys toLowerCase page (groupedSales env sales)).map (fun key =>
    (key, (((groupedSales env sales).get? key).getD []).filter (rowMatches toLowerCase page)))

/-- The order of first occurrence: each key once, at the place of its first occurrence. -/
def firstKeys : List String → List String
  | [] => []
  | k :: ks => k :: (firstKeys ks).filter (fun x => x ≠ k)

/-- The bucketing a reducer over an insertion-ordered dictionary computes, said directly: one
entry per key in order of first occurrence, holding the fold of the items with that key in
input order. -/
def bucketsOf {α β : Type} (key : α → String) (empty : β) (upd : β → α → β) (xs : List α) :
    Dict β :=
  (firstKeys (xs.map key)).map (fun k => (k, (xs.filter (fun x => key x = k)).foldl upd empty))

/-- One step of a reducer that files an item under its key:
`if (!groups[k]) groups[k] = empty; groups[k] = upd(groups[k], item)`. -/
def bucketStep {α β : Type} (key : α → String) (empty : β) (upd : β → α → β) (g : Dict β)
    (x : α) : Dict β :=
  g.set (key x) (upd ((g.get? (key x)).getD empty) x)

/-! ## Double arithmetic -/

/-- The integer nearest to `n / d`, the even one of the two when `n / d` lies halfway. -/
def roundHalfEven (n d : Nat) : Nat :=
  if 2 * (n % d) < d then n / d
  else if d < 2 * (n % d) then n / d + 1
  else if (n / d) % 2 = 0 then n / d else n / d + 1

/-- Scale the positive fraction `n / d` by a power of two into the range of a 53-bit
significand, `2 ^ 52 ≤ n / d < 2 ^ 53`: the result `(n', d', e')` has
`n' / d' * 2 ^ e' = n / d * 2 ^ e`.  The fuel bounds the number of doublings. -/
def scaleSignificand : Nat → Nat → Nat → Int → Nat × Nat × Int
  | 0, n, d, e => (n, d, e)
  | fuel + 1, n, d, e =>
    if 2 ^ 53 * d ≤ n then scaleSignificand fuel n (2 * d) (e + 1)
    else if n < 2 ^ 52 * d then scaleSignificand fuel (2 * n) d (e - 1)
    else (n, d, e)

/-- The double nearest to a rational, ties going to the even significand (the rounding of
IEEE 754 binary64 arithmetic).  The exponent range of doubles is not modelled: a result beyond
the largest double or in the subnormal range is outside the model. -/
def nearestDouble (x : Num) : Num :=
  if x = 0 then 0
  else
    let r := scaleSignificand 2200 x.num.natAbs x.den 0
    (if x < 0 then -1 else 1) * (roundHalfEven r.1 r.2.1 : Num) * 2 ^ r.2.2

/-- JavaScript `a + b` on numbers: the double nearest to the exact sum. -/
def addDouble (a b : Num) : Num := nearestDouble (a + b)

/-! ## The viewer apps -/

/-- A sale as the viewer apps hold it: `{ id: doc.id, ...doc.data(), date }` with `date`
converted to a `Date`.  A field a document lacks is `none`. -/
structure ViewerSale (δ : Type) where
  id : String
  client : Option String
  product : Option String
  quantity : Option Num
  unit : Option String
  total : Option Num
  paymentStatus : Option String
  date : δ

/-- The `filter` callback of `filteredSales`, the same text in both viewer apps. -/
def viewerMatches (toLowerCase : String → String) {δ : Type} (searchTerm : String)
    (filterDebt : Bool) (sale : ViewerSale δ) :
    Bool :=
  let matchesSearch :=
    includes (toLowerCase (orElse sale.client "")) (toLowerCase searchTerm) ||
      includes (toLowerCase (orElse sale.product "")) (toLowerCase searchTerm)
  let matchesDebt := if filterDebt then decide (sale.paymentStatus = some "debt") else true
  matchesSearch && matchesDebt

/-- `filteredSales` of the viewer apps. -/
def filteredSales (toLowerCase : String → String) {δ : Type} (searchTerm : String)
    (filterDebt : Bool)
    (sales : List (ViewerSale δ)) : List (ViewerSale δ) :=
  sales.filter (viewerMatches toLowerCase searchTerm filterDebt)

/-- `dateKey.charAt(0).toUpperCase() + dateKey.slice(1)`, on the ASCII letters. -/
def capitalize (s : String) : String :=
  match s.data with
  | [] => ""
  | c :: cs => ⟨c.toUpper :: cs⟩

/-- A bucket of the viewer's grouped list: `{ sales: [], total: 0 }`. -/
structure DayGroup (δ : Type) where
  sales : List (ViewerSale δ)
  total : Num

/-- The `key` of the viewer's reducer. -/
def viewerKey {δ : Type} (env : DateEnv δ) (sale : ViewerSale δ) : String :=
  capitalize (env.dayMonth sale.date)

/-- The reducer of the viewer's grouped list:
`if (!groups[key]) groups[key] = { sales: [], total: 0 }; groups[key].sales.push(sale);
groups[key].total += (Number(sale.total) || 0)`, the `+=` adding doubles. -/
def viewerStep {δ : Type} (env : DateEnv δ) (groups : Dict (DayGroup δ)) (sale : ViewerSale δ) :
    Dict (DayGroup δ) :=
  let groups1 := match groups.get? (viewerKey env sale) with
    | none => groups.set (viewerKey env sale) { sales := [], total := 0 }
    | some _ => groups
  match groups1.get? (viewerKey env sale) with
  | some g =>
    groups1.set (viewerKey env sale)
      { sales := g.sales ++ [sale], total := addDouble g.total (sale.total.getD 0) }
  | none => groups1

/-- `Object.entries(filteredSales.reduce(..., {}))`. -/
def viewerGroups {δ : Type} (env : DateEnv δ) (sales : List (ViewerSale δ)) : Dict (DayGroup δ) :=
  sales.foldl (viewerStep env) []

/-- The time of `group.sales[0].date`; a bucket of the reducer is never empty. -/
def firstTime {δ : Type} (env : DateEnv δ) (g : DayGroup δ) : Num :=
  match g.sales with
  | s :: _ => env.getTime s.date
  | [] => 0

/-- The comparator of the viewer's sort: `b[1].sales[0].date - a[1].sales[0].date`. -/
def compareGroups {δ : Type} (env : DateEnv δ) (a b : String × DayGroup δ) : Num :=
  firstTime env b.2 - firstTime env a.2

/-- `entries.sort(compare)`: the stable sort that puts `a` before `b` when the comparator is
negative and keeps their order when it is zero. -/
def sortedGroups {δ : Type} (env : DateEnv δ) (sales : List (ViewerSale δ)) :
    List (String × DayGroup δ) :=
  (viewerGroups env sales).insertionSort (fun a b => compareGroups env a b ≤ 0)

/-- The date of `group.sales[0]`, if the bucket has a record. -/
def firstDate {δ : Type} (g : DayGroup δ) : Option δ :=
  g.sales.head?.map (fun s => s.date)

/-- The time of the latest record of a bucket. -/
def latestTime {δ : Type} (env : DateEnv δ) (g : DayGroup δ) : Num :=
  match g.sales.map (fun s => env.getTime s.date) with
  | [] => 0
  | t :: ts => ts.foldl max t

/-! ## `RegisterExpense` -/

/-- The component state of `RegisterExpense`: the texts of its inputs and the chosen category. -/
structure ExpenseForm where
  amount : String
  category : String
  description : String
  date : String
  loading : Bool
  deriving DecidableEq

/-- The body of the `try` block of `RegisterExpense.handleSubmit`.  The object literal is built
first: `Number(amount)`, then `new Date(date).toISOString()`, which throws a `RangeError` when
the date is invalid (`toISOString` gives `none`); only then is `addDocument` called. -/
def RegisterExpense.submitSteps {δ : Type} (parseNumber : String → Num) (newDate : String → δ)
    (toISOString : δ → Option String) (r : Reply) (f : ExpenseForm) (w : World) :
    Except (String × World) (ExpenseForm × World) :=
  match toISOString (newDate f.date) with
  | none => .error ("RangeError: Invalid time value", w)
  | some iso =>
    let w1 := (addDocument r (.expense
      { amount := parseNumber f.amount, category := f.category, description := f.description,
        date := iso }) w).2
    let w2 := alert .expenseRegistered w1
    .ok ({ f with amount := "", description := "", category := "Servicios" }, w2)

/-- `RegisterExpense.handleSubmit`.  `amount` is the text of the input: `!amount` holds for the
empty text, and `amount <= 0` compares its numeric reading. -/
def RegisterExpense.handleSubmit {δ : Type} (parseNumber : String → Num) (newDate : String → δ)
    (toISOString : δ → Option String) (r : Reply) (f : ExpenseForm) (w : World) :
    ExpenseForm × World :=
  if f.amount = "" ∨ parseNumber f.amount ≤ 0 then (f, alert .amountRequired w)
  else if f.description = "" then (f, alert .descriptionRequired w)
  else
    let f1 := { f with loading := true }
    match RegisterExpense.submitSteps parseNumber newDate toISOString r f1 w with
    | .ok (f2, w2) => ({ f2 with loading := false }, w2)
    | .error (e, w2) =>
      ({ f1 with loading := false }, alert .expenseFailed { w2 with console := w2.console ++ [e] })

/-! ## Account addresses -/

/-- The characters the regular expression class `\s` matches. -/
def isSpace (c : Char) : Bool :=
  c.toNat = 0x20 || c.toNat = 0x09 || c.toNat = 0x0A || c.toNat = 0x0B || c.toNat = 0x0C
    || c.toNat = 0x0D || c.toNat = 0xA0 || c.toNat = 0x1680
    || (0x2000 ≤ c.toNat && c.toNat ≤ 0x200A)
    || c.toNat = 0x2028 || c.toNat = 0x2029 || c.toNat = 0x202F || c.toNat = 0x205F
    || c.toNat = 0x3000 || c.toNat = 0xFEFF

/-- The scan of `replace(/X+/g, '')` for a character class `X`: at a character of the class
the whole run of such characters that starts there is replaced by nothing, any other character
is kept. -/
def removeRuns (inClass : Char → Bool) : List Char → List Char
  | [] => []
  | c :: cs =>
    if inClass c then removeRuns inClass (cs.dropWhile inClass)
    else c :: removeRuns inClass cs
termination_by cs => cs.length
decreasing_by
  · simp_wf
    exact Nat.lt_succ_of_le (List.dropWhile_sublist _).length_le
  · simp_wf

/-- The text `s.replace(/\s+/g, '')`, as characters. -/
def dropSpaceRuns (cs : List Char) : List Char := removeRuns isSpace cs

/-- The address `createUser` of `AuthContext` registers:
the template text `username.toLowerCase().replace(/\s+/g, '')` followed by `@sales.app`. -/
def createUserEmail (toLowerCase : String → String) (username : String) : String :=
  ⟨dropSpaceRuns (toLowerCase username).data⟩ ++ "@sales.app"

/-- `Login.getEmail`: the template text `user.toLowerCase().replace(/\s+/g, '')` followed by
`@sales.app`. -/
def getEmail (toLowerCase : String → String) (user : String) : String :=
  ⟨dropSpaceRuns (toLowerCase user).data⟩ ++ "@sales.app"

/-- The text without its whitespace characters. -/
def withoutSpaces (s : String) : String := ⟨s.data.filter (fun c => !isSpace c)⟩

/-- The address as the specification words it: the user name lower-cased, all whitespace
removed, suffixed `@sales.app`. -/
def accountAddress (toLowerCase : String → String) (username : String) : String :=
  withoutSpaces (toLowerCase username) ++ "@sales.app"

/-! ## `AuthContext` -/

/-- The two auth instances: `auth` of the default app and `getAuth(secondaryApp)`. -/
inductive AuthInstance where
  | primary
  | secondary
  deriving DecidableEq

/-- A call to the Firebase SDK from `AuthContext`. -/
inductive AuthCall where
  | initializeApp (name : String)
  | getAuth (name : String)
  | createUserWithEmailAndPassword (auth : AuthInstance) (email password : String)
  | setDoc (uid : String) (data : UserData)
  | signOut (auth : AuthInstance)
  | deleteApp (name : String)
  deriving DecidableEq

/-- The auth instance a call acts on, if it acts on one. -/
def AuthCall.instance? : AuthCall → Option AuthInstance
  | .createUserWithEmailAndPassword auth _ _ => some auth
  | .signOut auth => some auth
  | _ => none

/-- What `AuthContext` can change outside itself: the signed-in user of each auth instance,
whether the app named `Secondary` exists, the `users` collection, and the SDK calls issued. -/
structure AuthWorld where
  primaryUser : Option String
  secondaryUser : Option String
  secondaryApp : Bool
  profiles : List (String × UserData)
  calls : List AuthCall
  console : List String
  deriving DecidableEq

/-- Record an SDK call. -/
def AuthWorld.call (w : AuthWorld) (c : AuthCall) : AuthWorld :=
  { w with calls := w.calls ++ [c] }

/-- The signed-in user of an auth instance is set. -/
def AuthWorld.setUser (w : AuthWorld) (auth : AuthInstance) (u : Option String) : AuthWorld :=
  match auth with
  | .primary => { w with primaryUser := u }
  | .secondary => { w with secondaryUser := u }

/-- SDK `createUserWithEmailAndPassword(auth, email, password)`: on success the new account is
signed in on that instance. -/
def sdkCreateUser (outcome : Except String String) (auth : AuthInstance) (email password : String)
    (w : AuthWorld) : Except String String × AuthWorld :=
  let w1 := w.call (.createUserWithEmailAndPassword auth email password)
  match outcome with
  | .ok uid => (.ok uid, w1.setUser auth (some uid))
  | .error e => (.error e, w1)

/-- SDK `setDoc(doc(db, "users", uid), data)`. -/
def sdkSetDoc (outcome : Except String Unit) (uid : String) (data : UserData) (w : AuthWorld) :
    Except String Unit × AuthWorld :=
  let w1 := w.call (.setDoc uid data)
  match outcome with
  | .ok _ => (.ok (), { w1 with profiles := w1.profiles.filter (fun p => p.1 ≠ uid) ++ [(uid, data)] })
  | .error e => (.error e, w1)

/-- SDK `signOut(auth)`. -/
def sdkSignOut (outcome : Except String Unit) (auth : AuthInstance) (w : AuthWorld) :
    Except String Unit × AuthWorld :=
  let w1 := w.call (.signOut auth)
  match outcome with
  | .ok _ => (.ok (), w1.setUser auth none)
  | .error e => (.error e, w1)

/-- SDK `deleteApp(secondaryApp)`: on success the app and its session are gone. -/
def sdkDeleteApp (outcome : Except String Unit) (w : AuthWorld) : Except String Unit × AuthWorld :=
  let w1 := w.call (.deleteApp "Secondary")
  match outcome with
  | .ok _ => (.ok (), { w1 with secondaryApp := false, secondaryUser := none })
  | .error e => (.error e, w1)

/-- The outcomes of the SDK calls of one `createUser`, in program order; `rDeleteCatch` is the
outcome of the `deleteApp` inside the `catch`. -/
structure CreateUserOutcomes where
  rCreate : Except String String
  rSetDoc : Except String Unit
  rSignOut : Except String Unit
  rDelete : Except String Unit
  rDeleteCatch : Except String Unit

/-- The body of the `try` block of `createUser`; the result is the uid of `res.user`. -/
def createUserSteps (toLowerCase : String → String) (o : CreateUserOutcomes)
    (username password role : String) (now : Nat)
    (w : AuthWorld) : Except String String × AuthWorld :=
  match sdkCreateUser o.rCreate .secondary (createUserEmail toLowerCase username) password w with
  | (.error e, w1) => (.error e, w1)
  | (.ok uid, w1) =>
    match sdkSetDoc o.rSetDoc uid
        { username := some username, role := some role, createdAt := some now } w1 with
    | (.error e, w2) => (.error e, w2)
    | (.ok _, w2) =>
      match sdkSignOut o.rSignOut .secondary w2 with
      | (.error e, w3) => (.error e, w3)
      | (.ok _, w3) =>
        match sdkDeleteApp o.rDelete w3 with
        | (.error e, w4) => (.error e, w4)
        | (.ok _, w4) => (.ok uid, w4)

/-- `AuthContext.createUser`, from the point where the secondary app exists:
`initializeApp(getApp().options, "Secondary")` and `getAuth(secondaryApp)`, then the `try`
block, and in the `catch` one more `deleteApp` whose own failure is swallowed before the caught
error is thrown again. -/
def createUser (toLowerCase : String → String) (o : CreateUserOutcomes)
    (username password role : String) (now : Nat)
    (w : AuthWorld) : Except String String × AuthWorld :=
  let w0 := ({ w with secondaryApp := true }.call (.initializeApp "Secondary")).call
    (.getAuth "Secondary")
  match createUserSteps toLowerCase o username password role now w0 with
  | (.ok uid, w1) => (.ok uid, w1)
  | (.error error, w1) => (.error error, (sdkDeleteApp o.rDeleteCatch w1).2)

/-- The signed-in user the auth SDK hands to `onAuthStateChanged`. -/
structure AuthUser where
  uid : String
  email : Option String
  phoneNumber : Option String
  deriving DecidableEq

/-- How `await Promise.race([userDocPromise, timeout])` ends: the profile document exists, it
does not exist, or the race rejects (a store error, or `DB_TIMEOUT` after four seconds). -/
inductive ProfileRead where
  | found (data : UserData)
  | missing
  | failed (message : String)
  deriving DecidableEq

/-- The state cells of `AuthProvider`. -/
structure AuthState where
  user : Option AuthUser
  userData : Option UserData
  loading : Bool
  deriving DecidableEq

/-- The part of a text before its first `@`: `email.split('@')[0]`. -/
def localPart (email : String) : String :=
  ⟨email.data.takeWhile (fun c => c ≠ '@')⟩

/-- The `username` of the auto-recover branch:
`email ? email.split('@')[0] : (currentUser.phoneNumber || 'user')`. -/
def recoveredUsername (u : AuthUser) : String :=
  if orElse u.email "" = "" then orElse u.phoneNumber "user"
  else localPart (orElse u.email "")

/-- The `initialRole` of the auto-recover branch. -/
def initialRole (toLowerCase : String → String) (u : AuthUser) : String :=
  if includes (toLowerCase (recoveredUsername u)) "fabricio" then "admin" else "registrar"

/-- The role of the fallback in the `catch`: by `email.toLowerCase().includes('fabricio')`. -/
def fallbackRole (toLowerCase : String → String) (u : AuthUser) : String :=
  if includes (toLowerCase (orElse u.email "")) "fabricio" then "admin" else "registrar"

/-- The body of the `try` block of the `onAuthStateChanged` handler, for a signed-in user. -/
def profileSteps (toLowerCase : String → String) (read : ProfileRead) (rSetDoc : Except String Unit)
    (now : Nat) (u : AuthUser)
    (st : AuthState) (w : AuthWorld) : Except (String × AuthWorld) (AuthState × AuthWorld) :=
  match read with
  | .failed message => .error (message, w)
  | .found data => .ok ({ st with userData := some data }, w)
  | .missing =>
    let newUserData : UserData :=
      { username := some (recoveredUsername u), role := some (initialRole toLowerCase u),
        createdAt := some now }
    match sdkSetDoc rSetDoc u.uid newUserData w with
    | (.error e, w1) => .error (e, w1)
    | (.ok _, w1) => .ok ({ st with userData := some newUserData }, w1)

/-- The handler `AuthProvider` passes to `onAuthStateChanged`. -/
def onAuthStateChanged (toLowerCase : String → String) (currentUser : Option AuthUser)
    (read : ProfileRead)
    (rSetDoc : Except String Unit) (now : Nat) (st : AuthState) (w : AuthWorld) :
    AuthState × AuthWorld :=
  let st1 := { st with loading := true }
  match currentUser with
  | some u =>
    let st2 := { st1 with user := some u }
    match profileSteps toLowerCase read rSetDoc now u st2 w with
    | .ok (st3, w1) => ({ st3 with loading := false }, w1)
    | .error (e, w1) =>
      ({ st2 with userData := some { username := none,
                                     role := some (fallbackRole toLowerCase u),
                                     error := true }
                  loading := false },
        { w1 with console := w1.console ++ [e] })
  | none => ({ st1 with user := none, userData := none, loading := false }, w)

/-! ## The spreadsheet export of the viewer apps -/

/-- An expense as the viewer holds it. -/
structure ViewerExpense (δ : Type) where
  id : String
  amount : Option Num
  category : Option String
  description : Option String
  date : δ

/-- A value written into a cell: a text, a number, `NaN` (from `Number(undefined)`) or nothing
(`undefined`). -/
inductive Cell where
  | text (s : String)
  | num (n : Num)
  | nan
  | undefined
  deriving DecidableEq

/-- An entry of `worksheet.columns`. -/
structure Column where
  header : String
  key : String
  width : Nat
  deriving DecidableEq

/-- A row given to `worksheet.addRow`, as its cells by column key, and the font colour set on
its status cell, if any. -/
structure SheetRow where
  cells : List (String × Cell)
  statusFont : Option String
  deriving DecidableEq

/-- The worksheet an export builds, and the name of the file it saves. -/
structure Sheet where
  name : String
  columns : List Column
  rows : List SheetRow
  fileName : String
  deriving DecidableEq

/-- The kind of records `exportData` is asked for: `'sales'` or anything else. -/
inductive ExportKind where
  | sales
  | expenses
  deriving DecidableEq

/-- A cell for an optional text field. -/
def textCell (v : Option String) : Cell :=
  match v with
  | some s => .text s
  | none => .undefined

/-- A cell for `Number(v)`. -/
def numberCell (v : Option Num) : Cell :=
  match v with
  | some n => .num n
  | none => .nan

/-- The status text both exports write: `paymentStatus === 'debt' ? 'DEUDA' : 'PAGADO'`. -/
def statusText (paymentStatus : Option String) : String :=
  if paymentStatus = some "debt" then "DEUDA" else "PAGADO"

/-- The text `new Date().toLocaleDateString('es-PE').replace(/\//g, '-')` of a file name. -/
def dashed (today : String) : String :=
  ⟨today.data.map (fun c => if c = '/' then '-' else c)⟩

/-- The row `exportData` adds for a sale.  `numText` is the text JavaScript gives a number when
it is added to a string; an absent quantity reads `undefined`. -/
def salesRow {δ : Type} (localeString : δ → String) (numText : Num → String)
    (s : ViewerSale δ) : SheetRow :=
  { cells :=
      [("date", .text (localeString s.date)),
       ("client", textCell s.client),
       ("product", textCell s.product),
       ("qty", .text ((match s.quantity with
                        | some q => numText q
                        | none => "undefined") ++ orElse s.unit "")),
       ("total", numberCell s.total),
       ("status", .text (statusText s.paymentStatus))]
    statusFont := none }

/-- The row `exportData` adds for an expense. -/
def expenseRow {δ : Type} (localeString : δ → String) (e : ViewerExpense δ) : SheetRow :=
  { cells :=
      [("date", .text (localeString e.date)),
       ("cat", textCell e.category),
       ("desc", textCell e.description),
       ("amount", numberCell e.amount)]
    statusFont := none }

/-- `exportData(type)` of `viewer-app/src/App.jsx`, up to the worksheet handed to the
spreadsheet library. -/
def exportData {δ : Type} (localeString : δ → String) (numText : Num → String) (today : String)
    (kind : ExportKind) (sales : List (ViewerSale δ)) (expenses : List (ViewerExpense δ)) :
    Sheet :=
  match kind with
  | .sales =>
    { name := "Ventas"
      columns :=
        [{ header := "Fecha", key := "date", width := 20 },
         { header := "Cliente", key := "client", width := 25 },
         { header := "Producto", key := "product", width := 25 },
         { header := "Cantidad", key := "qty", width := 10 },
         { header := "Total", key := "total", width := 15 },
         { header := "Estado", key := "status", width := 15 }]
      rows := sales.foldl (fun rows s => rows ++ [salesRow localeString numText s]) []
      fileName := "Reporte_sales_" ++ dashed today ++ ".xlsx" }
  | .expenses =>
    { name := "Gastos"
      columns :=
        [{ header := "Fecha", key := "date", width := 20 },
         { header := "Categoría", key := "cat", width := 20 },
         { header := "Descripción", key := "desc", width := 35 },
         { header := "Monto", key := "amount", width := 15 }]
      rows := expenses.foldl (fun rows e => rows ++ [expenseRow localeString e]) []
      fileName := "Reporte_expenses_" ++ dashed today ++ ".xlsx" }

/-- The row `exportToExcel` adds for a sale, with its defaults for absent fields and the colour
of the status cell. -/
def excelRow {δ : Type} (localeString : δ → String) (numText : Num → String)
    (sale : ViewerSale δ) : SheetRow :=
  { cells :=
      [("date", .text (localeString sale.date)),
       ("client", .text (orElse sale.client "General")),
       ("product", .text (orElse sale.product "-")),
       ("quantity", .text (numText (match sale.quantity with
                                     | some q => if q = 0 then 1 else q
                                     | none => 1) ++ orElse sale.unit "")),
       ("total", .num (sale.total.getD 0)),
       ("status", .text (statusText sale.paymentStatus))]
    statusFont := some (if sale.paymentStatus = some "debt" then "FFFF0000" else "FF008000") }

/-- `exportToExcel` of `viewer-app/src/src/App.jsx`, up to the worksheet handed to the
spreadsheet library. -/
def exportToExcel {δ : Type} (localeString : δ → String) (numText : Num → String)
    (today : String) (sales : List (ViewerSale δ)) : Sheet :=
  { name := "Reporte de Ventas"
    columns :=
      [{ header := "Fecha", key := "date", width := 20 },
       { header := "Cliente", key := "client", width := 30 },
       { header := "Producto", key := "product", width := 30 },
       { header := "Cantidad", key := "quantity", width := 10 },
       { header := "Total (S/)", key := "total", width := 15 },
       { header := "Estado", key := "status", width := 15 }]
    rows := sales.foldl (fun rows sale => rows ++ [excelRow localeString numText sale]) []
    fileName := "Reporte_Ventas_" ++ dashed today ++ ".xlsx" }

/-! ## Lower-casing in the examples -/

/-- A `toLowerCase` for the examples: it lower-cases the ASCII letters, character by character,
and leaves every other character as it is.  On texts whose letters are ASCII the JavaScript
runtime gives what this function gives. -/
def asciiLowerCase (s : String) : String := ⟨s.data.map Char.toLower⟩

/-! ## Plain decimal texts

A number input yields texts of the form `[-]digits[.digits]`; on those `Number` is the
decimal reading below.  It is used to run the examples on typed text. -/

/-- Value of a decimal digit character. -/
def digitValue (c : Char) : Nat := c.toNat - 48

/-- Value of a run of decimal digits. -/
def readDigits (cs : List Char) : Nat :=
  cs.foldl (fun n c => 10 * n + digitValue c) 0

/-- `Number(text)` for a text of the form `[-]digits[.digits]`. -/
def parseDecimal (s : String) : Num :=
  let body := match s.data with
    | '-' :: t => t
    | cs => cs
  let whole := body.takeWhile (fun c => c ≠ '.')
  let frac := (body.dropWhile (fun c => c ≠ '.')).drop 1
  let v : Num := (readDigits whole : Num) + (readDigits frac : Num) / 10 ^ frac.length
  match s.data with
  | '-' :: _ => -v
  | _ => v

/-! ## Sample data -/

/-- A product with ten units in stock. -/
def demoProduct : Product :=
  { id := "p1", name := "Hielo en cubos", category := "Bolsa", description := "", price := 21 / 2,
    stock := 10, updatedAt := none }

/-- A filled-in sale form for three units of `demoProduct`. -/
def demoForm : Form :=
  { selectedProduct := some demoProduct, quantity := 3, clientName := "Juan Perez", unit := "U",
    paymentStatus := "paid", loading := false }

/-- The same form with the client name typed in lower case. -/
def juanForm : Form := { demoForm with clientName := "juan perez" }

/-- A store that holds `demoProduct` only, and nothing issued or shown yet. -/
def demoWorld : World :=
  { store := { clients := [], sales := [], products := [demoProduct] }, calls := [], alerts := [],
    console := [] }

/-- A cached client whose name is that of `demoForm`. -/
def demoClient : Client :=
  { id := "c0", name := "Juan Perez", phone := none, createdAt := 0 }

/-- Device A sells six units from the snapshot `demoProduct`. -/
def formA : Form := { demoForm with quantity := 6 }

/-- Device B sells seven units from the same snapshot. -/
def formB : Form := { demoForm with quantity := 7 }

/-- A stored sale of three units at 10.00. -/
def demoSale : Sale :=
  { id := "s0", product := "Hielo en cubos", productId := "p1", category := "Bolsa", quantity := 3,
    unit := "U", paymentStatus := some "debt", price := 10, total := 30, client := "Juan Perez",
    date := .text "2024-01-02T08:00:00.000Z", createdAt := 0, updatedAt := none }

/-- A history page of a registrar, with no search term. -/
def registrarPage : HistoryPage :=
  { userData := some { username := some "ana", role := some "registrar" }, searchTerm := "",
    editingSale := none, showOnlyDebts := false }

/-- A history page of an administrator, with no search term. -/
def adminPage : HistoryPage :=
  { userData := some { username := some "fabricio", role := some "admin" }, searchTerm := "",
    editingSale := none, showOnlyDebts := false }

/-- A world whose store holds `demoSale`. -/
def saleWorld : World :=
  { demoWorld with store := { demoWorld.store with sales := [demoSale] } }

/-- A runtime whose dates are ISO texts read as local time: the calendar date is the first ten
characters, the time of day the five after the `T`. -/
def isoEnv : DateEnv String :=
  { now := "2024-01-03T00:00"
    ofMillis := fun _ => "Invalid Date"
    ofValue := fun v =>
      match v with
      | .text s => s
      | .timestamp _ => "Invalid Date"
    getTime := fun _ => 0
    longDate := fun d =>
      if d.data.take 10 = "2024-01-02".data then "martes, 2 de enero de 2024"
      else if d.data.take 10 = "2024-01-01".data then "lunes, 1 de enero de 2024"
      else ⟨d.data.take 10⟩
    shortTime := fun d => ⟨(d.data.drop 11).take 5⟩
    dayMonth := fun d =>
      if d.data.take 10 = "2024-01-02".data then "martes, 2 de enero"
      else if d.data.take 10 = "2024-01-01".data then "lunes, 1 de enero"
      else ⟨(d.data.drop 5).take 5⟩ }

/-- The sale `demoSale` under another id and date. -/
def saleAt (id date : String) : Sale :=
  { demoSale with id := id, date := .text date }

/-- A runtime whose dates are milliseconds since the epoch, read in UTC, and that knows three
days: 2018-01-02 and 2024-01-02, both a Tuesday, and 2023-06-01, a Thursday. -/
def utcEnv : DateEnv Nat :=
  { now := 1704196800000
    ofMillis := fun _ => 0
    ofValue := fun _ => 0
    getTime := fun d => (d : Num)
    longDate := fun d =>
      if d / 86400000 = 17533 then "martes, 2 de enero de 2018"
      else if d / 86400000 = 19509 then "jueves, 1 de junio de 2023"
      else if d / 86400000 = 19724 then "martes, 2 de enero de 2024"
      else "otro"
    shortTime := fun _ => "12:00"
    dayMonth := fun d =>
      if d / 86400000 = 17533 then "martes, 2 de enero"
      else if d / 86400000 = 19509 then "jueves, 1 de junio"
      else if d / 86400000 = 19724 then "martes, 2 de enero"
      else "otro" }

/-- A viewer sale of 30.00 at the given time. -/
def viewerSaleAt (id : String) (date : Nat) : ViewerSale Nat :=
  { id := id, client := some "Juan Perez", product := some "Hielo en cubos", quantity := some 3,
    unit := some "U", total := some 30, paymentStatus := some "paid", date := date }


/-- An auth world where the administrator `admin1` is signed in on the primary instance. -/
def adminWorld : AuthWorld :=
  { primaryUser := some "admin1", secondaryUser := none, secondaryApp := false, profiles := [],
    calls := [], console := [] }

/-- A runtime reading of the date input of `RegisterExpense`: the cleared input gives an
invalid date, which has no ISO form; a chosen day gives midnight UTC of that day. -/
def dayToISO (d : String) : Option String :=
  if d = "" then none else some (d ++ "T00:00:00.000Z")

/-- An expense form with amount 5 and a description, on the given date text. -/
def demoExpenseForm (date : String) : ExpenseForm :=
  { amount := "5", category := "Servicios", description := "Pago de luz", date := date,
    loading := false }

/-- The form of `demoForm` with a blank typed before and after the client name. -/
def paddedForm : Form := { demoForm with clientName := " Juan Perez " }

/-- A signed-in user whose address was derived from the user name `fabricio`. -/
def fabricioUser : AuthUser :=
  { uid := "u1", email := some "fabricio@sales.app", phoneNumber := none }

/-- The state of `AuthProvider` before the first auth event. -/
def initialAuthState : AuthState := { user := none, userData := none, loading := true }

/-- The double that JavaScript reads from `10.1`. -/
def double10_1 : Num := 5685794529555251 / 562949953421312

/-- The double that JavaScript reads from `20.2`. -/
def double20_2 : Num := 5685794529555251 / 281474976710656

/-- The double that JavaScript reads from `30.3`. -/
def double30_3 : Num := 8528691794332877 / 281474976710656

/-- A viewer sale with the given total at the given time. -/
def viewerSaleOf (id : String) (date : Nat) (total : Num) : ViewerSale Nat :=
  { viewerSaleAt id date with total := some total }

/-- Three filtered sales, latest first: 10.1 on 2024-01-02, then 20.2 and 30.3 on
2023-06-01. -/
def roundingSales : List (ViewerSale Nat) :=
  [viewerSaleOf "a" 1704196800000 double10_1, viewerSaleOf "b" 1685620800000 double20_2,
   viewerSaleOf "c" 1685606400000 double30_3]

/-! ## Theorems -/

/-- A submission that passes the four guards runs the three steps and shows the success box:
the client step (nothing on a hit, one creation call on a miss), the sale write, the stock
write. -/
theorem handleSubmit_of_valid (toLowerCase : String → String) (clients : List Client) (now : String)
    (rClient rSale rStock : Reply)
    (f : Form) (w : World) (p : Product)
    (hp : f.selectedProduct = some p) (hq : 0 < f.quantity) (hc : f.clientName ≠ "")
    (hs : f.quantity ≤ p.stock) :
    handleSubmit toLowerCase clients now rClient rSale rStock f w =
      ({ f with selectedProduct := none, quantity := 1, clientName := "", loading := false },
        alert .saleRegistered
          (issue (.updateDoc p.id (.product { stock := some (p.stock - f.quantity) })) rStock
            (issue (.addDoc (.sale (saleData p f now))) rSale
              (match clients.find? (fun c => toLowerCase c.name = toLowerCase f.clientName) with
               | some _ => w
               | none => issue (.addDoc (.client { name := f.clientName })) rClient w)))) := by
  simp only [handleSubmit, hp, not_le.mpr hq, hc, not_lt.mpr hs, if_false, submitSteps, issue, saleData]

/-- Claim C1: for a selected product snapshot `p`, a quantity with `0 < q ≤ p.stock` and a
non-empty client name, when the sale write and the stock write are acknowledged (whatever the
reply to the client write), `handleSubmit` appends exactly one sale record, with
`quantity = q` and `total = p.price * q`, then overwrites the stock of the products with id
`p.id` by `p.stock - q`; the calls issued are the client step followed by the sale write and
the stock write, in that order, and the success box is shown. -/
theorem handleSubmit_persists_sale_and_deducts_stock
    (toLowerCase : String → String)
    (clients : List Client) (now : String) (rClient : Reply)
    (idSale : String) (tSale : Nat) (idStock : String) (tStock : Nat)
    (f : Form) (w : World) (p : Product)
    (hp : f.selectedProduct = some p) (hq : 0 < f.quantity) (hs : f.quantity ≤ p.stock)
    (hc : f.clientName ≠ "") :
    (handleSubmit toLowerCase clients now rClient (.ack idSale tSale) (.ack idStock tStock) f
        w).2.store.sales
        = w.store.sales ++ [(saleData p f now).toDoc idSale tSale]
    ∧ ((saleData p f now).toDoc idSale tSale).quantity = f.quantity
    ∧ ((saleData p f now).toDoc idSale tSale).total = p.price * f.quantity
    ∧ (handleSubmit toLowerCase clients now rClient (.ack idSale tSale) (.ack idStock tStock) f
        w).2.store.products
        = w.store.products.map (fun d =>
            if d.id = p.id then { d with stock := p.stock - f.quantity, updatedAt := some tStock }
            else d)
    ∧ (handleSubmit toLowerCase clients now rClient (.ack idSale tSale) (.ack idStock tStock) f
        w).2.calls
        = w.calls
          ++ (match clients.find? (fun c => toLowerCase c.name = toLowerCase f.clientName) with
              | some _ => []
              | none => [StoreCall.addDoc (.client { name := f.clientName })])
          ++ [StoreCall.addDoc (.sale (saleData p f now)),
              StoreCall.updateDoc p.id (.product { stock := some (p.stock - f.quantity) })]
    ∧ (handleSubmit toLowerCase clients now rClient (.ack idSale tSale) (.ack idStock tStock) f
        w).2.alerts
        = w.alerts ++ [Alert.saleRegistered] := by
  rw [handleSubmit_of_valid toLowerCase clients now rClient _ _ f w p hp hq hc hs]
  cases hfind : clients.find? (fun c => toLowerCase c.name = toLowerCase f.clientName) <;>
    cases rClient <;>
    simp [issue, addDocument, updateDocument, addDoc, updateDoc, alert, saleData,
      SaleData.toDoc, ProductPatch.apply]

/-- Claim C2: if no product is selected, or the quantity is not positive, or the client name is
empty, or the quantity exceeds the snapshot stock, `handleSubmit` issues no store call, leaves
the store and the form as they were, and shows one alert box that is not the success box. -/
theorem handleSubmit_invalid_no_write
    (toLowerCase : String → String)
    (clients : List Client) (now : String) (rClient rSale rStock : Reply) (f : Form) (w : World)
    (h : f.selectedProduct = none ∨ f.quantity ≤ 0 ∨ f.clientName = "" ∨
      ∃ p, f.selectedProduct = some p ∧ p.stock < f.quantity) :
    (handleSubmit toLowerCase clients now rClient rSale rStock f w).2.calls = w.calls
    ∧ (handleSubmit toLowerCase clients now rClient rSale rStock f w).2.store = w.store
    ∧ (handleSubmit toLowerCase clients now rClient rSale rStock f w).1 = f
    ∧ ∃ a, (handleSubmit toLowerCase clients now rClient rSale rStock f w).2.alerts = w.alerts
        ++ [a]
        ∧ a ≠ Alert.saleRegistered := by
  unfold handleSubmit
  cases hsel : f.selectedProduct with
  | none => simp [alert]
  | some p =>
    by_cases h1 : f.quantity ≤ 0
    · simp [h1, alert]
    · by_cases h2 : f.clientName = ""
      · simp [h1, h2, alert]
      · by_cases h3 : p.stock < f.quantity
        · simp [h1, h2, h3, alert]
        · exfalso
          rcases h with h | h | h | ⟨p', hp', hlt⟩
          · simp [hsel] at h
          · exact h1 h
          · exact h2 h
          · rw [hsel] at hp'
            cases hp'
            exact h3 hlt

/-- The `try` block of `handleSubmit` never throws: the helpers turn every store fault into a
tagged result, which the block does not inspect. -/
theorem submitSteps_never_throws (toLowerCase : String → String) (clients : List Client)
    (now : String)
    (rClient rSale rStock : Reply) (p : Product) (f : Form) (w : World) :
    ∃ r, submitSteps toLowerCase clients now rClient rSale rStock p f w = .ok r :=
  ⟨_, rfl⟩

/-- Claim C1 at three units of `demoProduct`. -/
theorem handleSubmit_witness_C1 :
    (0 : Num) < demoForm.quantity ∧ demoForm.quantity ≤ demoProduct.stock ∧
    (handleSubmit asciiLowerCase [] "2024-01-02T08:00:00.000Z" (.ack "c1" 1) (.ack "s1" 2)
        (.ack "u1" 3)
        demoForm demoWorld).2.store.products
      = demoWorld.store.products.map (fun d =>
          if d.id = demoProduct.id then
            { d with stock := demoProduct.stock - demoForm.quantity, updatedAt := some 3 }
          else d) :=
  ⟨by norm_num [demoForm], by norm_num [demoForm, demoProduct],
    (handleSubmit_persists_sale_and_deducts_stock asciiLowerCase [] "2024-01-02T08:00:00.000Z"
        (.ack "c1" 1)
      "s1" 2 "u1" 3 demoForm demoWorld demoProduct rfl (by norm_num [demoForm])
      (by norm_num [demoForm, demoProduct]) (by decide)).2.2.2.1⟩

/-- Claim C2 at eleven units against a stock of ten. -/
theorem handleSubmit_witness_C2 :
    (handleSubmit asciiLowerCase [] "2024-01-02T08:00:00.000Z" (.ack "c1" 1) (.ack "s1" 2)
        (.ack "u1" 3)
        { demoForm with quantity := 11 } demoWorld).2.calls = [] :=
  (handleSubmit_invalid_no_write asciiLowerCase [] "2024-01-02T08:00:00.000Z" (.ack "c1" 1)
      (.ack "s1" 2)
    (.ack "u1" 3) { demoForm with quantity := 11 } demoWorld
    (Or.inr (Or.inr (Or.inr ⟨demoProduct, rfl, by norm_num [demoProduct]⟩)))).1

/-- Claim C3, the code at a failing input: when the sale write faults, `handleSubmit` stores no
sale, still issues the stock write (stock goes from 10 to 7) and shows the success box, not
"Error al registrar venta"; when the stock write faults, it shows the success box as well and
the stock stays 10. -/
theorem handleSubmit_store_fault_reports_success :
    (handleSubmit asciiLowerCase [] "2024-01-02T08:00:00.000Z" (.ack "c1" 1) (.fault "unavailable")
        (.ack "u1" 3)
        demoForm demoWorld).2.store.sales = []
    ∧ (handleSubmit asciiLowerCase [] "2024-01-02T08:00:00.000Z" (.ack "c1" 1)
        (.fault "unavailable") (.ack "u1" 3)
        demoForm demoWorld).2.calls
      = [StoreCall.addDoc (.client { name := "Juan Perez" }),
         StoreCall.addDoc (.sale (saleData demoProduct demoForm "2024-01-02T08:00:00.000Z")),
         StoreCall.updateDoc "p1" (.product { stock := some 7 })]
    ∧ (handleSubmit asciiLowerCase [] "2024-01-02T08:00:00.000Z" (.ack "c1" 1)
        (.fault "unavailable") (.ack "u1" 3)
        demoForm demoWorld).2.store.products.map (fun d => d.stock) = [7]
    ∧ (handleSubmit asciiLowerCase [] "2024-01-02T08:00:00.000Z" (.ack "c1" 1)
        (.fault "unavailable") (.ack "u1" 3)
        demoForm demoWorld).2.alerts = [Alert.saleRegistered]
    ∧ (handleSubmit asciiLowerCase [] "2024-01-02T08:00:00.000Z" (.ack "c1" 1) (.ack "s1" 2)
        (.fault "unavailable")
        demoForm demoWorld).2.alerts = [Alert.saleRegistered]
    ∧ (handleSubmit asciiLowerCase [] "2024-01-02T08:00:00.000Z" (.ack "c1" 1) (.ack "s1" 2)
        (.fault "unavailable")
        demoForm demoWorld).2.store.products.map (fun d => d.stock) = [10] := by
  rw [handleSubmit_of_valid asciiLowerCase [] _ _ _ _ demoForm demoWorld demoProduct rfl
      (by norm_num [demoForm])
        (by decide) (by norm_num [demoForm, demoProduct]),
      handleSubmit_of_valid asciiLowerCase [] _ _ _ _ demoForm demoWorld demoProduct rfl
          (by norm_num [demoForm])
        (by decide) (by norm_num [demoForm, demoProduct])]
  simp [issue, addDocument, updateDocument, addDoc, updateDoc, alert, demoForm, demoWorld,
    demoProduct, ProductPatch.apply, ClientData.toDoc, SaleData.toDoc]
  norm_num

/-- A client whose lower-cased name equals the lower-cased typed name makes `find` succeed. -/
theorem find_hit {toLowerCase : String → String} {clients : List Client} {name : String}
    (h : ∃ c ∈ clients, toLowerCase c.name = toLowerCase name) :
    ∃ c, clients.find? (fun c => toLowerCase c.name = toLowerCase name) = some c := by
  cases hf : clients.find? (fun c => toLowerCase c.name = toLowerCase name) with
  | some c => exact ⟨c, rfl⟩
  | none =>
    obtain ⟨c, hc, hn⟩ := h
    have := List.find?_eq_none.mp hf c hc
    simp [hn] at this

/-- Without such a client `find` returns nothing. -/
theorem find_miss {toLowerCase : String → String} {clients : List Client} {name : String}
    (h : ∀ c ∈ clients, toLowerCase c.name ≠ toLowerCase name) :
    clients.find? (fun c => toLowerCase c.name = toLowerCase name) = none := by
  apply List.find?_eq_none.mpr
  intro c hc
  simpa using h c hc


/-- Claim C4: whatever the runtime's `toLowerCase`, if the cached client set holds a client
whose lower-cased name equals the lower-cased typed name, `handleSubmit` leaves the clients of
the store as they were and issues no client-creation call.  Scenario, for a runtime that
lower-cases "Juan Perez" and "juan perez" to the same text: "Juan Perez" submitted against an
empty cache creates one client; "juan perez" submitted next, with the store's clients as the
cache, creates none, so one client record serves both sales. -/
theorem handleSubmit_client_hit_no_creation
    (toLowerCase : String → String)
    (clients : List Client) (now : String) (rClient rSale rStock : Reply) (f : Form) (w : World)
    (h : ∃ c ∈ clients, toLowerCase c.name = toLowerCase f.clientName) :
    (handleSubmit toLowerCase clients now rClient rSale rStock f w).2.store.clients
        = w.store.clients
    ∧ (∀ d, StoreCall.addDoc (.client d)
          ∈ (handleSubmit toLowerCase clients now rClient rSale rStock f w).2.calls →
        StoreCall.addDoc (.client d) ∈ w.calls)
    ∧ (toLowerCase "Juan Perez" = toLowerCase "juan perez" →
      (handleSubmit toLowerCase [] "2024-01-02T08:00:00.000Z" (.ack "c1" 1) (.ack "s1" 2)
          (.ack "u1" 3) demoForm demoWorld).2.store.clients.map (fun c => c.name)
        = ["Juan Perez"]
      ∧ (handleSubmit toLowerCase
          (handleSubmit toLowerCase [] "2024-01-02T08:00:00.000Z" (.ack "c1" 1) (.ack "s1" 2)
            (.ack "u1" 3) demoForm demoWorld).2.store.clients
          "2024-01-02T09:00:00.000Z" (.ack "c2" 4) (.ack "s2" 5) (.ack "u2" 6) juanForm
          (handleSubmit toLowerCase [] "2024-01-02T08:00:00.000Z" (.ack "c1" 1) (.ack "s1" 2)
            (.ack "u1" 3) demoForm demoWorld).2).2.store.clients.map (fun c => c.name)
        = ["Juan Perez"]
      ∧ (handleSubmit toLowerCase
          (handleSubmit toLowerCase [] "2024-01-02T08:00:00.000Z" (.ack "c1" 1) (.ack "s1" 2)
            (.ack "u1" 3) demoForm demoWorld).2.store.clients
          "2024-01-02T09:00:00.000Z" (.ack "c2" 4) (.ack "s2" 5) (.ack "u2" 6) juanForm
          (handleSubmit toLowerCase [] "2024-01-02T08:00:00.000Z" (.ack "c1" 1) (.ack "s1" 2)
            (.ack "u1" 3) demoForm demoWorld).2).2.store.sales.map (fun s => s.client)
        = ["Juan Perez", "juan perez"]) := by
  obtain ⟨c, hc⟩ := find_hit h
  refine ⟨?_, ?_, ?_⟩
  · unfold handleSubmit
    split
    · simp [alert]
    · split_ifs <;> try simp [alert]
      cases rSale <;> cases rStock <;>
        simp [submitSteps, hc, addDocument, updateDocument, addDoc, updateDoc, alert]
  · intro d
    unfold handleSubmit
    split
    · simp [alert]
    · split_ifs <;> try simp [alert]
      cases rSale <;> cases rStock <;>
        simp [submitSteps, hc, addDocument, updateDocument, addDoc, updateDoc, alert]
  · intro hl
    rw [handleSubmit_of_valid toLowerCase [] _ _ _ _ demoForm demoWorld demoProduct rfl
          (by norm_num [demoForm]) (by decide) (by norm_num [demoForm, demoProduct])]
    simp only [List.find?_nil, issue, addDocument, addDoc, demoWorld, demoForm, List.nil_append]
    rw [handleSubmit_of_valid toLowerCase _ _ _ _ _ juanForm _ demoProduct rfl
          (by norm_num [juanForm, demoForm]) (by decide)
          (by norm_num [juanForm, demoForm, demoProduct])]
    simp [hl, issue, addDocument, updateDocument, addDoc, updateDoc, alert, juanForm, demoForm,
      saleData, SaleData.toDoc, ClientData.toDoc]

/-- Claim C4 at the cached client "Juan Perez" and the typed name "juan perez", the letters
being ASCII. -/
theorem handleSubmit_client_hit_witness :
    (handleSubmit asciiLowerCase [demoClient] "2024-01-02T09:00:00.000Z" (.ack "c2" 4)
        (.ack "s2" 5) (.ack "u2" 6) juanForm demoWorld).2.store.clients
      = demoWorld.store.clients :=
  (handleSubmit_client_hit_no_creation asciiLowerCase [demoClient] "2024-01-02T09:00:00.000Z"
    (.ack "c2" 4) (.ack "s2" 5) (.ack "u2" 6) juanForm demoWorld
    ⟨demoClient, List.mem_singleton.mpr rfl, by decide⟩).1

/-- Claim C5: on a miss a valid submission issues one client-creation call, then the sale write
and the stock write; whatever the reply to the creation call (acknowledged or fault), the
sales, the products, the form and the alert boxes end as on a hit, and the only box shown is
the success box. -/
theorem handleSubmit_client_miss_fire_and_forget
    (toLowerCase : String → String)
    (clients clientsHit : List Client) (now : String) (rClient rSale rStock : Reply)
    (f : Form) (w : World) (p : Product)
    (hp : f.selectedProduct = some p) (hq : 0 < f.quantity) (hs : f.quantity ≤ p.stock)
    (hc : f.clientName ≠ "")
    (hmiss : ∀ c ∈ clients, toLowerCase c.name ≠ toLowerCase f.clientName)
    (hhit : ∃ c ∈ clientsHit, toLowerCase c.name = toLowerCase f.clientName) :
    (handleSubmit toLowerCase clients now rClient rSale rStock f w).2.calls
        = w.calls ++ [StoreCall.addDoc (.client { name := f.clientName }),
            StoreCall.addDoc (.sale (saleData p f now)),
            StoreCall.updateDoc p.id (.product { stock := some (p.stock - f.quantity) })]
    ∧ (handleSubmit toLowerCase clientsHit now rClient rSale rStock f w).2.calls
        = w.calls ++ [StoreCall.addDoc (.sale (saleData p f now)),
            StoreCall.updateDoc p.id (.product { stock := some (p.stock - f.quantity) })]
    ∧ (handleSubmit toLowerCase clients now rClient rSale rStock f w).2.store.sales
        = (handleSubmit toLowerCase clientsHit now rClient rSale rStock f w).2.store.sales
    ∧ (handleSubmit toLowerCase clients now rClient rSale rStock f w).2.store.products
        = (handleSubmit toLowerCase clientsHit now rClient rSale rStock f w).2.store.products
    ∧ (handleSubmit toLowerCase clients now rClient rSale rStock f w).1
        = (handleSubmit toLowerCase clientsHit now rClient rSale rStock f w).1
    ∧ (handleSubmit toLowerCase clients now rClient rSale rStock f w).2.alerts
        = (handleSubmit toLowerCase clientsHit now rClient rSale rStock f w).2.alerts
    ∧ (handleSubmit toLowerCase clients now rClient rSale rStock f w).2.alerts
        = w.alerts ++ [Alert.saleRegistered] := by
  obtain ⟨c, hfind⟩ := find_hit hhit
  rw [handleSubmit_of_valid toLowerCase clients now rClient rSale rStock f w p hp hq hc hs,
    handleSubmit_of_valid toLowerCase clientsHit now rClient rSale rStock f w p hp hq hc hs,
    find_miss hmiss, hfind]
  cases rClient <;> cases rSale <;> cases rStock <;>
    simp [issue, addDocument, updateDocument, addDoc, updateDoc, alert]

/-- Claim C5 at a faulted client creation. -/
theorem handleSubmit_witness_C5 :
    (handleSubmit asciiLowerCase [] "2024-01-02T08:00:00.000Z" (.fault "unavailable") (.ack "s1" 2)
        (.ack "u1" 3)
        demoForm demoWorld).2.alerts = demoWorld.alerts ++ [Alert.saleRegistered] :=
  (handleSubmit_client_miss_fire_and_forget asciiLowerCase []
    [{ id := "c1", name := "JUAN PEREZ", phone := none, createdAt := 0 }]
    "2024-01-02T08:00:00.000Z" (.fault "unavailable") (.ack "s1" 2) (.ack "u1" 3)
    demoForm demoWorld demoProduct rfl (by norm_num [demoForm])
    (by norm_num [demoForm, demoProduct]) (by decide) (by simp)
    ⟨_, List.mem_singleton.mpr rfl, by decide⟩).2.2.2.2.2.2

/-- Claim C6: the persisted sale record has product name, productId, category and price of the
selected snapshot `p`, the typed client name, the chosen unit and payment status; a later
update of any product document, with any fields and any reply, leaves the sales as they
are. -/
theorem handleSubmit_sale_snapshot_fields
    (toLowerCase : String → String)
    (clients : List Client) (now : String) (rClient rStock : Reply) (idSale : String) (tSale : Nat)
    (f : Form) (w : World) (p : Product)
    (hp : f.selectedProduct = some p) (hq : 0 < f.quantity) (hs : f.quantity ≤ p.stock)
    (hc : f.clientName ≠ "") :
    ∃ s : Sale,
      (handleSubmit toLowerCase clients now rClient (.ack idSale tSale) rStock f w).2.store.sales
        = w.store.sales ++ [s]
      ∧ s.product = p.name ∧ s.productId = p.id ∧ s.category = p.category ∧ s.price = p.price
      ∧ s.client = f.clientName ∧ s.unit = f.unit ∧ s.paymentStatus = some f.paymentStatus
      ∧ ∀ (r : Reply) (id : String) (patch : ProductPatch),
          (issue (.updateDoc id (.product patch)) r
            (handleSubmit toLowerCase clients now rClient (.ack idSale tSale) rStock f
                w).2).store.sales
          = w.store.sales ++ [s] := by
  refine ⟨(saleData p f now).toDoc idSale tSale, ?_⟩
  rw [handleSubmit_of_valid toLowerCase clients now rClient _ rStock f w p hp hq hc hs]
  cases hfind : clients.find? (fun c => toLowerCase c.name = toLowerCase f.clientName) <;>
    cases rClient <;> cases rStock <;>
    simp [issue, addDocument, updateDocument, addDoc, updateDoc, alert, saleData, SaleData.toDoc] <;>
    intro r id patch <;> cases r <;> simp

/-- Claim C6 at `demoForm`. -/
theorem handleSubmit_witness_C6 :
    ∃ s : Sale,
      (handleSubmit asciiLowerCase [] "2024-01-02T08:00:00.000Z" (.ack "c1" 1) (.ack "s1" 2)
          (.ack "u1" 3)
        demoForm demoWorld).2.store.sales = demoWorld.store.sales ++ [s]
      ∧ s.product = "Hielo en cubos" ∧ s.price = 21 / 2 :=
  match handleSubmit_sale_snapshot_fields asciiLowerCase [] "2024-01-02T08:00:00.000Z" (.ack "c1" 1)
      (.ack "u1" 3)
      "s1" 2 demoForm demoWorld demoProduct rfl (by norm_num [demoForm])
      (by norm_num [demoForm, demoProduct]) (by decide) with
  | ⟨s, h1, h2, _, _, h5, _⟩ => ⟨s, h1, h2, h5⟩

/-- Claim C7: every product update that `handleSubmit` issues is the stock overwrite of the
selected snapshot `p` with `p.stock - quantity`, and that value is at least 0. -/
theorem handleSubmit_written_stock_nonneg
    (toLowerCase : String → String)
    (clients : List Client) (now : String) (rClient rSale rStock : Reply) (f : Form) (w : World)
    (id : String) (patch : ProductPatch)
    (h : StoreCall.updateDoc id (.product patch)
          ∈ (handleSubmit toLowerCase clients now rClient rSale rStock f w).2.calls.drop
              w.calls.length) :
    ∃ p, f.selectedProduct = some p ∧ id = p.id
      ∧ patch = { stock := some (p.stock - f.quantity) } ∧ 0 ≤ p.stock - f.quantity := by
  unfold handleSubmit at h
  cases hsel : f.selectedProduct with
  | none => simp [hsel, alert] at h
  | some p =>
    simp only [hsel] at h
    by_cases h1 : f.quantity ≤ 0
    · simp [h1, alert] at h
    · by_cases h2 : f.clientName = ""
      · simp [h1, h2, alert] at h
      · by_cases h3 : p.stock < f.quantity
        · simp [h1, h2, h3, alert] at h
        · refine ⟨p, rfl, ?_⟩
          have hdrop : ∀ (a b : List StoreCall), (a ++ b).drop a.length = b := by
            intro a b; simp
          cases hfind : clients.find? (fun c => toLowerCase c.name = toLowerCase f.clientName) <;>
            cases rClient <;> cases rSale <;> cases rStock <;>
            simp [h1, h2, h3, submitSteps, hfind, addDocument, updateDocument, addDoc, updateDoc,
              alert] at h <;>
            (obtain ⟨rfl, rfl⟩ := h; exact ⟨rfl, rfl, sub_nonneg.mpr (not_lt.mp h3)⟩)

/-- Claim C7 at `demoForm`: the stock write of value 7 is issued. -/
theorem handleSubmit_witness_C7 :
    ∃ p, demoForm.selectedProduct = some p ∧ "p1" = p.id
      ∧ ({ stock := some 7 } : ProductPatch) = { stock := some (p.stock - demoForm.quantity) }
      ∧ 0 ≤ p.stock - demoForm.quantity :=
  handleSubmit_written_stock_nonneg asciiLowerCase [] "2024-01-02T08:00:00.000Z" (.ack "c1" 1)
      (.ack "s1" 2)
    (.ack "u1" 3) demoForm demoWorld "p1" { stock := some 7 } (by
      rw [handleSubmit_of_valid asciiLowerCase [] _ _ _ _ demoForm demoWorld demoProduct rfl
        (by norm_num [demoForm]) (by decide) (by norm_num [demoForm, demoProduct])]
      simp [issue, addDocument, updateDocument, addDoc, updateDoc, alert, demoWorld, demoForm,
        demoProduct]
      norm_num)

/-- The store and the call log after `handleSubmit` are those after running its schedule of
helper calls; `handleSubmit` adds only the alert box. -/
theorem handleSubmit_eq_runCalls (toLowerCase : String → String) (clients : List Client)
    (now : String)
    (rClient rSale rStock : Reply) (f : Form) (w : World) :
    (handleSubmit toLowerCase clients now rClient rSale rStock f w).2.store
        = (runCalls (submitSchedule toLowerCase clients now rClient rSale rStock f) w).store
    ∧ (handleSubmit toLowerCase clients now rClient rSale rStock f w).2.calls
        = (runCalls (submitSchedule toLowerCase clients now rClient rSale rStock f) w).calls := by
  unfold handleSubmit submitSchedule
  cases f.selectedProduct with
  | none => simp [alert, runCalls]
  | some p =>
    by_cases h1 : f.quantity ≤ 0
    · simp [h1, alert, runCalls]
    · by_cases h2 : f.clientName = ""
      · simp [h1, h2, alert, runCalls]
      · by_cases h3 : p.stock < f.quantity
        · simp [h1, h2, h3, alert, runCalls]
        · cases hfind : clients.find? (fun c => toLowerCase c.name = toLowerCase f.clientName) <;>
            simp [h1, h2, h3, hfind, submitSteps, alert, runCalls, issue, saleData]

/-- The schedule of a submission that passes the guards. -/
theorem submitSchedule_of_valid (toLowerCase : String → String) (clients : List Client)
    (now : String)
    (rClient rSale rStock : Reply) (f : Form) (p : Product)
    (hp : f.selectedProduct = some p) (hq : 0 < f.quantity) (hc : f.clientName ≠ "")
    (hs : f.quantity ≤ p.stock) :
    submitSchedule toLowerCase clients now rClient rSale rStock f =
      (match clients.find? (fun c => toLowerCase c.name = toLowerCase f.clientName) with
        | some _ => []
        | none => [(StoreCall.addDoc (.client { name := f.clientName }), rClient)])
      ++ [(StoreCall.addDoc (.sale (saleData p f now)), rSale),
          (StoreCall.updateDoc p.id (.product { stock := some (p.stock - f.quantity) }), rStock)] := by
  simp only [submitSchedule, hp, not_le.mpr hq, hc, not_lt.mpr hs, if_false]

/-- Claim C8: there are a snapshot `p` (stock 10) and two forms built from it (6 and 7 units),
each within the stock and together above it, such that both submissions pass validation and
persist their sale; run one after the other the stored stock ends as `p.stock` minus the
quantity of the second; and in every interleaving of their awaited store calls both sale
records are stored and the stock ends as the value of the last stock write, which is
`p.stock - 6` or `p.stock - 7`, never `p.stock - 6 - 7` (that would be negative). -/
theorem handleSubmit_overdraw_race :
    ∃ (p : Product) (fA fB : Form),
      fA.selectedProduct = some p ∧ fB.selectedProduct = some p
      ∧ fA.quantity ≤ p.stock ∧ fB.quantity ≤ p.stock ∧ p.stock < fA.quantity + fB.quantity
      -- the store after a submission is the store after its schedule of helper calls
      ∧ (∀ w, (handleSubmit asciiLowerCase [demoClient] "tA" (.ack "cA" 1) (.ack "sA" 2)
          (.ack "uA" 3) fA w).2.store
          = (runCalls (submitSchedule asciiLowerCase [demoClient] "tA" (.ack "cA" 1) (.ack "sA" 2)
              (.ack "uA" 3) fA)
              w).store)
      ∧ (∀ w, (handleSubmit asciiLowerCase [demoClient] "tB" (.ack "cB" 4) (.ack "sB" 5)
          (.ack "uB" 6) fB w).2.store
          = (runCalls (submitSchedule asciiLowerCase [demoClient] "tB" (.ack "cB" 4) (.ack "sB" 5)
              (.ack "uB" 6) fB)
              w).store)
      -- A then B, each a whole `handleSubmit`
      ∧ (handleSubmit asciiLowerCase [demoClient] "tB" (.ack "cB" 4) (.ack "sB" 5) (.ack "uB" 6) fB
          (handleSubmit asciiLowerCase [demoClient] "tA" (.ack "cA" 1) (.ack "sA" 2) (.ack "uA" 3)
              fA
            demoWorld).2).2.store.sales.map (fun s => s.quantity) = [fA.quantity, fB.quantity]
      ∧ (handleSubmit asciiLowerCase [demoClient] "tB" (.ack "cB" 4) (.ack "sB" 5) (.ack "uB" 6) fB
          (handleSubmit asciiLowerCase [demoClient] "tA" (.ack "cA" 1) (.ack "sA" 2) (.ack "uA" 3)
              fA
            demoWorld).2).2.alerts = [Alert.saleRegistered, Alert.saleRegistered]
      ∧ (handleSubmit asciiLowerCase [demoClient] "tB" (.ack "cB" 4) (.ack "sB" 5) (.ack "uB" 6) fB
          (handleSubmit asciiLowerCase [demoClient] "tA" (.ack "cA" 1) (.ack "sA" 2) (.ack "uA" 3)
              fA
            demoWorld).2).2.store.products.map (fun d => d.stock) = [p.stock - fB.quantity]
      -- B then A
      ∧ (handleSubmit asciiLowerCase [demoClient] "tA" (.ack "cA" 1) (.ack "sA" 2) (.ack "uA" 3) fA
          (handleSubmit asciiLowerCase [demoClient] "tB" (.ack "cB" 4) (.ack "sB" 5) (.ack "uB" 6)
              fB
            demoWorld).2).2.store.products.map (fun d => d.stock) = [p.stock - fA.quantity]
      -- every interleaving of the awaited store calls of the two submissions
      ∧ ∀ sched ∈ merges
            (submitSchedule asciiLowerCase [demoClient] "tA" (.ack "cA" 1) (.ack "sA" 2)
                (.ack "uA" 3) fA)
            (submitSchedule asciiLowerCase [demoClient] "tB" (.ack "cB" 4) (.ack "sB" 5)
                (.ack "uB" 6) fB),
          (saleData p fA "tA").toDoc "sA" 2 ∈ (runCalls sched demoWorld).store.sales
          ∧ (saleData p fB "tB").toDoc "sB" 5 ∈ (runCalls sched demoWorld).store.sales
          ∧ (runCalls sched demoWorld).store.sales.length = 2
          ∧ ∃ v, lastStockWrite sched = some v
              ∧ (runCalls sched demoWorld).store.products.map (fun d => d.stock) = [v]
              ∧ (v = p.stock - fA.quantity ∨ v = p.stock - fB.quantity)
              ∧ v ≠ p.stock - fA.quantity - fB.quantity
              ∧ 0 ≤ v ∧ p.stock - fA.quantity - fB.quantity < 0 := by
  have hfind : ∀ f : Form, f.clientName = "Juan Perez" →
      [demoClient].find? (fun c => asciiLowerCase c.name = asciiLowerCase f.clientName)
        = some demoClient := by
    intro f hf
    rw [hf]
    decide
  have hA : ∀ w rC rS rK, handleSubmit asciiLowerCase [demoClient] "tA" rC rS rK formA
      w = _ := fun w rC rS rK =>
    handleSubmit_of_valid asciiLowerCase [demoClient] "tA" rC rS rK formA w demoProduct rfl
      (by norm_num [formA, demoForm]) (by decide) (by norm_num [formA, demoForm, demoProduct])
  have hB : ∀ w rC rS rK, handleSubmit asciiLowerCase [demoClient] "tB" rC rS rK formB
      w = _ := fun w rC rS rK =>
    handleSubmit_of_valid asciiLowerCase [demoClient] "tB" rC rS rK formB w demoProduct rfl
      (by norm_num [formB, demoForm]) (by decide) (by norm_num [formB, demoForm, demoProduct])
  refine ⟨demoProduct, formA, formB, rfl, rfl, by norm_num [formA, demoForm, demoProduct],
    by norm_num [formB, demoForm, demoProduct], by norm_num [formA, formB, demoForm, demoProduct],
    fun w => (handleSubmit_eq_runCalls asciiLowerCase _ _ _ _ _ _ w).1,
    fun w => (handleSubmit_eq_runCalls asciiLowerCase _ _ _ _ _ _ w).1,
    ?_, ?_, ?_, ?_, ?_⟩
  · rw [hB, hA, hfind formA rfl, hfind formB rfl]
    simp [issue, addDocument, updateDocument, addDoc, updateDoc, alert, saleData, SaleData.toDoc,
      demoWorld]
  · rw [hB, hA, hfind formA rfl, hfind formB rfl]
    simp [issue, addDocument, updateDocument, addDoc, updateDoc, alert, demoWorld]
  · rw [hB, hA, hfind formA rfl, hfind formB rfl]
    simp [issue, addDocument, updateDocument, addDoc, updateDoc, alert, demoWorld,
      ProductPatch.apply, demoProduct]
  · rw [hA, hB, hfind formA rfl, hfind formB rfl]
    simp [issue, addDocument, updateDocument, addDoc, updateDoc, alert, demoWorld,
      ProductPatch.apply, demoProduct]
  · intro sched hmem
    have hsA : submitSchedule asciiLowerCase [demoClient] "tA" (.ack "cA" 1) (.ack "sA" 2)
        (.ack "uA" 3) formA
        = [(StoreCall.addDoc (.sale (saleData demoProduct formA "tA")), .ack "sA" 2),
           (StoreCall.updateDoc "p1" (.product { stock := some (10 - 6) }), .ack "uA" 3)] := by
      rw [submitSchedule_of_valid asciiLowerCase _ _ _ _ _ formA demoProduct rfl
          (by norm_num [formA, demoForm])
        (by decide) (by norm_num [formA, demoForm, demoProduct]), hfind formA rfl]
      norm_num [formA, demoForm, demoProduct]
    have hsB : submitSchedule asciiLowerCase [demoClient] "tB" (.ack "cB" 4) (.ack "sB" 5)
        (.ack "uB" 6) formB
        = [(StoreCall.addDoc (.sale (saleData demoProduct formB "tB")), .ack "sB" 5),
           (StoreCall.updateDoc "p1" (.product { stock := some (10 - 7) }), .ack "uB" 6)] := by
      rw [submitSchedule_of_valid asciiLowerCase _ _ _ _ _ formB demoProduct rfl
          (by norm_num [formB, demoForm])
        (by decide) (by norm_num [formB, demoForm, demoProduct]), hfind formB rfl]
      norm_num [formB, demoForm, demoProduct]
    rw [hsA, hsB] at hmem
    simp only [merges, List.map_cons, List.map_nil, List.cons_append, List.nil_append,
      List.mem_cons, List.mem_singleton, List.not_mem_nil, or_false] at hmem
    rcases hmem with rfl | rfl | rfl | rfl | rfl | rfl <;>
      simp [runCalls, issue, addDocument, updateDocument, addDoc, updateDoc, demoWorld,
        lastStockWrite, ProductPatch.apply, demoProduct, formA, formB, demoForm] <;>
      norm_num

/-- `updateDocument` issues exactly one `updateDoc` call, whatever the reply. -/
theorem updateDocument_calls (r : Reply) (id : String) (patch : Patch) (w : World) :
    (updateDocument r id patch w).2.calls = w.calls ++ [StoreCall.updateDoc id patch] := by
  cases r <;> cases patch <;> rfl

/-- `addDocument` issues exactly one `addDoc` call, whatever the reply. -/
theorem addDocument_calls (r : Reply) (data : NewDoc) (w : World) :
    (addDocument r data w).2.calls = w.calls ++ [StoreCall.addDoc data] := by
  cases r <;> cases data <;> rfl

/-- Claim C9: `handleSave` issues exactly one store call, the update of that sale with the edited
client, `Number(quantity)`, `Number(price)` and `total = Number(quantity) * Number(price)`;
no call it issues is aimed at a collection other than `sales_v2`, and the products of the store
are unchanged whatever the reply; when acknowledged the stored sale carries those four values.  Quantity 3 and price 10.00 give total 30, both as numbers and
as the typed texts "3" and "10.00". -/
theorem handleSave_recomputes_total_keeps_stock
    (parseNumber : String → Num) (r : Reply) (id : String) (t : Nat) (sale : Sale)
    (m : EditModal) (w : World) :
    (handleSave parseNumber r sale m w).2.calls
        = w.calls ++ [StoreCall.updateDoc sale.id (.sale
            { client := some m.formData.client
              quantity := some (Number parseNumber m.formData.quantity)
              price := some (Number parseNumber m.formData.price)
              total := some (Number parseNumber m.formData.quantity
                              * Number parseNumber m.formData.price) })]
    ∧ (∀ c ∈ (handleSave parseNumber r sale m w).2.calls.drop w.calls.length,
        c.coll = Coll.sales_v2)
    ∧ (handleSave parseNumber r sale m w).2.store.products = w.store.products
    ∧ (handleSave parseNumber (.ack id t) sale m w).2.store.sales
        = w.store.sales.map (fun d =>
            if d.id = sale.id then
              { d with
                client := m.formData.client
                quantity := Number parseNumber m.formData.quantity
                price := Number parseNumber m.formData.price
                total := Number parseNumber m.formData.quantity
                          * Number parseNumber m.formData.price
                updatedAt := some t }
            else d)
    ∧ (handleSave parseNumber r sale
          { m with formData := { client := m.formData.client, quantity := .num 3, price := .num 10 } }
          w).2.calls
        = w.calls ++ [StoreCall.updateDoc sale.id (.sale
            { client := some m.formData.client, quantity := some 3, price := some 10,
              total := some 30 })]
    ∧ (handleSave parseDecimal r sale
          (handleChange "price" "10.00" (handleChange "quantity" "3" (EditModal.ofSale sale)))
          w).2.calls
        = w.calls ++ [StoreCall.updateDoc sale.id (.sale
            { client := some sale.client, quantity := some 3, price := some 10,
              total := some 30 })] := by
  refine ⟨?_, ?_, ?_, ?_, ?_, ?_⟩
  · simp [handleSave, saveSteps, updateDocument_calls]
  · simp [handleSave, saveSteps, updateDocument_calls, StoreCall.coll, Patch.coll]
  · cases r <;> simp [handleSave, saveSteps, updateDocument, updateDoc]
  · simp [handleSave, saveSteps, updateDocument, updateDoc, SalePatch.apply]
  · simp only [handleSave, saveSteps, updateDocument_calls, Number]
    norm_num
  · simp only [handleSave, saveSteps, updateDocument_calls, Number, handleChange, EditModal.ofSale]
    simp [parseDecimal, readDigits, digitValue]
    norm_num

/-- Claim C10: if every stored sale has `total = quantity * price`, the same holds after
`handleSubmit`, after `handleSave` and after `togglePaymentStatus`, for all inputs and
replies; and the record `handleSubmit` creates has `total = quantity * price`. -/
theorem sale_total_invariant
    (toLowerCase : String → String)
    (clients : List Client) (now : String) (rClient rSale rStock r : Reply) (f : Form)
    (parseNumber : String → Num) (sale : Sale) (m : EditModal) (w : World)
    (h : totalsOk w.store) :
    totalsOk (handleSubmit toLowerCase clients now rClient rSale rStock f w).2.store
    ∧ totalsOk (handleSave parseNumber r sale m w).2.store
    ∧ totalsOk (togglePaymentStatus r sale w).store
    ∧ ∀ (p : Product) (id : String) (t : Nat),
        ((saleData p f now).toDoc id t).total
          = ((saleData p f now).toDoc id t).quantity * ((saleData p f now).toDoc id t).price := by
  unfold totalsOk at *
  refine ⟨?_, ?_, ?_, ?_⟩
  · rw [(handleSubmit_eq_runCalls toLowerCase clients now rClient rSale rStock f w).1]
    unfold submitSchedule
    cases f.selectedProduct with
    | none => simpa [runCalls] using h
    | some p =>
      by_cases h1 : f.quantity ≤ 0
      · simpa [h1, runCalls] using h
      · by_cases h2 : f.clientName = ""
        · simpa [h1, h2, runCalls] using h
        · by_cases h3 : p.stock < f.quantity
          · simpa [h1, h2, h3, runCalls] using h
          · cases hfind : clients.find? (fun c => toLowerCase c.name = toLowerCase f.clientName) <;>
              cases rClient <;> cases rSale <;> cases rStock <;>
              simp [h1, h2, h3, runCalls, issue, addDocument, updateDocument, addDoc,
                updateDoc, saleData, SaleData.toDoc] <;>
              first
                | exact h
                | (intro s hs
                   rcases hs with hs | rfl
                   · exact h s hs
                   · simp [mul_comm])
  · cases r with
    | fault msg => simpa [handleSave, saveSteps, updateDocument, updateDoc] using h
    | ack id t =>
      simp only [handleSave, saveSteps, updateDocument, updateDoc, List.mem_map]
      rintro s ⟨d, hd, rfl⟩
      by_cases hid : d.id = sale.id
      · simp [hid, SalePatch.apply]
      · simpa [hid] using h d hd
  · cases r with
    | fault msg => simpa [togglePaymentStatus, toggleSteps, updateDocument, updateDoc] using h
    | ack id t =>
      simp only [togglePaymentStatus, toggleSteps, updateDocument, updateDoc, List.mem_map]
      rintro s ⟨d, hd, rfl⟩
      by_cases hid : d.id = sale.id
      · simpa [hid, SalePatch.apply] using h d hd
      · simpa [hid] using h d hd
  · intro p id t
    simp [saleData, SaleData.toDoc, mul_comm]

/-- Claim C10 at a stored sale of 3 units at 10.00 whose quantity is edited to 4. -/
theorem sale_total_invariant_witness :
    totalsOk { demoWorld.store with sales := [demoSale] }
    ∧ totalsOk (handleSave parseDecimal (.ack "s0" 9) demoSale
        (handleChange "quantity" "4" (EditModal.ofSale demoSale))
        { demoWorld with store := { demoWorld.store with sales := [demoSale] } }).2.store :=
  have h : totalsOk { demoWorld.store with sales := [demoSale] } := by
    simp [totalsOk, demoSale]
    norm_num
  ⟨h, (sale_total_invariant asciiLowerCase [] "2024-01-02T08:00:00.000Z" (.ack "c1" 1) (.ack "s1" 2)
      (.ack "u1" 3)
      (.ack "s0" 9) demoForm parseDecimal demoSale
      (handleChange "quantity" "4" (EditModal.ofSale demoSale))
      { demoWorld with store := { demoWorld.store with sales := [demoSale] } } h).2.1⟩

/-! ## Theorems on updates, deletion, the collection hook and the history lists -/

/-- Claim C11: the update that `handleSave` issues carries client, quantity, price and total and
no other field; the update that `togglePaymentStatus` issues carries paymentStatus and no other
field.  Whatever the reply, both leave id, productId, product name, category, unit, date and
creation time of every stored sale as they were; `handleSave` also leaves paymentStatus, and
`togglePaymentStatus` leaves client, quantity, price and total.  When acknowledged, the sale
with that id gets the server time as `updatedAt`. -/
theorem sale_updates_leave_snapshot_fields
    (parseNumber : String → Num) (r : Reply) (id : String) (t : Nat) (sale : Sale)
    (m : EditModal) (w : World) :
    (∃ patch : SalePatch,
        (handleSave parseNumber r sale m w).2.calls
          = w.calls ++ [StoreCall.updateDoc sale.id (.sale patch)]
        ∧ patch.client.isSome ∧ patch.quantity.isSome ∧ patch.price.isSome ∧ patch.total.isSome
        ∧ patch.paymentStatus = none ∧ patch.productId = none ∧ patch.product = none
        ∧ patch.category = none ∧ patch.unit = none ∧ patch.date = none)
    ∧ (∃ patch : SalePatch,
        (togglePaymentStatus r sale w).calls
          = w.calls ++ [StoreCall.updateDoc sale.id (.sale patch)]
        ∧ patch.paymentStatus.isSome
        ∧ patch.client = none ∧ patch.quantity = none ∧ patch.price = none ∧ patch.total = none
        ∧ patch.productId = none ∧ patch.product = none
        ∧ patch.category = none ∧ patch.unit = none ∧ patch.date = none)
    ∧ (handleSave parseNumber r sale m w).2.store.sales.map snapshotFields
        = w.store.sales.map snapshotFields
    ∧ (handleSave parseNumber r sale m w).2.store.sales.map (fun d => d.paymentStatus)
        = w.store.sales.map (fun d => d.paymentStatus)
    ∧ (togglePaymentStatus r sale w).store.sales.map snapshotFields
        = w.store.sales.map snapshotFields
    ∧ (togglePaymentStatus r sale w).store.sales.map (fun d => (d.client, d.quantity, d.price, d.total))
        = w.store.sales.map (fun d => (d.client, d.quantity, d.price, d.total))
    ∧ (∀ d ∈ (handleSave parseNumber (.ack id t) sale m w).2.store.sales,
        d.id = sale.id → d.updatedAt = some t)
    ∧ (∀ d ∈ (togglePaymentStatus (.ack id t) sale w).store.sales,
        d.id = sale.id → d.updatedAt = some t) := by
  refine ⟨⟨{ client := some m.formData.client,
              quantity := some (Number parseNumber m.formData.quantity),
              price := some (Number parseNumber m.formData.price),
              total := some (Number parseNumber m.formData.quantity
                              * Number parseNumber m.formData.price) },
      ?_, rfl, rfl, rfl, rfl, rfl, rfl, rfl, rfl, rfl, rfl⟩,
    ⟨{ paymentStatus :=
          some (if orElse sale.paymentStatus "paid" = "paid" then "debt" else "paid") },
      ?_, rfl, rfl, rfl, rfl, rfl, rfl, rfl, rfl, rfl, rfl⟩, ?_, ?_, ?_, ?_, ?_, ?_⟩
  · simp only [handleSave, saveSteps, updateDocument_calls]
  · simp only [togglePaymentStatus, toggleSteps, updateDocument_calls]
  · cases r <;> simp [handleSave, saveSteps, updateDocument, updateDoc]
    intro d _
    split_ifs <;> simp [snapshotFields, SalePatch.apply]
  · cases r <;> simp [handleSave, saveSteps, updateDocument, updateDoc]
    intro d _
    split_ifs <;> simp [SalePatch.apply]
  · cases r <;> simp [togglePaymentStatus, toggleSteps, updateDocument, updateDoc]
    intro d _
    split_ifs <;> simp [snapshotFields, SalePatch.apply]
  · cases r <;> simp [togglePaymentStatus, toggleSteps, updateDocument, updateDoc]
    intro d _
    split_ifs <;> simp [SalePatch.apply]
  · simp only [handleSave, saveSteps, updateDocument, updateDoc, List.mem_map]
    rintro d ⟨d0, _, rfl⟩ hid
    by_cases h0 : d0.id = sale.id
    · simp [h0, SalePatch.apply]
    · simp [h0] at hid
  · simp only [togglePaymentStatus, toggleSteps, updateDocument, updateDoc, List.mem_map]
    rintro d ⟨d0, _, rfl⟩ hid
    by_cases h0 : d0.id = sale.id
    · simp [h0, SalePatch.apply]
    · simp [h0] at hid

/-- Claim C11 at `demoSale`, toggled while stored. -/
theorem sale_updates_witness :
    (togglePaymentStatus (.ack "" 9) demoSale saleWorld).store.sales.map snapshotFields
      = saleWorld.store.sales.map snapshotFields :=
  (sale_updates_leave_snapshot_fields parseDecimal (.ack "" 9) "" 9 demoSale
    (EditModal.ofSale demoSale) saleWorld).2.2.2.2.1

/-- `deleteDocument` issues exactly one `deleteDoc` call, whatever the reply. -/
theorem deleteDocument_calls (r : Reply) (coll : Coll) (id : String) (w : World) :
    (deleteDocument r coll id w).2.calls = w.calls ++ [StoreCall.deleteDoc coll id] := by
  cases r <;> cases coll <;> rfl

/-- Claim C12: for a user whose role is not `admin` the sale row of `History` has no delete
button, so an attempt to delete through the page reaches no handler and issues no store call;
whatever button of the row such a user clicks, no delete call is issued.  For an administrator
the button is there and its click runs `handleDelete`, which does nothing when the confirmation
is declined and issues exactly one `deleteDoc` on `sales_v2` when it is accepted. -/
theorem history_delete_button_admin_only
    (page admin : HistoryPage) (sale : Sale) (confirmed : Bool) (r : Reply) (w : World)
    (hrole : page.userData.bind (fun u => u.role) ≠ some "admin")
    (hadmin : admin.userData.bind (fun u => u.role) = some "admin") :
    RowButton.delete ∉ rowButtons page.userData
    ∧ clickRowButton page .delete sale confirmed r w = (page, w)
    ∧ (∀ (b : RowButton) (coll : Coll) (id : String),
        StoreCall.deleteDoc coll id ∈ (clickRowButton page b sale confirmed r w).2.calls →
        StoreCall.deleteDoc coll id ∈ w.calls)
    ∧ RowButton.delete ∈ rowButtons admin.userData
    ∧ clickRowButton admin .delete sale confirmed r w
        = (admin, handleDelete confirmed r sale.id w)
    ∧ handleDelete false r sale.id w = w
    ∧ (handleDelete true r sale.id w).calls
        = w.calls ++ [StoreCall.deleteDoc Coll.sales_v2 sale.id] := by
  refine ⟨?_, ?_, ?_, ?_, ?_, ?_, ?_⟩
  · simp [rowButtons, hrole]
  · simp [clickRowButton, rowButtons, hrole]
  · intro b coll id
    cases b with
    | togglePayment =>
      simp [clickRowButton, rowButtons, togglePaymentStatus, toggleSteps, updateDocument_calls]
    | edit => simp [clickRowButton, rowButtons]
    | delete => simp [clickRowButton, rowButtons, hrole]
  · simp [rowButtons, hadmin]
  · simp [clickRowButton, rowButtons, hadmin]
  · simp [handleDelete]
  · simp [handleDelete, deleteSteps, deleteDocument_calls]

/-- Claim C12 at a registrar and an administrator. -/
theorem history_delete_button_witness :
    clickRowButton registrarPage .delete demoSale true (.ack "" 7) saleWorld
        = (registrarPage, saleWorld)
    ∧ clickRowButton adminPage .delete demoSale true (.ack "" 7) saleWorld
        = (adminPage, handleDelete true (.ack "" 7) demoSale.id saleWorld) :=
  have h := history_delete_button_admin_only registrarPage adminPage demoSale true (.ack "" 7)
    saleWorld (by decide) (by decide)
  ⟨h.2.1, h.2.2.2.2.1⟩

/-- Claim C17: for every input and every reply of the backend, `addDocument`, `updateDocument`
and `deleteDocument` return a result (they are total), issue exactly one store call, return
`success: true` with no error when that call resolved and `success: false` with the message of
the fault when it rejected, leave the store as that call left it, and show nothing to the
user. -/
theorem write_helpers_return_tagged_result
    (r : Reply) (data : NewDoc) (id : String) (patch : Patch) (coll : Coll) (w : World) :
    -- one store call each, no retry
    (addDocument r data w).2.calls = w.calls ++ [StoreCall.addDoc data]
    ∧ (updateDocument r id patch w).2.calls = w.calls ++ [StoreCall.updateDoc id patch]
    ∧ (deleteDocument r coll id w).2.calls = w.calls ++ [StoreCall.deleteDoc coll id]
    -- the result is the tag of the outcome of that call
    ∧ (addDocument r data w).1
        = (match addDoc r data w.store with
           | .ok _ => { success := true, error := none }
           | .error m => { success := false, error := some m })
    ∧ (updateDocument r id patch w).1
        = (match updateDoc r id patch w.store with
           | .ok _ => { success := true, error := none }
           | .error m => { success := false, error := some m })
    ∧ (deleteDocument r coll id w).1
        = (match deleteDoc r coll id w.store with
           | .ok _ => { success := true, error := none }
           | .error m => { success := false, error := some m })
    -- the store is the one the call left
    ∧ (addDocument r data w).2.store
        = (match addDoc r data w.store with
           | .ok st => st
           | .error _ => w.store)
    ∧ (updateDocument r id patch w).2.store
        = (match updateDoc r id patch w.store with
           | .ok st => st
           | .error _ => w.store)
    ∧ (deleteDocument r coll id w).2.store
        = (match deleteDoc r coll id w.store with
           | .ok st => st
           | .error _ => w.store)
    -- in terms of the backend's reply
    ∧ (∀ i t, (addDocument (.ack i t) data w).1 = { success := true, error := none }
        ∧ (updateDocument (.ack i t) id patch w).1 = { success := true, error := none }
        ∧ (deleteDocument (.ack i t) coll id w).1 = { success := true, error := none })
    ∧ (∀ m, (addDocument (.fault m) data w).1 = { success := false, error := some m }
        ∧ (updateDocument (.fault m) id patch w).1 = { success := false, error := some m }
        ∧ (deleteDocument (.fault m) coll id w).1 = { success := false, error := some m })
    -- nothing is shown to the user
    ∧ (addDocument r data w).2.alerts = w.alerts
    ∧ (updateDocument r id patch w).2.alerts = w.alerts
    ∧ (deleteDocument r coll id w).2.alerts = w.alerts := by
  refine ⟨addDocument_calls r data w, updateDocument_calls r id patch w,
    deleteDocument_calls r coll id w, ?_, ?_, ?_, ?_, ?_, ?_, ?_, ?_, ?_, ?_, ?_⟩
  · cases r <;> cases data <;> rfl
  · cases r <;> cases patch <;> rfl
  · cases r <;> cases coll <;> rfl
  · cases r <;> cases data <;> rfl
  · cases r <;> cases patch <;> rfl
  · cases r <;> cases coll <;> rfl
  · intro i t
    refine ⟨?_, ?_, ?_⟩
    · cases data <;> rfl
    · cases patch <;> rfl
    · cases coll <;> rfl
  · intro m
    exact ⟨rfl, rfl, rfl⟩
  · cases r <;> cases data <;> rfl
  · cases r <;> cases patch <;> rfl
  · cases r <;> cases coll <;> rfl

/-- A fresh subscription is live. -/
theorem live_subscribe {φ : Type} (name : String) (h0 : HookState φ) :
    Live h0 (mount name h0) := by
  simp [Live, mount, subscribe]

/-- Delivering an event keeps a subscription live. -/
theorem live_deliver {φ : Type} (h0 : HookState φ) (ev : SubEvent φ)
    (st : Subscription × HookState φ) (h : Live h0 st) : Live h0 (deliver ev st) := by
  obtain ⟨hm, hl, hload, hdata⟩ := h
  cases ev with
  | snapshot docs => simp [Live, deliver, onNext, hm, hl]
  | failure message =>
    have hd : st.1.timerPending = true → st.2.data = h0.data := hdata
    simpa [Live, deliver, onError, hm, hl] using hd
  | timeout =>
    by_cases hp : st.1.timerPending = true
    · refine ⟨?_, ?_, ?_, ?_⟩
      · simp [deliver, hp, hm]
      · simp [deliver, hp, hl]
      · intro hfalse
        simp only [deliver, hp, if_true] at hfalse ⊢
        simp [onTimeout, hm, hfalse, hload hfalse]
      · intro h
        simp [deliver, hp] at h
    · have hst : deliver .timeout st = st := by simp [deliver, hp]
      rw [hst]
      exact ⟨hm, hl, hload, hdata⟩

/-- Delivering any sequence of events keeps a subscription live. -/
theorem live_deliverAll {φ : Type} (h0 : HookState φ) (evs : List (SubEvent φ))
    (st : Subscription × HookState φ) (h : Live h0 st) : Live h0 (deliverAll evs st) := by
  induction evs generalizing st with
  | nil => exact h
  | cons ev evs ih => exact ih _ (live_deliver h0 ev st h)

/-- The `forEach` loop of the success callback builds the list of the documents in order. -/
theorem results_eq_map {φ : Type} (docs : List (QueryDoc φ)) (acc : List (Cached φ)) :
    docs.foldl (fun acc doc => acc ++ [({ fields := doc.data, id := doc.id } : Cached φ)]) acc
      = acc ++ docs.map (fun doc => { fields := doc.data, id := doc.id }) := by
  induction docs generalizing acc with
  | nil => simp
  | cons d ds ih => simp [ih]

/-- Claim C13: whatever was delivered since the effect ran, if the fallback timer is still
scheduled when it expires, then afterwards `loading` is false, `data` and `error` are what they
were, `data` is still what the hook started from, and the timer is spent; on the first mount
with nothing delivered, `data` is the empty list and `loading` is false. -/
theorem useCollection_timeout_stops_loading {φ : Type} (name : String) (h0 : HookState φ)
    (evs : List (SubEvent φ))
    (hpending : (deliverAll evs (mount name h0)).1.timerPending = true) :
    (deliver .timeout (deliverAll evs (mount name h0))).2.loading = false
    ∧ (deliver .timeout (deliverAll evs (mount name h0))).2.data
        = (deliverAll evs (mount name h0)).2.data
    ∧ (deliver .timeout (deliverAll evs (mount name h0))).2.error
        = (deliverAll evs (mount name h0)).2.error
    ∧ (deliver .timeout (deliverAll evs (mount name h0))).2.data = h0.data
    ∧ (deliver .timeout (deliverAll evs (mount name h0))).1.timerPending = false
    ∧ (deliver .timeout (mount name (HookState.initial : HookState φ))).2.data = []
    ∧ (deliver .timeout (mount name (HookState.initial : HookState φ))).2.loading = false := by
  obtain ⟨hm, _, hload, hdata⟩ := live_deliverAll h0 evs _ (live_subscribe name h0)
  refine ⟨?_, ?_, ?_, ?_, ?_, ?_, ?_⟩
  · simp only [deliver, hpending, if_true, onTimeout, hm, Bool.true_and]
    by_cases hc : (deliverAll evs (mount name h0)).1.loading = true
    · simp [hc]
    · simp only [hc]
      simpa using hload (by simpa using hc)
  · simp only [deliver, hpending, if_true, onTimeout]
    split_ifs <;> rfl
  · simp only [deliver, hpending, if_true, onTimeout]
    split_ifs <;> rfl
  · rw [← hdata hpending]
    simp only [deliver, hpending, if_true, onTimeout]
    split_ifs <;> rfl
  · simp [deliver, hpending]
  · simp [deliver, mount, subscribe, onTimeout, HookState.initial]
  · simp [deliver, mount, subscribe, onTimeout, HookState.initial]

/-- Claim C13 after a delivery error on the first mount. -/
theorem useCollection_timeout_witness :
    (deliver .timeout
      (deliverAll [SubEvent.failure "unavailable"]
        (mount "sales_v2" (HookState.initial : HookState Nat)))).2.loading = false
    ∧ (deliver .timeout
      (deliverAll [SubEvent.failure "unavailable"]
        (mount "sales_v2" (HookState.initial : HookState Nat)))).2.data = [] :=
  have h := useCollection_timeout_stops_loading "sales_v2" (HookState.initial : HookState Nat)
    [SubEvent.failure "unavailable"] (by
      simp [deliverAll, deliver, mount, subscribe, onError])
  ⟨h.1, h.2.2.2.1⟩

/-- Claim C14: whatever was delivered since the effect ran (nothing, the timeout, errors, other
snapshots), a snapshot makes `data` exactly the list of its documents in snapshot order, each
as its fields with its document id, sets `loading` to false, leaves `error` as it was and
clears the timer; in particular a snapshot that comes after the timeout still replaces the
data. -/
theorem useCollection_snapshot_replaces_data {φ : Type} (name : String) (h0 : HookState φ)
    (evs : List (SubEvent φ)) (docs : List (QueryDoc φ)) :
    (deliver (.snapshot docs) (deliverAll evs (mount name h0))).2.data
        = docs.map (fun doc => { fields := doc.data, id := doc.id })
    ∧ (deliver (.snapshot docs) (deliverAll evs (mount name h0))).2.loading = false
    ∧ (deliver (.snapshot docs) (deliverAll evs (mount name h0))).2.error
        = (deliverAll evs (mount name h0)).2.error
    ∧ (deliver (.snapshot docs) (deliverAll evs (mount name h0))).1.timerPending = false
    ∧ (deliverAll (evs ++ [.snapshot docs]) (mount name h0)).2.data
        = docs.map (fun doc => { fields := doc.data, id := doc.id })
    ∧ (deliverAll [.timeout, .snapshot docs] (mount name h0)).2.data
        = docs.map (fun doc => { fields := doc.data, id := doc.id }) := by
  have key : ∀ evs : List (SubEvent φ),
      (deliver (.snapshot docs) (deliverAll evs (mount name h0))).2.data
        = docs.map (fun doc => { fields := doc.data, id := doc.id })
      ∧ (deliver (.snapshot docs) (deliverAll evs (mount name h0))).2.loading = false
      ∧ (deliver (.snapshot docs) (deliverAll evs (mount name h0))).2.error
          = (deliverAll evs (mount name h0)).2.error
      ∧ (deliver (.snapshot docs) (deliverAll evs (mount name h0))).1.timerPending
          = false := by
    intro evs
    obtain ⟨hm, hl, _, _⟩ := live_deliverAll h0 evs _ (live_subscribe name h0)
    simp [deliver, onNext, hm, hl, results_eq_map]
  refine ⟨(key evs).1, (key evs).2.1, (key evs).2.2.1, (key evs).2.2.2, ?_, ?_⟩
  · have : deliverAll (evs ++ [.snapshot docs]) (mount name h0)
        = deliver (.snapshot docs) (deliverAll evs (mount name h0)) := by
      simp [deliverAll, List.foldl_append]
    rw [this]
    exact (key evs).1
  · exact (key [.timeout]).1

/-- Claim C15: whatever was delivered since the effect ran, a delivery error sets `error` to its
message, sets `loading` to false and leaves `data` as it was. -/
theorem useCollection_error_keeps_data {φ : Type} (name : String) (h0 : HookState φ)
    (evs : List (SubEvent φ)) (message : String) :
    (deliver (.failure message) (deliverAll evs (mount name h0))).2.error = some message
    ∧ (deliver (.failure message) (deliverAll evs (mount name h0))).2.loading = false
    ∧ (deliver (.failure message) (deliverAll evs (mount name h0))).2.data
        = (deliverAll evs (mount name h0)).2.data := by
  obtain ⟨hm, hl, _, _⟩ := live_deliverAll h0 evs _ (live_subscribe name h0)
  simp [deliver, onError, hm, hl]

/-- Claim C16: the cleanup detaches the listener, cancels the timer and clears `mounted`; after
it no event, and no sequence of events, changes the state cells, and even a callback that is
still run finds `mounted` false and changes nothing. -/
theorem useCollection_cleanup_discards_events {φ : Type} (sub : Subscription) (h : HookState φ)
    (ev : SubEvent φ) (evs : List (SubEvent φ)) (docs : List (QueryDoc φ)) (message : String) :
    (cleanup sub).listening = false ∧ (cleanup sub).timerPending = false
    ∧ (cleanup sub).mounted = false
    ∧ deliver ev (cleanup sub, h) = (cleanup sub, h)
    ∧ deliverAll evs (cleanup sub, h) = (cleanup sub, h)
    -- a callback that the runtime still runs after the cleanup changes nothing either
    ∧ onNext docs (cleanup sub) h = (cleanup sub, h)
    ∧ onError message (cleanup sub) h = h
    ∧ onTimeout (cleanup sub) h = h := by
  have hone : ∀ ev : SubEvent φ, deliver ev (cleanup sub, h) = (cleanup sub, h) := by
    intro ev
    cases ev <;> simp [deliver, cleanup]
  refine ⟨rfl, rfl, rfl, hone ev, ?_, ?_, ?_, ?_⟩
  · induction evs with
    | nil => rfl
    | cons e es ih =>
      simp only [deliverAll, List.foldl_cons] at ih ⊢
      rw [hone e]
      exact ih
  · simp [onNext, cleanup]
  · simp [onError, cleanup]
  · simp [onTimeout, cleanup]

/-- The order of first occurrence has the keys of the list. -/
theorem mem_firstKeys (l : List String) (k : String) : k ∈ firstKeys l ↔ k ∈ l := by
  induction l with
  | nil => simp [firstKeys]
  | cons a l ih =>
    simp only [firstKeys, List.mem_cons, List.mem_filter, ih]
    by_cases h : k = a <;> simp [h]

/-- The order of first occurrence has each key once. -/
theorem nodup_firstKeys (l : List String) : (firstKeys l).Nodup := by
  induction l with
  | nil => simp [firstKeys]
  | cons a l ih =>
    simp only [firstKeys, List.nodup_cons, List.mem_filter]
    exact ⟨by simp, ih.filter _⟩

/-- A key added at the end is new to the order of first occurrence only if it did not occur. -/
theorem firstKeys_append_singleton (l : List String) (k : String) :
    firstKeys (l ++ [k]) = if k ∈ l then firstKeys l else firstKeys l ++ [k] := by
  induction l with
  | nil => simp [firstKeys]
  | cons a l ih =>
    rw [List.cons_append, firstKeys, ih, firstKeys]
    by_cases hl : k ∈ l
    · simp [hl]
    · by_cases ha : k = a
      · subst ha
        simp [hl, List.filter_append]
      · simp [hl, ha, List.filter_append]

/-- A dictionary built from a key list has a key exactly when the list has it. -/
theorem dict_any_map {β : Type} (ks : List String) (f : String → β) (k : String) :
    (ks.map (fun x => (x, f x))).any (fun e => e.1 = k) = decide (k ∈ ks) := by
  induction ks with
  | nil => simp
  | cons a ks ih =>
    simp only [List.map_cons, List.any_cons, ih, List.mem_cons]
    by_cases h : a = k
    · simp [h]
    · have h' : ¬ k = a := fun e => h e.symm
      simp [h, h']

/-- Reading a dictionary built from a key list. -/
theorem dict_get_map {β : Type} (ks : List String) (f : String → β) (k : String) :
    Dict.get? (ks.map (fun x => (x, f x))) k = if k ∈ ks then some (f k) else none := by
  induction ks with
  | nil => simp [Dict.get?]
  | cons a ks ih =>
    unfold Dict.get? at ih ⊢
    rw [List.map_cons, List.find?_cons]
    by_cases h : a = k
    · simp [h]
    · have h' : ¬ k = a := fun e => h e.symm
      have hd : decide ((a, f a).1 = k) = false := by simp [h]
      rw [hd]
      simp only []
      rw [ih]
      simp [h']

/-- Filing an item into the buckets of a sequence gives the buckets of the longer sequence. -/
theorem bucketStep_bucketsOf {α β : Type} (key : α → String) (empty : β) (upd : β → α → β)
    (xs : List α) (x : α) :
    bucketStep key empty upd (bucketsOf key empty upd xs) x
      = bucketsOf key empty upd (xs ++ [x]) := by
  unfold bucketStep bucketsOf Dict.set
  rw [dict_any_map, dict_get_map, List.map_append, List.map_singleton,
    firstKeys_append_singleton]
  simp only [mem_firstKeys]
  by_cases hk : key x ∈ xs.map key
  · simp only [hk, if_true, decide_True, Option.getD_some, List.map_map]
    apply List.map_congr_left
    intro k _
    by_cases hkk : k = key x
    · subst hkk
      simp [List.filter_append]
    · have hkk' : ¬ key x = k := fun e => hkk e.symm
      simp [hkk, hkk', List.filter_append]
  · have hnone : xs.filter (fun y => decide (key y = key x)) = [] := by
      apply List.filter_eq_nil_iff.mpr
      intro y hy
      simp only [decide_eq_true_eq]
      intro e
      exact hk (e ▸ List.mem_map_of_mem key hy)
    simp only [hk, if_false, decide_False, Option.getD_none, List.map_append, List.map_singleton,
      List.filter_append, hnone, Bool.false_eq_true]
    congr 1
    · apply List.map_congr_left
      intro k hkmem
      have hne : ¬ key x = k := by
        intro e
        exact hk ((mem_firstKeys _ _).mp (e ▸ hkmem))
      simp [hne]
    · simp

/-- A reducer that files each item under its key computes `bucketsOf`. -/
theorem foldl_bucketStep {α β : Type} (key : α → String) (empty : β) (upd : β → α → β)
    (xs : List α) :
    xs.foldl (bucketStep key empty upd) [] = bucketsOf key empty upd xs := by
  induction xs using List.reverseRecOn with
  | nil => simp [bucketsOf, firstKeys]
  | append_singleton xs x ih =>
    rw [List.foldl_append, ih]
    simp only [List.foldl_cons, List.foldl_nil]
    exact bucketStep_bucketsOf key empty upd xs x

/-- After a write the key is present. -/
theorem dict_any_set {β : Type} (g : Dict β) (k : String) (v : β) :
    (g.set k v).any (fun e => e.1 = k) = true := by
  unfold Dict.set
  by_cases h : g.any (fun e => e.1 = k) = true
  · rw [if_pos h]
    rw [List.any_eq_true] at h ⊢
    obtain ⟨e, he, hk⟩ := h
    have hk' : e.1 = k := by simpa using hk
    refine ⟨(k, v), ?_, by simp⟩
    apply List.mem_map.mpr
    exact ⟨e, he, by simp [hk']⟩
  · rw [if_neg h]
    simp

/-- Overwriting an absent key in place changes nothing. -/
theorem dict_map_of_absent {β : Type} (g : Dict β) (k : String) (v : β)
    (h : ¬ g.any (fun e => e.1 = k) = true) :
    g.map (fun e => if e.1 = k then (k, v) else e) = g := by
  induction g with
  | nil => rfl
  | cons a g ih =>
    simp only [List.any_cons, Bool.or_eq_true, not_or, decide_eq_true_eq] at h
    simp only [List.map_cons, h.1, if_false]
    rw [ih h.2]

/-- A write to a present key overwrites in place. -/
theorem dict_set_of_present {β : Type} (g : Dict β) (k : String) (v : β)
    (h : g.any (fun e => e.1 = k) = true) :
    g.set k v = g.map (fun e => if e.1 = k then (k, v) else e) := by
  unfold Dict.set
  rw [if_pos h]

/-- A write to an absent key appends. -/
theorem dict_set_of_absent {β : Type} (g : Dict β) (k : String) (v : β)
    (h : ¬ g.any (fun e => e.1 = k) = true) :
    g.set k v = g ++ [(k, v)] := by
  unfold Dict.set
  rw [if_neg h]

/-- The second of two writes to a key wins, at the place the first one fixed. -/
theorem dict_set_set {β : Type} (g : Dict β) (k : String) (v v' : β) :
    (g.set k v).set k v' = g.set k v' := by
  rw [dict_set_of_present (g.set k v) k v' (dict_any_set g k v)]
  by_cases h : g.any (fun e => e.1 = k) = true
  · rw [dict_set_of_present g k v h, dict_set_of_present g k v' h, List.map_map]
    apply List.map_congr_left
    intro e _
    by_cases he : e.1 = k <;> simp [he]
  · rw [dict_set_of_absent g k v h, dict_set_of_absent g k v' h, List.map_append,
      dict_map_of_absent g k v' h]
    simp

/-- A read after a write gives the written value. -/
theorem dict_get_set {β : Type} (g : Dict β) (k : String) (v : β) :
    (g.set k v).get? k = some v := by
  unfold Dict.set Dict.get?
  by_cases h : g.any (fun e => e.1 = k) = true
  · rw [if_pos h]
    induction g with
    | nil => simp at h
    | cons a g ih =>
      rw [List.map_cons, List.find?_cons]
      by_cases ha : a.1 = k
      · simp [ha]
      · have hg : g.any (fun e => e.1 = k) = true := by
          simpa [ha] using h
        simp only [ha, if_false, decide_False]
        exact ih hg
  · rw [if_neg h, List.find?_append]
    have hnone : g.find? (fun e => decide (e.1 = k)) = none := by
      apply List.find?_eq_none.mpr
      intro e he hk
      exact h (List.any_eq_true.mpr ⟨e, he, hk⟩)
    simp [hnone]

/-- A key that reads as `undefined` is absent. -/
theorem dict_get_none {β : Type} (g : Dict β) (k : String) (h : g.get? k = none) :
    ¬ g.any (fun e => e.1 = k) = true := by
  intro hany
  obtain ⟨e, he, hk⟩ := List.any_eq_true.mp hany
  unfold Dict.get? at h
  cases hf : g.find? (fun e => decide (e.1 = k)) with
  | some x => simp [hf] at h
  | none => exact (List.find?_eq_none.mp hf e he) hk

/-- The reducer of `groupedSales` files the row of a sale under its date key. -/
theorem groupStep_eq_bucketStep {δ : Type} (env : DateEnv δ) (g : Dict (List HistoryRow))
    (sale : Sale) :
    groupStep env g sale
      = bucketStep (dateKey env) [] (fun rows s => rows ++ [historyRow env s]) g sale := by
  unfold groupStep bucketStep
  cases hget : g.get? (dateKey env sale) with
  | none => simp [dict_get_set, dict_set_set]
  | some rows => simp [hget]

/-- The reducer of the viewer files a sale under its key and adds its total. -/
theorem viewerStep_eq_bucketStep {δ : Type} (env : DateEnv δ) (g : Dict (DayGroup δ))
    (sale : ViewerSale δ) :
    viewerStep env g sale
      = bucketStep (viewerKey env) { sales := [], total := 0 }
          (fun grp s =>
            { sales := grp.sales ++ [s], total := addDouble grp.total (s.total.getD 0) })
          g sale := by
  unfold viewerStep bucketStep
  cases hget : g.get? (viewerKey env sale) with
  | none => simp [dict_get_set, dict_set_set]
  | some grp => simp [hget]

/-- Pushing the image of each item is mapping. -/
theorem foldl_append_rows {α β : Type} (f : α → β) (xs : List α) (acc : List β) :
    xs.foldl (fun rows s => rows ++ [f s]) acc = acc ++ xs.map f := by
  induction xs generalizing acc with
  | nil => simp
  | cons x xs ih => simp [ih]

/-- `groupedSales` said directly: one bucket per date key, in order of first occurrence, with the
rows of the sales of that key in input order. -/
theorem groupedSales_eq {δ : Type} (env : DateEnv δ) (sales : List Sale) :
    groupedSales env sales
      = (firstKeys (sales.map (dateKey env))).map (fun k =>
          (k, (sales.filter (fun s => dateKey env s = k)).map (historyRow env))) := by
  unfold groupedSales
  have hstep : groupStep env
      = bucketStep (dateKey env) [] (fun rows s => rows ++ [historyRow env s]) := by
    funext g sale
    exact groupStep_eq_bucketStep env g sale
  rw [hstep, foldl_bucketStep]
  unfold bucketsOf
  apply List.map_congr_left
  intro k _
  rw [foldl_append_rows]
  simp

/-- The keys of a dictionary built from a key list are that list. -/
theorem dict_keys_map {β : Type} (ks : List String) (f : String → β) :
    Dict.keys (ks.map (fun x => (x, f x))) = ks := by
  unfold Dict.keys
  rw [List.map_map]
  exact List.map_id'' (fun _ => rfl) ks

/-- Claim C18: `groupedSales` has one bucket per date key (the local calendar date of the record
as text), the buckets are in order of first occurrence of their key in the input, each bucket
holds the rows of exactly the sales with its key in input order, and two records of the input
share a bucket exactly when their date keys are equal.  For 2024-01-02 08:00, 2024-01-02 09:00
and 2024-01-01 10:00 it gives the bucket of 2 January with the first two records in that order,
then the bucket of 1 January with the third. -/
theorem groupedSales_buckets_by_date {δ : Type} (env : DateEnv δ) (sales : List Sale) :
    -- one bucket per date key, in order of first occurrence
    (groupedSales env sales).keys = firstKeys (sales.map (dateKey env))
    ∧ (groupedSales env sales).keys.Nodup
    ∧ (∀ k, k ∈ (groupedSales env sales).keys ↔ ∃ s ∈ sales, dateKey env s = k)
    -- the bucket of a key: the rows of the sales with that key, in input order
    ∧ (∀ b ∈ groupedSales env sales,
        b.2 = (sales.filter (fun s => dateKey env s = b.1)).map (historyRow env))
    -- two records share a bucket exactly when their date keys are equal
    ∧ (∀ s1 ∈ sales, ∀ s2 ∈ sales,
        (∃ b ∈ groupedSales env sales, historyRow env s1 ∈ b.2 ∧ historyRow env s2 ∈ b.2)
          ↔ dateKey env s1 = dateKey env s2)
    -- the three records of 2024-01-02 08:00, 2024-01-02 09:00 and 2024-01-01 10:00
    ∧ groupedSales isoEnv [saleAt "a" "2024-01-02T08:00", saleAt "b" "2024-01-02T09:00",
          saleAt "c" "2024-01-01T10:00"]
        = [("martes, 2 de enero de 2024",
              [{ sale := saleAt "a" "2024-01-02T08:00", time := "08:00" },
               { sale := saleAt "b" "2024-01-02T09:00", time := "09:00" }]),
           ("lunes, 1 de enero de 2024",
              [{ sale := saleAt "c" "2024-01-01T10:00", time := "10:00" }])] := by
  have hrow : ∀ s s' : Sale, historyRow env s' = historyRow env s → s' = s := by
    intro s s' h
    exact congrArg HistoryRow.sale h
  refine ⟨?_, ?_, ?_, ?_, ?_, ?_⟩
  · rw [groupedSales_eq, dict_keys_map]
  · rw [groupedSales_eq, dict_keys_map]
    exact nodup_firstKeys _
  · intro k
    rw [groupedSales_eq, dict_keys_map, mem_firstKeys]
    simp
  · intro b hb
    rw [groupedSales_eq] at hb
    obtain ⟨k, _, rfl⟩ := List.mem_map.mp hb
    rfl
  · intro s1 h1 s2 h2
    rw [groupedSales_eq]
    constructor
    · rintro ⟨b, hb, hr1, hr2⟩
      obtain ⟨k, _, rfl⟩ := List.mem_map.mp hb
      simp only [List.mem_map, List.mem_filter, decide_eq_true_eq] at hr1 hr2
      obtain ⟨x1, ⟨_, hk1⟩, e1⟩ := hr1
      obtain ⟨x2, ⟨_, hk2⟩, e2⟩ := hr2
      rw [← hrow _ _ e1, ← hrow _ _ e2, hk1, hk2]
    · intro hkey
      refine ⟨(dateKey env s1, (sales.filter (fun s => dateKey env s = dateKey env s1)).map
        (historyRow env)), ?_, ?_, ?_⟩
      · apply List.mem_map.mpr
        refine ⟨dateKey env s1, ?_, rfl⟩
        rw [mem_firstKeys]
        exact List.mem_map_of_mem _ h1
      · apply List.mem_map_of_mem
        simp [h1]
      · apply List.mem_map_of_mem
        simp [h2, hkey]
  · rw [groupedSales_eq]
    decide

/-- Claim C18 at the two records of 2 January 2024. -/
theorem groupedSales_buckets_witness :
    (∃ b ∈ groupedSales isoEnv [saleAt "a" "2024-01-02T08:00", saleAt "b" "2024-01-02T09:00",
          saleAt "c" "2024-01-01T10:00"],
        historyRow isoEnv (saleAt "a" "2024-01-02T08:00") ∈ b.2
          ∧ historyRow isoEnv (saleAt "b" "2024-01-02T09:00") ∈ b.2)
      ↔ dateKey isoEnv (saleAt "a" "2024-01-02T08:00")
          = dateKey isoEnv (saleAt "b" "2024-01-02T09:00") :=
  (groupedSales_buckets_by_date isoEnv [saleAt "a" "2024-01-02T08:00",
      saleAt "b" "2024-01-02T09:00", saleAt "c" "2024-01-01T10:00"]).2.2.2.2.1
    (saleAt "a" "2024-01-02T08:00") (by simp)
    (saleAt "b" "2024-01-02T09:00") (by simp)

/-- `includes` is the substring test. -/
theorem includes_iff (s t : String) : includes s t = true ↔ t.data <:+: s.data := by
  unfold includes
  rw [List.any_eq_true]
  constructor
  · rintro ⟨rest, hrest, hpre⟩
    have h1 : rest <:+ s.data := (List.mem_tails _ _).mp hrest
    have h2 : t.data <+: rest := List.isPrefixOf_iff_prefix.mp hpre
    exact h2.isInfix.trans h1.isInfix
  · rintro ⟨a, b, hab⟩
    refine ⟨t.data ++ b, (List.mem_tails _ _).mpr ⟨a, by simpa using hab⟩, ?_⟩
    exact List.isPrefixOf_iff_prefix.mpr (List.prefix_append _ _)

/-- Claim C19 as stated fails: with the search term "juan" the sale of client "Juan Perez" is
shown, although neither its client name nor its product name contains "juan". -/
theorem history_search_ignores_case :
    (∃ b ∈ historyList asciiLowerCase isoEnv { registrarPage with searchTerm := "juan" } [demoSale],
        historyRow isoEnv demoSale ∈ b.2)
    ∧ demoSale.client = "Juan Perez" ∧ demoSale.product = "Hielo en cubos"
    ∧ includes demoSale.client "juan" = false
    ∧ includes demoSale.product "juan" = false := by
  refine ⟨?_, rfl, rfl, by decide, by decide⟩
  unfold historyList filteredDateKeys
  rw [groupedSales_eq]
  decide

/-- Claim C19 as amended: a sale of the input is shown in the History list exactly when (its
lower-cased client name or its lower-cased product name contains the lower-cased search term)
and (the debt-only flag is off or its paymentStatus is `debt`); only sales of the input are
shown; `filteredSales` of the viewer apps filters by the same predicate, which agrees with the
one of History on records that have a client and a product. -/
theorem history_shown_iff_matches (toLowerCase : String → String) {δ : Type} (env : DateEnv δ)
    (page : HistoryPage)
    (sales : List Sale) (s : Sale) (hs : s ∈ sales) :
    ((∃ b ∈ historyList toLowerCase env page sales, historyRow env s ∈ b.2)
      ↔ ((toLowerCase page.searchTerm).data <:+: (toLowerCase s.client).data
            ∨ (toLowerCase page.searchTerm).data <:+: (toLowerCase s.product).data)
          ∧ (page.showOnlyDebts = false ∨ s.paymentStatus = some "debt"))
    -- every row shown is the row of a sale of the input
    ∧ (∀ b ∈ historyList toLowerCase env page sales, ∀ row ∈ b.2, row.sale ∈ sales)
    -- the viewer apps filter with the same predicate
    ∧ (∀ (δ' : Type) (searchTerm : String) (filterDebt : Bool) (vs : List (ViewerSale δ')),
        filteredSales toLowerCase searchTerm filterDebt vs
          = vs.filter (fun v =>
              (includes (toLowerCase (orElse v.client "")) (toLowerCase searchTerm)
                || includes (toLowerCase (orElse v.product "")) (toLowerCase searchTerm))
              && (!filterDebt || decide (v.paymentStatus = some "debt"))))
    ∧ (∀ (δ' : Type) (v : ViewerSale δ') (row : HistoryRow),
        v.client = some row.sale.client → v.product = some row.sale.product →
        v.paymentStatus = row.sale.paymentStatus →
        viewerMatches toLowerCase page.searchTerm page.showOnlyDebts v = rowMatches toLowerCase page
            row) := by
  have hrow : ∀ s s' : Sale, historyRow env s' = historyRow env s → s' = s := by
    intro s s' h
    exact congrArg HistoryRow.sale h
  have hmatch : rowMatches toLowerCase page (historyRow env s) = true
      ↔ ((toLowerCase page.searchTerm).data <:+: (toLowerCase s.client).data
            ∨ (toLowerCase page.searchTerm).data <:+: (toLowerCase s.product).data)
          ∧ (page.showOnlyDebts = false ∨ s.paymentStatus = some "debt") := by
    simp only [rowMatches, historyRow, Bool.and_eq_true, Bool.or_eq_true, includes_iff,
      Bool.not_eq_true', decide_eq_true_eq]
  have hget : ∀ k, ((groupedSales env sales).get? k).getD []
      = if k ∈ firstKeys (sales.map (dateKey env))
          then (sales.filter (fun x => dateKey env x = k)).map (historyRow env) else [] := by
    intro k
    rw [groupedSales_eq, dict_get_map]
    split_ifs <;> rfl
  refine ⟨?_, ?_, ?_, ?_⟩
  · rw [← hmatch]
    unfold historyList filteredDateKeys
    constructor
    · rintro ⟨b, hb, hr⟩
      obtain ⟨k, _, rfl⟩ := List.mem_map.mp hb
      exact (List.mem_filter.mp hr).2
    · intro hm
      have hk : dateKey env s ∈ firstKeys (sales.map (dateKey env)) :=
        (mem_firstKeys _ _).mpr (List.mem_map_of_mem _ hs)
      have hin : historyRow env s ∈ ((groupedSales env sales).get? (dateKey env s)).getD [] := by
        rw [hget, if_pos hk]
        apply List.mem_map_of_mem
        simp [hs]
      refine ⟨(dateKey env s, _), List.mem_map.mpr ⟨dateKey env s, ?_, rfl⟩, ?_⟩
      · apply List.mem_filter.mpr
        refine ⟨?_, List.any_eq_true.mpr ⟨_, hin, hm⟩⟩
        rw [groupedSales_eq, dict_keys_map]
        exact hk
      · exact List.mem_filter.mpr ⟨hin, hm⟩
  · intro b hb row hr
    unfold historyList at hb
    obtain ⟨k, _, rfl⟩ := List.mem_map.mp hb
    have hr' := (List.mem_filter.mp hr).1
    rw [hget] at hr'
    split_ifs at hr' with hk
    · obtain ⟨x, hx, rfl⟩ := List.mem_map.mp hr'
      exact (List.mem_filter.mp hx).1
    · simp at hr'
  · intro δ' searchTerm filterDebt vs
    unfold filteredSales
    apply List.filter_congr
    intro v _
    unfold viewerMatches
    cases filterDebt <;> simp
  · intro δ' v row hc hp hst
    unfold viewerMatches rowMatches
    rw [hc, hp, hst]
    have ho : ∀ x : String, toLowerCase (orElse (some x) "") = toLowerCase x := by
      intro x
      unfold orElse
      by_cases hx : x = "" <;> simp [hx]
    rw [ho, ho]
    cases page.showOnlyDebts <;> simp

/-- Claim C19 as amended, at the client "Juan Perez" and the search term "juan". -/
theorem history_shown_witness :
    (∃ b ∈ historyList asciiLowerCase isoEnv { registrarPage with searchTerm := "juan" } [demoSale],
        historyRow isoEnv demoSale ∈ b.2)
      ↔ ((asciiLowerCase "juan").data <:+: (asciiLowerCase demoSale.client).data
            ∨ (asciiLowerCase "juan").data <:+: (asciiLowerCase demoSale.product).data)
          ∧ ((false : Bool) = false ∨ demoSale.paymentStatus = some "debt") :=
  (history_shown_iff_matches asciiLowerCase isoEnv { registrarPage with searchTerm := "juan" }
      [demoSale]
    demoSale (List.mem_singleton.mpr rfl)).1

/-- Scaling a whole number below `2 ^ 53` only doubles it: the denominator stays 1 and the
value is kept. -/
theorem scaleSignificand_nat (fuel n : Nat) (e : Int) (hn : n < 2 ^ 53) :
    (scaleSignificand fuel n 1 e).2.1 = 1
    ∧ ((scaleSignificand fuel n 1 e).1 : Num) * 2 ^ (scaleSignificand fuel n 1 e).2.2
        = (n : Num) * 2 ^ e := by
  induction fuel generalizing n e with
  | zero => exact ⟨rfl, rfl⟩
  | succ fuel ih =>
    unfold scaleSignificand
    have h1 : ¬ 2 ^ 53 * 1 ≤ n := by omega
    rw [if_neg h1]
    by_cases h2 : n < 2 ^ 52 * 1
    · rw [if_pos h2]
      obtain ⟨hd, hv⟩ := ih (2 * n) (e - 1) (by omega)
      refine ⟨hd, ?_⟩
      rw [hv]
      push_cast
      rw [zpow_sub_one₀ (by norm_num : (2 : Num) ≠ 0)]
      ring
    · rw [if_neg h2]
      exact ⟨rfl, rfl⟩

/-- A whole number below `2 ^ 53` is a double. -/
theorem nearestDouble_nat (n : Nat) (hn : n < 2 ^ 53) : nearestDouble (n : Num) = n := by
  unfold nearestDouble
  by_cases h0 : (n : Num) = 0
  · rw [if_pos h0, h0]
  · rw [if_neg h0]
    have hpos : ¬ (n : Num) < 0 := not_lt.mpr (Nat.cast_nonneg n)
    obtain ⟨hd, hv⟩ := scaleSignificand_nat 2200 n 0 hn
    simp only [Rat.num_natCast, Int.natAbs_ofNat, Rat.den_natCast, if_neg hpos, one_mul]
    have hr : roundHalfEven (scaleSignificand 2200 n 1 0).1 (scaleSignificand 2200 n 1 0).2.1
        = (scaleSignificand 2200 n 1 0).1 := by
      rw [hd]
      unfold roundHalfEven
      simp [Nat.mod_one]
    rw [hr, hv]
    simp

/-- Adding whole numbers is exact while the sum stays below `2 ^ 53`. -/
theorem addDouble_nat (a b : Nat) (h : a + b < 2 ^ 53) :
    addDouble (a : Num) (b : Num) = ((a + b : Nat) : Num) := by
  unfold addDouble
  rw [← Nat.cast_add]
  exact nearestDouble_nat _ h

/-- Summing whole numbers from the left is exact while the sum stays below `2 ^ 53`. -/
theorem foldl_addDouble_nat (l : List Nat) (acc : Nat) (h : acc + l.sum < 2 ^ 53) :
    (l.map (Nat.cast : Nat → Num)).foldl addDouble (acc : Num)
      = ((acc + l.sum : Nat) : Num) := by
  induction l generalizing acc with
  | nil => simp
  | cons n l ih =>
    rw [List.sum_cons] at h
    rw [List.map_cons, List.foldl_cons, addDouble_nat acc n (by omega), ih (acc + n) (by omega),
      List.sum_cons, Nat.add_assoc]

/-- The double nearest to a positive rational, from the steps of its computation. -/
theorem nearestDouble_of (x : Num) (n d n' d' : Nat) (e : Int) (m : Nat) (y : Num)
    (hx : 0 < x) (hn : x.num = n) (hd : x.den = d)
    (hscale : scaleSignificand 2200 n d 0 = (n', d', e)) (hround : roundHalfEven n' d' = m)
    (hy : (m : Num) * 2 ^ e = y) : nearestDouble x = y := by
  unfold nearestDouble
  rw [if_neg hx.ne', hn, hd]
  simp only [Int.natAbs_ofNat, hscale, hround, if_neg (not_lt.mpr hx.le), one_mul, hy]

/-- Adding nothing to a double gives the double. -/
theorem addDouble_zero_left (x : Num) (hx : nearestDouble x = x) : addDouble 0 x = x := by
  unfold addDouble
  rw [zero_add, hx]

/-- Filing sales into a bucket one by one appends them and adds their totals, one after the
other, to the total of the bucket. -/
theorem foldl_dayGroup {δ : Type} (xs : List (ViewerSale δ)) (g : DayGroup δ) :
    xs.foldl (fun grp s =>
        ({ sales := grp.sales ++ [s], total := addDouble grp.total (s.total.getD 0) }
          : DayGroup δ)) g
      = { sales := g.sales ++ xs
          total := (xs.map (fun s => s.total.getD 0)).foldl addDouble g.total } := by
  induction xs generalizing g with
  | nil => simp
  | cons x xs ih => simp [ih]

/-- The viewer's buckets said directly: one bucket per key, in order of first occurrence, with
the sales of that key in input order and their totals added up from the left, starting
from 0. -/
theorem viewerGroups_eq {δ : Type} (env : DateEnv δ) (sales : List (ViewerSale δ)) :
    viewerGroups env sales
      = (firstKeys (sales.map (viewerKey env))).map (fun k =>
          (k, ({ sales := sales.filter (fun s => viewerKey env s = k)
                 total := ((sales.filter (fun s => viewerKey env s = k)).map
                            (fun s => s.total.getD 0)).foldl addDouble 0 } : DayGroup δ))) := by
  unfold viewerGroups
  have hstep : viewerStep env
      = bucketStep (viewerKey env) { sales := [], total := 0 }
          (fun grp s =>
            { sales := grp.sales ++ [s], total := addDouble grp.total (s.total.getD 0) }) := by
    funext g sale
    exact viewerStep_eq_bucketStep env g sale
  rw [hstep, foldl_bucketStep]
  unfold bucketsOf
  apply List.map_congr_left
  intro k _
  rw [foldl_dayGroup]
  simp

/-- In a sequence sorted descending by time, the first record of an earlier bucket is not
older than any record of a later bucket. -/
theorem buckets_pairwise_of_sorted {α : Type} (key : α → String) (time : α → Num)
    (xs : List α) (hsorted : xs.Pairwise (fun a b => time b ≤ time a)) :
    (firstKeys (xs.map key)).Pairwise (fun k1 k2 =>
      ∀ a ∈ (xs.filter (fun x => key x = k1)).head?, ∀ b ∈ xs.filter (fun x => key x = k2),
        time b ≤ time a) := by
  induction xs with
  | nil => simp [firstKeys]
  | cons x xs ih =>
    obtain ⟨hx, hxs⟩ := List.pairwise_cons.mp hsorted
    simp only [List.map_cons, firstKeys, List.pairwise_cons]
    constructor
    · intro k2 hk2 a ha b hb
      simp only [List.filter_cons, decide_True, if_true, List.head?_cons, Option.mem_def,
        Option.some.injEq] at ha
      subst ha
      have hb' : b ∈ x :: xs := (List.mem_filter.mp hb).1
      rcases List.mem_cons.mp hb' with rfl | hmem
      · exact le_refl _
      · exact hx b hmem
    · have ih' := (ih hxs).filter (fun k => k ≠ key x)
      refine ih'.imp_of_mem ?_
      intro k1 k2 hk1 hk2 hrel a ha b hb
      have hne1 : ¬ key x = k1 := by
        have := (List.mem_filter.mp hk1).2
        intro e
        simp [e] at this
      have hne2 : ¬ key x = k2 := by
        have := (List.mem_filter.mp hk2).2
        intro e
        simp [e] at this
      simp only [List.filter_cons, hne1, hne2, decide_False, Bool.false_eq_true, if_false] at ha hb
      exact hrel a ha b hb

/-- A key of the order of first occurrence has a first record, and that record has the key. -/
theorem filter_head_of_mem {α : Type} (key : α → String) (xs : List α) (k : String)
    (hk : k ∈ firstKeys (xs.map key)) :
    ∃ a rest, xs.filter (fun x => key x = k) = a :: rest ∧ key a = k := by
  obtain ⟨x, hx, hxk⟩ := List.mem_map.mp ((mem_firstKeys _ _).mp hk)
  cases hf : xs.filter (fun x => key x = k) with
  | nil =>
    have : x ∈ xs.filter (fun x => key x = k) := List.mem_filter.mpr ⟨hx, by simpa using hxk⟩
    rw [hf] at this
    simp at this
  | cons a rest =>
    refine ⟨a, rest, rfl, ?_⟩
    have : a ∈ xs.filter (fun x => key x = k) := by
      rw [hf]
      exact List.mem_cons_self _ _
    simpa using (List.mem_filter.mp this).2

/-- The viewer's sorted buckets for the records of 2018-01-02, 2023-06-01 and 2024-01-02 given
in that order. -/
theorem viewer_demo_sorted :
    sortedGroups utcEnv [viewerSaleAt "a" 1514894400000, viewerSaleAt "b" 1685620800000,
        viewerSaleAt "c" 1704196800000]
      = [("Jueves, 1 de junio",
            { sales := [viewerSaleAt "b" 1685620800000], total := 30 }),
         ("Martes, 2 de enero",
            { sales := [viewerSaleAt "a" 1514894400000, viewerSaleAt "c" 1704196800000],
              total := 60 })] := by
  have hA : viewerKey utcEnv (viewerSaleAt "a" 1514894400000) = "Martes, 2 de enero" := by
    decide
  have hB : viewerKey utcEnv (viewerSaleAt "b" 1685620800000) = "Jueves, 1 de junio" := by
    decide
  have hC : viewerKey utcEnv (viewerSaleAt "c" 1704196800000) = "Martes, 2 de enero" := by
    decide
  have hne : ("Jueves, 1 de junio" : String) ≠ "Martes, 2 de enero" := by decide
  have h30 : addDouble 0 30 = 30 := by
    have h := addDouble_nat 0 30 (by norm_num)
    norm_num at h
    exact h
  have h60 : addDouble 30 30 = 60 := by
    have h := addDouble_nat 30 30 (by norm_num)
    norm_num at h
    exact h
  simp [sortedGroups, viewerGroups_eq, firstKeys, hA, hB, hC, hne, hne.symm, List.filter_cons]
  simp [List.insertionSort, List.orderedInsert, compareGroups, firstTime, viewerSaleAt, utcEnv]
  norm_num [h30, h60]

/-- Claim C20: the viewer's buckets are the buckets of the reducer reordered so that the times of
their first records descend.  If calendar days grow with time, the label is fixed by the
calendar day and the input is sorted descending by time, the order is the order of first
occurrence and the calendar days of the first records of the buckets strictly descend.  For the
unsorted input 2018-01-02, 2023-06-01, 2024-01-02 (both 2 January are a Tuesday and share a
label) the bucket of 1 June comes first although the latest record of the other bucket is
later. -/
theorem viewer_buckets_ordered_by_first_record {δ : Type} (env : DateEnv δ)
    (sales : List (ViewerSale δ)) :
    -- the order compares the time of the first record of each bucket, and nothing else
    (sortedGroups env sales).Pairwise (fun a b => firstTime env b.2 ≤ firstTime env a.2)
    ∧ (sortedGroups env sales).Perm (viewerGroups env sales)
    -- on an input sorted descending by time
    ∧ (∀ day : δ → Int,
        (∀ a b : δ, env.getTime a ≤ env.getTime b → day a ≤ day b) →
        (∀ a b : δ, day a = day b → env.dayMonth a = env.dayMonth b) →
        sales.Pairwise (fun a b => env.getTime b.date ≤ env.getTime a.date) →
          sortedGroups env sales = viewerGroups env sales
          ∧ (sortedGroups env sales).map (fun g => g.1) = firstKeys (sales.map (viewerKey env))
          ∧ (sortedGroups env sales).Pairwise (fun a b =>
              ∃ da db, firstDate a.2 = some da ∧ firstDate b.2 = some db ∧ day db < day da))
    -- an input that is not sorted by time: 2018-01-02, 2023-06-01, 2024-01-02
    ∧ ¬ [viewerSaleAt "a" 1514894400000, viewerSaleAt "b" 1685620800000,
          viewerSaleAt "c" 1704196800000].Pairwise
            (fun a b => utcEnv.getTime b.date ≤ utcEnv.getTime a.date)
    ∧ (sortedGroups utcEnv [viewerSaleAt "a" 1514894400000, viewerSaleAt "b" 1685620800000,
          viewerSaleAt "c" 1704196800000]).map
          (fun g => (g.1, g.2.sales.map (fun s => s.id), latestTime utcEnv g.2))
        = [("Jueves, 1 de junio", ["b"], 1685620800000),
           ("Martes, 2 de enero", ["a", "c"], 1704196800000)]
    ∧ ¬ (sortedGroups utcEnv [viewerSaleAt "a" 1514894400000, viewerSaleAt "b" 1685620800000,
          viewerSaleAt "c" 1704196800000]).Pairwise
            (fun a b => latestTime utcEnv b.2 ≤ latestTime utcEnv a.2) := by
  haveI htotal : IsTotal (String × DayGroup δ) (fun a b => compareGroups env a b ≤ 0) :=
    ⟨fun a b => by
      simp only [compareGroups, sub_nonpos]
      exact le_total _ _⟩
  haveI htrans : IsTrans (String × DayGroup δ) (fun a b => compareGroups env a b ≤ 0) :=
    ⟨fun a b c hab hbc => by
      simp only [compareGroups, sub_nonpos] at *
      exact le_trans hbc hab⟩
  refine ⟨?_, ?_, ?_, ?_, ?_, ?_⟩
  · have h := List.sorted_insertionSort (fun a b => compareGroups env a b ≤ 0)
      (viewerGroups env sales)
    refine List.Pairwise.imp ?_ h
    intro a b hab
    simpa [compareGroups] using hab
  · exact List.perm_insertionSort _ _
  · intro day hday hlabel hsorted
    have hP := (buckets_pairwise_of_sorted (viewerKey env) (fun s => env.getTime s.date) sales
      hsorted).and (nodup_firstKeys (sales.map (viewerKey env)))
    have hfirst : (viewerGroups env sales).Pairwise
        (fun a b => compareGroups env a b ≤ 0
          ∧ ∃ da db, firstDate a.2 = some da ∧ firstDate b.2 = some db ∧ day db < day da) := by
      rw [viewerGroups_eq, List.pairwise_map]
      refine hP.imp_of_mem ?_
      intro k1 k2 hk1 hk2 ⟨hrel, hne⟩
      obtain ⟨a, ra, hfa, hka⟩ := filter_head_of_mem (viewerKey env) sales k1 hk1
      obtain ⟨b, rb, hfb, hkb⟩ := filter_head_of_mem (viewerKey env) sales k2 hk2
      have hle : env.getTime b.date ≤ env.getTime a.date :=
        hrel a (by rw [hfa]; rfl) b (by rw [hfb]; exact List.mem_cons_self _ _)
      refine ⟨?_, a.date, b.date, ?_, ?_, ?_⟩
      · simp only [compareGroups, firstTime, hfa, hfb, sub_nonpos]
        exact hle
      · simp [firstDate, hfa]
      · simp [firstDate, hfb]
      · rcases lt_or_eq_of_le (hday _ _ hle) with hlt | heq
        · exact hlt
        · exfalso
          apply hne
          have := hlabel _ _ heq
          rw [← hka, ← hkb]
          unfold viewerKey
          rw [this]
    have heq : sortedGroups env sales = viewerGroups env sales :=
      List.Sorted.insertionSort_eq (hfirst.imp (fun h => h.1))
    refine ⟨heq, ?_, ?_⟩
    · rw [heq, viewerGroups_eq, List.map_map]
      exact List.map_id'' (fun _ => rfl) _
    · rw [heq]
      exact hfirst.imp (fun h => h.2)
  · simp [viewerSaleAt, utcEnv]
  · rw [viewer_demo_sorted]
    simp [latestTime, viewerSaleAt, utcEnv]
    norm_num
  · rw [viewer_demo_sorted]
    simp [latestTime, viewerSaleAt, utcEnv]
    norm_num



/-- Claim C20 at the input 2024-01-02, 2023-06-01, 2018-01-02, sorted descending. -/
theorem viewer_buckets_witness :
    sortedGroups utcEnv [viewerSaleAt "c" 1704196800000, viewerSaleAt "b" 1685620800000,
        viewerSaleAt "a" 1514894400000]
      = viewerGroups utcEnv [viewerSaleAt "c" 1704196800000, viewerSaleAt "b" 1685620800000,
        viewerSaleAt "a" 1514894400000] :=
  ((viewer_buckets_ordered_by_first_record utcEnv [viewerSaleAt "c" 1704196800000,
      viewerSaleAt "b" 1685620800000, viewerSaleAt "a" 1514894400000]).2.2.1
    (fun d => ((d / 86400000 : Nat) : Int))
    (by
      intro a b h
      have h' : a ≤ b := by
        simp only [utcEnv] at h
        exact_mod_cast h
      have h2 : a / 86400000 ≤ b / 86400000 := Nat.div_le_div_right h'
      show ((a / 86400000 : Nat) : Int) ≤ ((b / 86400000 : Nat) : Int)
      exact_mod_cast h2)
    (by
      intro a b h
      have h' : a / 86400000 = b / 86400000 := by
        have h0 : ((a / 86400000 : Nat) : Int) = ((b / 86400000 : Nat) : Int) := h
        exact_mod_cast h0
      simp [utcEnv, h'])
    (by
      simp [viewerSaleAt, utcEnv])).1

/-! ## Theorems on accounts, expenses, exports and the remaining list properties -/

/-- Claim C21: whichever awaited step of `createUser` fails once the secondary app exists (the
account creation, the write of the profile document, or the sign-out of the secondary
instance), `createUser` throws the error of that step, whatever the outcome of the teardown in
its `catch`, and the call it issued last, after the failing one, is `deleteApp` of the app
`Secondary`; when that teardown succeeds the secondary app is gone. -/
theorem createUser_deletes_app_then_rethrows
    (toLowerCase : String → String)
    (username password role : String) (now : Nat) (w : AuthWorld) (e uid : String)
    (r2 r3 r4 : Except String Unit) (r5 : Except String Unit) :
    -- the account creation fails
    (createUser toLowerCase (CreateUserOutcomes.mk (.error e) r2 r3 r4 r5)
        username password role now w).1 = .error e
    ∧ (createUser toLowerCase (CreateUserOutcomes.mk (.error e) r2 r3 r4 r5)
        username password role now w).2.calls
        = w.calls ++ [.initializeApp "Secondary", .getAuth "Secondary",
            .createUserWithEmailAndPassword .secondary (createUserEmail toLowerCase username)
                password,
            .deleteApp "Secondary"]
    -- the profile write fails
    ∧ (createUser toLowerCase (CreateUserOutcomes.mk (.ok uid) (.error e) r3 r4 r5)
        username password role now w).1 = .error e
    ∧ (createUser toLowerCase (CreateUserOutcomes.mk (.ok uid) (.error e) r3 r4 r5)
        username password role now w).2.calls
        = w.calls ++ [.initializeApp "Secondary", .getAuth "Secondary",
            .createUserWithEmailAndPassword .secondary (createUserEmail toLowerCase username)
                password,
            .setDoc uid { username := some username, role := some role, createdAt := some now },
            .deleteApp "Secondary"]
    -- the sign-out of the secondary instance fails
    ∧ (createUser toLowerCase (CreateUserOutcomes.mk (.ok uid) (.ok ()) (.error e) r4 r5)
        username password role now w).1 = .error e
    ∧ (createUser toLowerCase (CreateUserOutcomes.mk (.ok uid) (.ok ()) (.error e) r4 r5)
        username password role now w).2.calls
        = w.calls ++ [.initializeApp "Secondary", .getAuth "Secondary",
            .createUserWithEmailAndPassword .secondary (createUserEmail toLowerCase username)
                password,
            .setDoc uid { username := some username, role := some role, createdAt := some now },
            .signOut .secondary,
            .deleteApp "Secondary"]
    -- when the teardown in the `catch` succeeds the app is gone
    ∧ (createUser toLowerCase (CreateUserOutcomes.mk (.error e) r2 r3 r4 (.ok ()))
        username password role now w).2.secondaryApp = false
    ∧ (createUser toLowerCase (CreateUserOutcomes.mk (.ok uid) (.error e) r3 r4 (.ok ()))
        username password role now w).2.secondaryApp = false
    ∧ (createUser toLowerCase (CreateUserOutcomes.mk (.ok uid) (.ok ()) (.error e) r4 (.ok ()))
        username password role now w).2.secondaryApp = false := by
  refine ⟨?_, ?_, ?_, ?_, ?_, ?_, ?_, ?_, ?_⟩ <;>
    cases r5 <;>
    simp [createUser, createUserSteps, sdkCreateUser, sdkSetDoc, sdkSignOut, sdkDeleteApp,
      AuthWorld.call, AuthWorld.setUser]

/-- Claim C22: whatever the outcomes of its SDK calls, `createUser` leaves the signed-in user of
the primary auth instance as it was, and no call it issues acts on the primary instance: the
account creation and the sign-out are made on the instance of the app `Secondary`.  When it
returns normally the secondary instance has no signed-in user and the secondary app is
gone. -/
theorem createUser_leaves_primary_session
    (toLowerCase : String → String)
    (o : CreateUserOutcomes) (username password role : String) (now : Nat) (w : AuthWorld) :
    (createUser toLowerCase o
        username password role now w).2.primaryUser = w.primaryUser
    ∧ (∀ c ∈ (createUser toLowerCase o
        username password role now w).2.calls.drop w.calls.length,
        c.instance? ≠ some AuthInstance.primary)
    ∧ (∀ uid, (createUser toLowerCase o
        username password role now w).1 = .ok uid →
        (createUser toLowerCase o
        username password role now w).2.secondaryUser = none
        ∧ (createUser toLowerCase o
        username password role now w).2.secondaryApp = false) := by
  obtain ⟨rc, rs, ro, rd, rdc⟩ := o
  refine ⟨?_, ?_, ?_⟩ <;>
    cases rc <;> cases rs <;> cases ro <;> cases rd <;> cases rdc <;>
    simp [createUser, createUserSteps, sdkCreateUser, sdkSetDoc, sdkSignOut, sdkDeleteApp,
      AuthWorld.call, AuthWorld.setUser, AuthCall.instance?]

/-- Claim C22 at the creation of the user "Ana Maria" by the administrator `admin1`, every
SDK call succeeding. -/
theorem createUser_primary_session_witness :
    (createUser asciiLowerCase (CreateUserOutcomes.mk (.ok "u9") (.ok ()) (.ok ()) (.ok ())
        (.ok ()))
        "Ana Maria" "secret1" "registrar" 5 adminWorld).2.primaryUser
      = some "admin1"
    ∧ (createUser asciiLowerCase (CreateUserOutcomes.mk (.ok "u9") (.ok ()) (.ok ()) (.ok ())
        (.ok ()))
        "Ana Maria" "secret1" "registrar" 5 adminWorld).2.secondaryUser
      = none :=
  have h := createUser_leaves_primary_session asciiLowerCase
    (CreateUserOutcomes.mk (.ok "u9") (.ok ()) (.ok ()) (.ok ()) (.ok ()))
    "Ana Maria" "secret1" "registrar" 5 adminWorld
  ⟨h.1, (h.2.2 "u9" (by
    simp [createUser, createUserSteps, sdkCreateUser, sdkSetDoc, sdkSignOut, sdkDeleteApp])).1⟩

/-- Claim C24: `togglePaymentStatus` issues one update of the sale whose `paymentStatus` is
"debt" when the current status is "paid" or missing (`undefined` or the empty text, both falsy)
and "paid" for any other status, so the written status is always "paid" or "debt".  For a sale
whose status is "paid" or "debt", toggling it and then toggling the sale as stored gives every
stored sale the status it had. -/
theorem togglePaymentStatus_flips
    (r : Reply) (id id2 : String) (t t2 : Nat) (sale : Sale) (w : World)
    (hstatus : sale.paymentStatus = some "paid" ∨ sale.paymentStatus = some "debt") :
    -- what is written
    (∀ s : Sale, (togglePaymentStatus r s w).calls
        = w.calls ++ [StoreCall.updateDoc s.id (.sale
            { paymentStatus :=
                some (if orElse s.paymentStatus "paid" = "paid" then "debt" else "paid") })])
    ∧ (∀ s : Option String,
        (if orElse s "paid" = "paid" then "debt" else "paid") = "debt"
          ∨ (if orElse s "paid" = "paid" then "debt" else "paid") = "paid")
    ∧ (if orElse none "paid" = "paid" then "debt" else "paid") = "debt"
    ∧ (if orElse (some "paid") "paid" = "paid" then "debt" else "paid") = "debt"
    ∧ (if orElse (some "debt") "paid" = "paid" then "debt" else "paid") = "paid"
    ∧ (∀ s : String, s ≠ "paid" → s ≠ "" →
        (if orElse (some s) "paid" = "paid" then "debt" else "paid") = "paid")
    -- toggling the sale, then toggling the sale as stored after the first toggle
    ∧ (togglePaymentStatus (.ack id2 t2)
          (SalePatch.apply
            { paymentStatus :=
                some (if orElse sale.paymentStatus "paid" = "paid" then "debt" else "paid") }
            t sale)
          (togglePaymentStatus (.ack id t) sale w)).store.sales.map
            (fun d => (d.id, d.paymentStatus))
        = w.store.sales.map
            (fun d => (d.id, if d.id = sale.id then sale.paymentStatus else d.paymentStatus)) := by
  refine ⟨?_, ?_, by decide, by decide, by decide, ?_, ?_⟩
  · intro s
    simp only [togglePaymentStatus, toggleSteps, updateDocument_calls]
  · intro s
    by_cases h : orElse s "paid" = "paid" <;> simp [h]
  · intro s h1 h2
    simp [orElse, h1, h2]
  · rcases hstatus with h | h <;>
      simp [togglePaymentStatus, toggleSteps, updateDocument, updateDoc, SalePatch.apply, h,
        orElse, List.map_map] <;>
      intro d _ <;>
      by_cases hd : d.id = sale.id <;> simp [hd]

/-- Claim C24 at `demoSale`, a sale in debt: two acknowledged toggles restore its status. -/
theorem togglePaymentStatus_witness :
    (togglePaymentStatus (.ack "" 2)
          (SalePatch.apply
            { paymentStatus :=
                some (if orElse demoSale.paymentStatus "paid" = "paid" then "debt" else "paid") }
            1 demoSale)
          (togglePaymentStatus (.ack "" 1) demoSale saleWorld)).store.sales.map
            (fun d => (d.id, d.paymentStatus))
        = saleWorld.store.sales.map
            (fun d => (d.id, if d.id = demoSale.id then demoSale.paymentStatus
                               else d.paymentStatus)) :=
  (togglePaymentStatus_flips (.ack "" 1) "" "" 1 2 demoSale saleWorld (Or.inr rfl)).2.2.2.2.2.2

/-- An event other than a delivery error leaves the error slot as it is. -/
theorem deliver_keeps_error {φ : Type} (e : SubEvent φ) (s : Subscription × HookState φ)
    (h : e.isFailure = false) : (deliver e s).2.error = s.2.error := by
  cases e with
  | snapshot d =>
    simp only [deliver, onNext]
    split_ifs <;> rfl
  | timeout =>
    simp only [deliver, onTimeout]
    split_ifs <;> rfl
  | failure m => simp [SubEvent.isFailure] at h

/-- Claim C27: no event of `useCollection` empties the error slot, neither one event nor a
sequence of events, and a new run of the effect starts from the same slot.  After a delivery
error with message `message`, any later events other than delivery errors, and then a
snapshot, the hook holds the documents of that snapshot, `loading` is false and `error` is
still `message`. -/
theorem useCollection_error_is_never_cleared {φ : Type} (name : String) (h0 : HookState φ)
    (evs later : List (SubEvent φ)) (message : String) (docs : List (QueryDoc φ))
    (ev : SubEvent φ) (st : Subscription × HookState φ)
    (hlater : ∀ e ∈ later, e.isFailure = false) :
    -- no event empties the error slot
    ((deliver ev st).2.error = none → st.2.error = none)
    ∧ ((deliverAll later st).2.error = none → st.2.error = none)
    -- a new run of the effect starts from the same error slot
    ∧ (mount name st.2).2.error = st.2.error
    -- after an error, later events other than errors, then a snapshot
    ∧ (deliverAll (evs ++ [.failure message] ++ later ++ [.snapshot docs]) (mount name h0)).2.error
        = some message
    ∧ (deliverAll (evs ++ [.failure message] ++ later ++ [.snapshot docs]) (mount name h0)).2.data
        = docs.map (fun doc => { fields := doc.data, id := doc.id })
    ∧ (deliverAll (evs ++ [.failure message] ++ later ++ [.snapshot docs]) (mount name h0)).2.loading
        = false := by
  have hone : ∀ (e : SubEvent φ) (s : Subscription × HookState φ),
      (deliver e s).2.error = none → s.2.error = none := by
    intro e s
    cases e with
    | snapshot d => exact fun h => by rw [← deliver_keeps_error (.snapshot d) s rfl]; exact h
    | timeout => exact fun h => by rw [← deliver_keeps_error .timeout s rfl]; exact h
    | failure m =>
      simp only [deliver, onError]
      split_ifs <;> simp
  have hall : ∀ (l : List (SubEvent φ)) (s : Subscription × HookState φ),
      (deliverAll l s).2.error = none → s.2.error = none := by
    intro l
    induction l with
    | nil => exact fun s h => h
    | cons e l ih =>
      intro s h
      exact hone e s (ih (deliver e s) h)
  have happ : ∀ (a b : List (SubEvent φ)) (s : Subscription × HookState φ),
      deliverAll (a ++ b) s = deliverAll b (deliverAll a s) := by
    intro a b s
    simp [deliverAll, List.foldl_append]
  have hkeep : ∀ (l : List (SubEvent φ)) (s : Subscription × HookState φ),
      (∀ e ∈ l, e.isFailure = false) → (deliverAll l s).2.error = s.2.error := by
    intro l
    induction l with
    | nil => exact fun s _ => rfl
    | cons e l ih =>
      intro s hl
      have h1 := ih (deliver e s) (fun x hx => hl x (List.mem_cons_of_mem _ hx))
      have h2 := deliver_keeps_error e s (hl e (List.mem_cons_self _ _))
      exact h1.trans h2
  have hlive := live_deliverAll h0 evs _ (live_subscribe name h0)
  have hlive1 := live_deliver h0 (.failure message) _ hlive
  have hlive2 := live_deliverAll h0 later _ hlive1
  have herr : (deliver (.failure message) (deliverAll evs (mount name h0))).2.error
      = some message := by
    obtain ⟨hm, hl, _, _⟩ := hlive
    simp [deliver, onError, hm, hl]
  have hsplit : deliverAll (evs ++ [.failure message] ++ later ++ [.snapshot docs])
        (mount name h0)
      = deliver (.snapshot docs)
          (deliverAll later (deliver (.failure message) (deliverAll evs (mount name h0)))) := by
    rw [happ, happ, happ]
    rfl
  refine ⟨hone ev st, hall later st, rfl, ?_, ?_, ?_⟩
  · rw [hsplit, deliver_keeps_error (.snapshot docs) _ rfl, hkeep later _ hlater, herr]
  · rw [hsplit]
    obtain ⟨hm, hl, _, _⟩ := hlive2
    generalize deliverAll later (deliver (.failure message) (deliverAll evs (mount name h0)))
      = s at hm hl
    simp [deliver, onNext, hm, hl, results_eq_map]
  · rw [hsplit]
    obtain ⟨hm, hl, _, _⟩ := hlive2
    generalize deliverAll later (deliver (.failure message) (deliverAll evs (mount name h0)))
      = s at hm hl
    simp [deliver, onNext, hm, hl]

/-- Claim C27 at a subscription to `sales_v2`: an error "unavailable", the timeout, then a
snapshot of one document. -/
theorem useCollection_error_witness :
    (deliverAll ([] ++ [.failure "unavailable"] ++ [SubEvent.timeout]
        ++ [.snapshot [{ id := "d1", data := 7 }]])
      (mount "sales_v2" (HookState.initial : HookState Nat))).2.error = some "unavailable" :=
  (useCollection_error_is_never_cleared "sales_v2" (HookState.initial : HookState Nat) []
    [SubEvent.timeout] "unavailable" [{ id := "d1", data := 7 }] SubEvent.timeout
    (mount "sales_v2" (HookState.initial : HookState Nat))
    (by
      intro e he
      rw [List.mem_singleton] at he
      rw [he]
      rfl)).2.2.2.1

/-- Claim C23 as stated fails: the sheet `exportData` builds for expenses has the four columns
date, category, description and amount, with neither a quantity nor a status column. -/
theorem exportData_expenses_has_four_columns :
    (exportData (fun _ : Nat => "") (fun _ => "") "6/11/2026" .expenses [] []).columns.map
        (fun c => c.key) = ["date", "cat", "desc", "amount"]
    ∧ (exportData (fun _ : Nat => "") (fun _ => "") "6/11/2026" .expenses [] []).columns.map
        (fun c => c.header) = ["Fecha", "Categoría", "Descripción", "Monto"]
    ∧ (exportData (fun _ : Nat => "") (fun _ => "") "6/11/2026" .expenses [] []).columns.length
        ≠ 6 := by
  decide

/-- Claim C23 as amended: `exportData` for sales and `exportToExcel` write one row per sale of
the in-memory list, in the order of the list, under the six columns date, client, product,
quantity, total, status (keys `date, client, product, qty, total, status` and
`date, client, product, quantity, total, status`), the status cell being "DEUDA" exactly when
`paymentStatus` is "debt" and "PAGADO" otherwise; `exportData` for expenses writes one row per
expense, in order, under the four columns date, category, description, amount. -/
theorem export_rows_and_columns {δ : Type} (localeString : δ → String) (numText : Num → String)
    (today : String) (sales : List (ViewerSale δ)) (expenses : List (ViewerExpense δ)) :
    -- the sales sheet of `exportData`
    (exportData localeString numText today .sales sales expenses).columns.map (fun c => c.header)
        = ["Fecha", "Cliente", "Producto", "Cantidad", "Total", "Estado"]
    ∧ (exportData localeString numText today .sales sales expenses).columns.map (fun c => c.key)
        = ["date", "client", "product", "qty", "total", "status"]
    ∧ (exportData localeString numText today .sales sales expenses).rows
        = sales.map (salesRow localeString numText)
    ∧ (∀ s : ViewerSale δ, (salesRow localeString numText s).cells.map (fun c => c.1)
        = ["date", "client", "product", "qty", "total", "status"])
    ∧ (∀ s : ViewerSale δ, (salesRow localeString numText s).cells.lookup "status"
        = some (.text (if s.paymentStatus = some "debt" then "DEUDA" else "PAGADO")))
    -- the expenses sheet of `exportData`
    ∧ (exportData localeString numText today .expenses sales expenses).columns.map
        (fun c => c.header) = ["Fecha", "Categoría", "Descripción", "Monto"]
    ∧ (exportData localeString numText today .expenses sales expenses).columns.map (fun c => c.key)
        = ["date", "cat", "desc", "amount"]
    ∧ (exportData localeString numText today .expenses sales expenses).rows
        = expenses.map (expenseRow localeString)
    ∧ (∀ e : ViewerExpense δ, (expenseRow localeString e).cells.map (fun c => c.1)
        = ["date", "cat", "desc", "amount"])
    -- the sheet of `exportToExcel`
    ∧ (exportToExcel localeString numText today sales).columns.map (fun c => c.header)
        = ["Fecha", "Cliente", "Producto", "Cantidad", "Total (S/)", "Estado"]
    ∧ (exportToExcel localeString numText today sales).columns.map (fun c => c.key)
        = ["date", "client", "product", "quantity", "total", "status"]
    ∧ (exportToExcel localeString numText today sales).rows
        = sales.map (excelRow localeString numText)
    ∧ (∀ s : ViewerSale δ, (excelRow localeString numText s).cells.map (fun c => c.1)
        = ["date", "client", "product", "quantity", "total", "status"])
    ∧ (∀ s : ViewerSale δ, (excelRow localeString numText s).cells.lookup "status"
        = some (.text (if s.paymentStatus = some "debt" then "DEUDA" else "PAGADO"))) := by
  have hfold : ∀ {α : Type} (f : α → SheetRow) (xs : List α),
      xs.foldl (fun rows x => rows ++ [f x]) [] = xs.map f := by
    intro α f xs
    rw [foldl_append_rows]
    simp
  refine ⟨rfl, rfl, hfold _ _, fun _ => rfl, ?_, rfl, rfl, hfold _ _, fun _ => rfl, rfl, rfl,
    hfold _ _, fun _ => rfl, ?_⟩
  · intro s
    simp [salesRow, List.lookup, statusText]
  · intro s
    simp [excelRow, List.lookup, statusText]

/-- Claim C25 as stated fails: with amount "5", a description and the date input cleared,
both guards pass, `new Date('').toISOString()` throws inside the `try` before `addDocument`
is reached, so no store call is issued and the failure box is shown. -/
theorem expense_with_cleared_date_is_not_written :
    (demoExpenseForm "").amount ≠ "" ∧ ¬ parseDecimal (demoExpenseForm "").amount ≤ 0
    ∧ (demoExpenseForm "").description ≠ ""
    ∧ (RegisterExpense.handleSubmit parseDecimal (fun d : String => d) dayToISO (.ack "e1" 1)
        (demoExpenseForm "") demoWorld).2.calls = []
    ∧ (RegisterExpense.handleSubmit parseDecimal (fun d : String => d) dayToISO (.ack "e1" 1)
        (demoExpenseForm "") demoWorld).2.alerts = [Alert.expenseFailed] := by
  have h5 : parseDecimal "5" = 5 := by
    simp [parseDecimal, readDigits, digitValue]
  refine ⟨by decide, ?_, by decide, ?_, ?_⟩
  · simp [demoExpenseForm, h5]
  · norm_num [RegisterExpense.handleSubmit, RegisterExpense.submitSteps, demoExpenseForm, h5,
      dayToISO, alert, demoWorld]
    rw [if_neg (by decide), if_neg (by decide)]
  · norm_num [RegisterExpense.handleSubmit, RegisterExpense.submitSteps, demoExpenseForm, h5,
      dayToISO, alert, demoWorld]
    rw [if_neg (by decide), if_neg (by decide)]

/-- Claim C25 as amended: when the amount is non-empty and greater than 0, the description is
non-empty and the chosen date has the ISO form `iso`, `handleSubmit` issues exactly one store
call, the creation in `expenses_v2` of an expense with amount `Number(amount)` and date `iso`,
and shows the success box.  When the amount is empty or not greater than 0, or the description
is empty, it issues no store call and leaves the store as it is; the same holds when the date
has no ISO form, in which case a submission that passed the guards shows the failure box. -/
theorem expense_submit_writes_once {δ : Type} (parseNumber : String → Num)
    (newDate : String → δ) (toISOString : δ → Option String) (r : Reply) (f : ExpenseForm)
    (w : World) (iso : String)
    (hamount : f.amount ≠ "") (hpos : 0 < parseNumber f.amount) (hdesc : f.description ≠ "")
    (hdate : toISOString (newDate f.date) = some iso) :
    (RegisterExpense.handleSubmit parseNumber newDate toISOString r f w).2.calls
        = w.calls ++ [StoreCall.addDoc (.expense
            { amount := parseNumber f.amount, category := f.category,
              description := f.description, date := iso })]
    ∧ (NewDoc.expense
            { amount := parseNumber f.amount, category := f.category,
              description := f.description, date := iso }).coll = Coll.expenses_v2
    ∧ (RegisterExpense.handleSubmit parseNumber newDate toISOString r f w).2.alerts
        = w.alerts ++ [Alert.expenseRegistered]
    -- a guard that fails: nothing is written
    ∧ (∀ g : ExpenseForm, g.amount = "" ∨ parseNumber g.amount ≤ 0 ∨ g.description = "" →
        (RegisterExpense.handleSubmit parseNumber newDate toISOString r g w).2.calls = w.calls
        ∧ (RegisterExpense.handleSubmit parseNumber newDate toISOString r g w).2.store = w.store)
    -- a date without ISO form: nothing is written, the failure box is shown
    ∧ (∀ g : ExpenseForm, toISOString (newDate g.date) = none →
        (RegisterExpense.handleSubmit parseNumber newDate toISOString r g w).2.calls = w.calls
        ∧ (RegisterExpense.handleSubmit parseNumber newDate toISOString r g w).2.store = w.store
        ∧ (g.amount ≠ "" → 0 < parseNumber g.amount → g.description ≠ "" →
            (RegisterExpense.handleSubmit parseNumber newDate toISOString r g w).2.alerts
              = w.alerts ++ [Alert.expenseFailed])) := by
  refine ⟨?_, rfl, ?_, ?_, ?_⟩
  · simp [RegisterExpense.handleSubmit, RegisterExpense.submitSteps, hamount, not_le.mpr hpos,
      hdesc, hdate, addDocument_calls, alert]
  · cases r <;>
      simp [RegisterExpense.handleSubmit, RegisterExpense.submitSteps, hamount, not_le.mpr hpos,
        hdesc, hdate, addDocument, addDoc, alert]
  · intro g hg
    unfold RegisterExpense.handleSubmit
    by_cases h1 : g.amount = "" ∨ parseNumber g.amount ≤ 0
    · simp [h1, alert]
    · have h2 : g.description = "" := by
        rcases hg with h | h | h
        · exact absurd (Or.inl h) h1
        · exact absurd (Or.inr h) h1
        · exact h
      simp [h1, h2, alert]
  · intro g hg
    unfold RegisterExpense.handleSubmit
    by_cases h1 : g.amount = "" ∨ parseNumber g.amount ≤ 0
    · refine ⟨by simp [h1, alert], by simp [h1, alert], ?_⟩
      intro ha hp _
      rcases h1 with h | h
      · exact absurd h ha
      · exact absurd hp (not_lt.mpr h)
    · by_cases h2 : g.description = ""
      · refine ⟨by simp [h1, h2, alert], by simp [h1, h2, alert], ?_⟩
        intro _ _ hd
        exact absurd h2 hd
      · simp [h1, h2, RegisterExpense.submitSteps, hg, alert]

/-- Claim C25 as amended, at amount "5" on 2026-11-06: one creation, dated midnight UTC of
that day. -/
theorem expense_submit_witness :
    (RegisterExpense.handleSubmit parseDecimal (fun d : String => d) dayToISO (.ack "e1" 1)
        (demoExpenseForm "2026-11-06") demoWorld).2.calls
      = demoWorld.calls ++ [StoreCall.addDoc (.expense
          { amount := parseDecimal (demoExpenseForm "2026-11-06").amount,
            category := (demoExpenseForm "2026-11-06").category,
            description := (demoExpenseForm "2026-11-06").description,
            date := "2026-11-06T00:00:00.000Z" })] :=
  (expense_submit_writes_once parseDecimal (fun d : String => d) dayToISO (.ack "e1" 1)
    (demoExpenseForm "2026-11-06") demoWorld "2026-11-06T00:00:00.000Z" (by decide)
    (by simp [demoExpenseForm, parseDecimal, readDigits, digitValue]) (by decide)
    (by decide)).1

/-- Skipping a leading run of a class and then removing the class is removing the class. -/
theorem filter_dropWhile_class (inClass : Char → Bool) (l : List Char) :
    (l.dropWhile inClass).filter (fun c => !inClass c) = l.filter (fun c => !inClass c) := by
  induction l with
  | nil => rfl
  | cons c cs ih =>
    by_cases h : inClass c = true
    · simp [List.dropWhile_cons, h, ih]
    · simp [List.dropWhile_cons, h]

/-- Replacing every run of a class by nothing removes exactly the characters of the class. -/
theorem removeRuns_eq_filter (inClass : Char → Bool) (l : List Char) :
    removeRuns inClass l = l.filter (fun c => !inClass c) := by
  suffices h : ∀ n (l : List Char), l.length = n →
      removeRuns inClass l = l.filter (fun c => !inClass c) from h _ l rfl
  intro n
  induction n using Nat.strong_induction_on with
  | _ n ih =>
    intro l hn
    cases l with
    | nil => rw [removeRuns]; rfl
    | cons c cs =>
      rw [removeRuns]
      by_cases h : inClass c = true
      · have hlt : (cs.dropWhile inClass).length < n := by
          rw [← hn]
          exact Nat.lt_succ_of_le (List.dropWhile_sublist _).length_le
        rw [if_pos h, ih _ hlt _ rfl, filter_dropWhile_class]
        simp [h]
      · have hlt : cs.length < n := by
          rw [← hn]
          exact Nat.lt_succ_self _
        rw [if_neg h, ih _ hlt _ rfl]
        simp [h]

/-- Replacing every run of whitespace by nothing removes exactly the whitespace characters. -/
theorem dropSpaceRuns_eq_filter (l : List Char) :
    dropSpaceRuns l = l.filter (fun c => !isSpace c) :=
  removeRuns_eq_filter isSpace l

/-- The code point of `Char.ofNat n` is `n`, below the surrogates. -/
theorem toNat_ofNat_small (n : Nat) (h : n < 55296) : (Char.ofNat n).toNat = n := by
  have hv : n.isValidChar := Or.inl h
  unfold Char.ofNat
  rw [dif_pos hv]
  simp [Char.ofNatAux, Char.toNat, UInt32.toNat]

/-- Lower-casing neither makes nor unmakes a whitespace character. -/
theorem isSpace_toLower (c : Char) : isSpace c.toLower = isSpace c := by
  show isSpace (if c.toNat ≥ 65 ∧ c.toNat ≤ 90 then Char.ofNat (c.toNat + 32) else c) = isSpace c
  split
  · rename_i h
    have h1 : 65 ≤ c.toNat := h.1
    have h2 : c.toNat ≤ 90 := h.2
    have hs : isSpace c = false := by
      unfold isSpace
      simp only [Bool.or_eq_false_iff, Bool.and_eq_false_iff, decide_eq_false_iff_not]
      omega
    rw [hs]
    have hv : (Char.ofNat (c.toNat + 32)).toNat = c.toNat + 32 :=
      toNat_ofNat_small _ (by omega)
    unfold isSpace
    rw [hv]
    simp only [Bool.or_eq_false_iff, Bool.and_eq_false_iff, decide_eq_false_iff_not]
    omega
  · rfl

/-- Lower-casing commutes with removing the whitespace. -/
theorem filter_map_toLower (l : List Char) :
    (l.map Char.toLower).filter (fun c => !isSpace c)
      = (l.filter (fun c => !isSpace c)).map Char.toLower := by
  induction l with
  | nil => rfl
  | cons c cs ih =>
    by_cases h : isSpace c = true
    · simp [List.filter_cons, isSpace_toLower, h, ih]
    · simp [List.filter_cons, isSpace_toLower, h, ih]

/-- The address of `getEmail` is the lower-cased user name without its whitespace, followed
by `@sales.app`. -/
theorem getEmail_eq (toLowerCase : String → String) (user : String) :
    getEmail toLowerCase user = withoutSpaces (toLowerCase user) ++ "@sales.app" := by
  simp [getEmail, withoutSpaces, dropSpaceRuns_eq_filter]

/-- The lower-casing of the examples commutes with removing the whitespace. -/
theorem asciiLowerCase_withoutSpaces (name : String) :
    withoutSpaces (asciiLowerCase name) = asciiLowerCase (withoutSpaces name) := by
  simp [withoutSpaces, asciiLowerCase, filter_map_toLower]

/-- Claim C26: whatever the runtime's `toLowerCase`, for every user name the address
`createUser` registers is the address `getEmail` derives at sign-in, and both are the address
of the specification: the name lower-cased, every whitespace character removed, followed by
`@sales.app`.  Hence two user names get the same address when they differ only in letter case
(their lower-cased forms are equal), and when their lower-cased forms differ only in
whitespace; the same holds for two names that are equal ignoring case once their whitespace is
removed, provided lower-casing and whitespace removal commute on both, as they do for every
name under the character-by-character lower-casing of the examples.  There "Ana  Maria" and
" ana maria " both give `anamaria@sales.app`. -/
theorem createUser_email_matches_login (toLowerCase : String → String) (username : String) :
    createUserEmail toLowerCase username = getEmail toLowerCase username
    ∧ getEmail toLowerCase username = accountAddress toLowerCase username
    -- names that differ only in letter case
    ∧ (∀ other : String, toLowerCase other = toLowerCase username →
        createUserEmail toLowerCase other = getEmail toLowerCase username)
    -- names whose lower-cased forms differ only in whitespace
    ∧ (∀ other : String,
        withoutSpaces (toLowerCase other) = withoutSpaces (toLowerCase username) →
        createUserEmail toLowerCase other = getEmail toLowerCase username)
    -- names that are equal ignoring case once the whitespace is removed
    ∧ (∀ other : String,
        withoutSpaces (toLowerCase other) = toLowerCase (withoutSpaces other) →
        withoutSpaces (toLowerCase username) = toLowerCase (withoutSpaces username) →
        toLowerCase (withoutSpaces other) = toLowerCase (withoutSpaces username) →
        createUserEmail toLowerCase other = getEmail toLowerCase username)
    ∧ (∀ name : String,
        withoutSpaces (asciiLowerCase name) = asciiLowerCase (withoutSpaces name))
    ∧ createUserEmail asciiLowerCase "Ana  Maria" = "anamaria@sales.app"
    ∧ getEmail asciiLowerCase " ana maria " = "anamaria@sales.app" := by
  have hcu : ∀ u : String, createUserEmail toLowerCase u = getEmail toLowerCase u :=
    fun _ => rfl
  have hext : ∀ u v : String,
      withoutSpaces (toLowerCase u) = withoutSpaces (toLowerCase v) →
      getEmail toLowerCase u = getEmail toLowerCase v := by
    intro u v h
    rw [getEmail_eq, getEmail_eq, h]
  refine ⟨rfl, ?_, ?_, ?_, ?_, asciiLowerCase_withoutSpaces, ?_, ?_⟩
  · rw [getEmail_eq]
    rfl
  · intro other h
    rw [hcu]
    exact hext _ _ (by rw [h])
  · intro other h
    rw [hcu]
    exact hext _ _ h
  · intro other h1 h2 h3
    rw [hcu]
    exact hext _ _ (by rw [h1, h2, h3])
  · show getEmail asciiLowerCase "Ana  Maria" = _
    rw [getEmail_eq]
    decide
  · rw [getEmail_eq]
    decide

/-- Over keys that are pairwise distinct, the values filed under the one key `k0` add up to the
value itself when `k0` is among the keys and to nothing otherwise. -/
theorem sum_single_key {M : Type} [AddCommMonoid M] (ks : List String) (hks : ks.Nodup)
    (k0 : String) (v : M) :
    (ks.map (fun k => if k0 = k then v else 0)).sum = if k0 ∈ ks then v else 0 := by
  induction ks with
  | nil => simp
  | cons a ks ih =>
    have hnd := List.nodup_cons.mp hks
    rw [List.map_cons, List.sum_cons, ih hnd.2]
    by_cases h : k0 = a
    · subst h
      simp [hnd.1]
    · have h2 : ¬ a = k0 := fun e => h e.symm
      simp [h, h2]

/-- Filing the items of a sequence under pairwise distinct keys that cover the keys of the
items loses and repeats nothing: the exact sums per key add up to the exact sum over the
sequence. -/
theorem sum_by_key {α M : Type} [AddCommMonoid M] (key : α → String) (f : α → M)
    (ks : List String) (hks : ks.Nodup) (xs : List α) (hcover : ∀ x ∈ xs, key x ∈ ks) :
    (ks.map (fun k => ((xs.filter (fun x => key x = k)).map f).sum)).sum = (xs.map f).sum := by
  induction xs with
  | nil => simp
  | cons x xs ih =>
    have hx : key x ∈ ks := hcover x (List.mem_cons_self _ _)
    have hrest : ∀ y ∈ xs, key y ∈ ks := fun y hy => hcover y (List.mem_cons_of_mem _ hy)
    have hsplit : ∀ k, (((x :: xs).filter (fun y => key y = k)).map f).sum
        = (if key x = k then f x else 0) + ((xs.filter (fun y => key y = k)).map f).sum := by
      intro k
      by_cases h : key x = k
      · simp [List.filter_cons, h]
      · simp [List.filter_cons, h]
    simp only [hsplit]
    rw [List.sum_map_add, sum_single_key ks hks, if_pos hx, ih hrest, List.map_cons,
      List.sum_cons]

/-- The three totals of `roundingSales` are doubles, and so are the sums met when adding
them. -/
theorem rounding_sums :
    nearestDouble (101 / 10) = double10_1
    ∧ nearestDouble (202 / 10) = double20_2
    ∧ nearestDouble (303 / 10) = double30_3
    ∧ addDouble 0 double10_1 = double10_1
    ∧ addDouble 0 double20_2 = double20_2
    ∧ addDouble double10_1 double20_2 = 2132172948583219 / 70368744177664
    ∧ addDouble (2132172948583219 / 70368744177664) double30_3
        = 2132172948583219 / 35184372088832
    ∧ addDouble double20_2 double30_3 = 101 / 2
    ∧ addDouble double10_1 (101 / 2) = 8528691794332877 / 140737488355328
    ∧ nearestDouble (606 / 10) = 8528691794332877 / 140737488355328 := by
  refine ⟨?_, ?_, ?_, ?_, ?_, ?_, ?_, ?_, ?_, ?_⟩
  · exact nearestDouble_of _ 101 10 56857945295552512 10 (-49) 5685794529555251 _
      (by norm_num) (by norm_num) (by norm_num) (by decide) (by decide)
      (by norm_num [double10_1])
  · exact nearestDouble_of _ 101 5 28428972647776256 5 (-48) 5685794529555251 _
      (by norm_num) (by norm_num) (by norm_num) (by decide) (by decide)
      (by norm_num [double20_2])
  · exact nearestDouble_of _ 303 10 85286917943328768 10 (-48) 8528691794332877 _
      (by norm_num) (by norm_num) (by norm_num) (by decide) (by decide)
      (by norm_num [double30_3])
  · exact nearestDouble_of _ 5685794529555251 562949953421312
      3200817765576279126189184909312 562949953421312 (-49) 5685794529555251 _
      (by norm_num [double10_1]) (by norm_num [double10_1]) (by norm_num [double10_1])
      (by decide) (by decide) (by norm_num [double10_1])
  · exact nearestDouble_of _ 5685794529555251 281474976710656
      1600408882788139563094592454656 281474976710656 (-48) 5685794529555251 _
      (by norm_num [double20_2]) (by norm_num [double20_2]) (by norm_num [double20_2])
      (by decide) (by decide) (by norm_num [double20_2])
  · exact nearestDouble_of _ 17057383588665753 562949953421312
      4801226648364418689283777363968 562949953421312 (-48) 8528691794332876 _
      (by norm_num [double10_1, double20_2]) (by norm_num [double10_1, double20_2])
      (by norm_num [double10_1, double20_2]) (by decide) (by decide) (by norm_num)
  · exact nearestDouble_of _ 17057383588665753 281474976710656
      2400613324182209344641888681984 281474976710656 (-47) 8528691794332876 _
      (by norm_num [double30_3]) (by norm_num [double30_3])
      (by norm_num [double30_3]) (by decide) (by decide) (by norm_num)
  · exact nearestDouble_of _ 101 2 14214486323888128 2 (-47) 7107243161944064 _
      (by norm_num [double20_2, double30_3]) (by norm_num [double20_2, double30_3])
      (by norm_num [double20_2, double30_3]) (by decide) (by decide) (by norm_num)
  · exact nearestDouble_of _ 34114767177331507 562949953421312
      4801226648364418830021265719296 562949953421312 (-47) 8528691794332877 _
      (by norm_num [double10_1]) (by norm_num [double10_1])
      (by norm_num [double10_1]) (by decide) (by decide) (by norm_num)
  · exact nearestDouble_of _ 303 5 42643458971664384 5 (-47) 8528691794332877 _
      (by norm_num) (by norm_num) (by norm_num) (by decide) (by decide) (by norm_num)

/-- Claim C28 as stated fails: for the filtered sales 10.1 on one day and 20.2, 30.3 on an
earlier day, the bucket totals are 10.1 and 50.5 and add up to 60.6, while the totals of the
sequence add up to 60.599999999999994 = 60.6 - 2 ^ (-47): the additions round. -/
theorem viewer_bucket_totals_round :
    (sortedGroups utcEnv roundingSales).map
        (fun e => (e.1, e.2.sales.map (fun s => s.id), e.2.total))
      = [("Martes, 2 de enero", ["a"], double10_1), ("Jueves, 1 de junio", ["b", "c"], 101 / 2)]
    ∧ ((sortedGroups utcEnv roundingSales).map (fun e => e.2.total)).foldl addDouble 0
        = 8528691794332877 / 140737488355328
    ∧ (roundingSales.map (fun s => s.total.getD 0)).foldl addDouble 0
        = 2132172948583219 / 35184372088832
    ∧ ((sortedGroups utcEnv roundingSales).map (fun e => e.2.total)).foldl addDouble 0
        ≠ (roundingSales.map (fun s => s.total.getD 0)).foldl addDouble 0
    ∧ nearestDouble (101 / 10) = double10_1
    ∧ nearestDouble (202 / 10) = double20_2
    ∧ nearestDouble (303 / 10) = double30_3
    ∧ nearestDouble (606 / 10) = 8528691794332877 / 140737488355328 := by
  obtain ⟨h1, h2, h3, h01, h02, h12, h123, h23, h1_23, h606⟩ := rounding_sums
  have hA : viewerKey utcEnv (viewerSaleOf "a" 1704196800000 double10_1)
      = "Martes, 2 de enero" := by decide
  have hB : viewerKey utcEnv (viewerSaleOf "b" 1685620800000 double20_2)
      = "Jueves, 1 de junio" := by decide
  have hC : viewerKey utcEnv (viewerSaleOf "c" 1685606400000 double30_3)
      = "Jueves, 1 de junio" := by decide
  have hne : ("Jueves, 1 de junio" : String) ≠ "Martes, 2 de enero" := by decide
  have hsorted : sortedGroups utcEnv roundingSales
      = [("Martes, 2 de enero",
            { sales := [viewerSaleOf "a" 1704196800000 double10_1], total := double10_1 }),
         ("Jueves, 1 de junio",
            { sales := [viewerSaleOf "b" 1685620800000 double20_2,
                        viewerSaleOf "c" 1685606400000 double30_3],
              total := 101 / 2 })] := by
    simp [sortedGroups, roundingSales, viewerGroups_eq, firstKeys, hA, hB, hC, hne, hne.symm,
      List.filter_cons]
    simp [List.insertionSort, List.orderedInsert, compareGroups, firstTime, viewerSaleOf,
      viewerSaleAt, utcEnv, h01, h02, h23]
    norm_num
  have hseq : (roundingSales.map (fun s => s.total.getD 0)).foldl addDouble 0
      = 2132172948583219 / 35184372088832 := by
    simp [roundingSales, viewerSaleOf, h01, h12, h123]
  have hbuckets : ((sortedGroups utcEnv roundingSales).map (fun e => e.2.total)).foldl
      addDouble 0 = 8528691794332877 / 140737488355328 := by
    rw [hsorted]
    simp [h01, h1_23]
  refine ⟨?_, hbuckets, hseq, ?_, h1, h2, h3, h606⟩
  · rw [hsorted]
    simp [viewerSaleOf, viewerSaleAt]
  · rw [hbuckets, hseq]
    norm_num

/-- Claim C28 as amended: in the viewer's grouped list every bucket holds exactly the sales of
the filtered sequence that have its key, and its total is what adding `Number(total) || 0` of
these sales one after the other, starting from 0, gives in double arithmetic; the keys of the
buckets are pairwise distinct, every sale lies in the bucket of its key and in no bucket of
another key, and the bucket sizes add up to the length of the sequence.  When the totals are
whole numbers whose sum stays below `2 ^ 53`, no addition rounds: every bucket total is the
exact sum of its records, and the bucket totals add up to what the totals of the whole
sequence add up to, the exact sum. -/
theorem viewer_bucket_totals {δ : Type} (env : DateEnv δ) (sales : List (ViewerSale δ)) :
    (∀ e ∈ sortedGroups env sales,
        e.2.sales = sales.filter (fun s => viewerKey env s = e.1)
        ∧ e.2.total = (e.2.sales.map (fun s => s.total.getD 0)).foldl addDouble 0)
    ∧ ((sortedGroups env sales).map (fun e => e.1)).Nodup
    ∧ (∀ s ∈ sales, ∃ e ∈ sortedGroups env sales, e.1 = viewerKey env s ∧ s ∈ e.2.sales)
    ∧ (∀ e ∈ sortedGroups env sales, ∀ s ∈ e.2.sales, s ∈ sales ∧ viewerKey env s = e.1)
    ∧ ((sortedGroups env sales).map (fun e => e.2.sales.length)).sum = sales.length
    ∧ (∀ t : ViewerSale δ → Nat, (∀ s ∈ sales, s.total.getD 0 = (t s : Num)) →
        (sales.map t).sum < 2 ^ 53 →
        (∀ e ∈ sortedGroups env sales, e.2.total = (((e.2.sales.map t).sum : Nat) : Num))
        ∧ ((sortedGroups env sales).map (fun e => e.2.total)).foldl addDouble 0
            = (((sales.map t).sum : Nat) : Num)
        ∧ (sales.map (fun s => s.total.getD 0)).foldl addDouble 0
            = (((sales.map t).sum : Nat) : Num)) := by
  have hperm : (sortedGroups env sales).Perm (viewerGroups env sales) :=
    List.perm_insertionSort _ _
  have hmem : ∀ e, e ∈ sortedGroups env sales ↔ e ∈ viewerGroups env sales :=
    fun e => hperm.mem_iff
  have hshape : ∀ e ∈ sortedGroups env sales,
      e.1 ∈ sales.map (viewerKey env)
      ∧ e.2.sales = sales.filter (fun s => viewerKey env s = e.1)
      ∧ e.2.total = ((sales.filter (fun s => viewerKey env s = e.1)).map
          (fun s => s.total.getD 0)).foldl addDouble 0 := by
    intro e he
    rw [hmem, viewerGroups_eq] at he
    obtain ⟨k, hk, rfl⟩ := List.mem_map.mp he
    exact ⟨(mem_firstKeys _ _).mp hk, rfl, rfl⟩
  have hkeys : (viewerGroups env sales).map (fun e => e.1)
      = firstKeys (sales.map (viewerKey env)) := by
    rw [viewerGroups_eq, List.map_map]
    exact List.map_id'' (fun _ => rfl) _
  have hcover : ∀ s ∈ sales, viewerKey env s ∈ firstKeys (sales.map (viewerKey env)) :=
    fun s hs => (mem_firstKeys _ _).mpr (List.mem_map_of_mem _ hs)
  have hsizes : ((sortedGroups env sales).map (fun e => e.2.sales.length)).sum
      = sales.length := by
    rw [(hperm.map _).sum_eq, viewerGroups_eq, List.map_map]
    have h := sum_by_key (viewerKey env) (fun _ => (1 : Nat)) _ (nodup_firstKeys _) sales hcover
    simp only [List.map_const', List.sum_replicate, smul_eq_mul, mul_one] at h
    exact h
  refine ⟨?_, ?_, ?_, ?_, hsizes, ?_⟩
  · intro e he
    obtain ⟨_, h1, h2⟩ := hshape e he
    exact ⟨h1, by rw [h2, h1]⟩
  · rw [(hperm.map _).nodup_iff, hkeys]
    exact nodup_firstKeys _
  · intro s hs
    have hk := hcover s hs
    rw [← hkeys] at hk
    obtain ⟨e, he, hek⟩ := List.mem_map.mp hk
    refine ⟨e, (hmem e).mpr he, hek, ?_⟩
    rw [(hshape e ((hmem e).mpr he)).2.1]
    exact List.mem_filter.mpr ⟨hs, by simp [hek]⟩
  · intro e he s hs
    rw [(hshape e he).2.1] at hs
    have := List.mem_filter.mp hs
    exact ⟨this.1, by simpa using this.2⟩
  · intro t ht hsum
    have hcast : ∀ l : List (ViewerSale δ), (∀ s ∈ l, s ∈ sales) →
        l.map (fun s => s.total.getD 0) = (l.map t).map (Nat.cast : Nat → Num) := by
      intro l hl
      rw [List.map_map]
      apply List.map_congr_left
      intro s hs
      exact ht s (hl s hs)
    have hexact : ∀ l : List (ViewerSale δ), (∀ s ∈ l, s ∈ sales) → (l.map t).sum < 2 ^ 53 →
        (l.map (fun s => s.total.getD 0)).foldl addDouble 0 = (((l.map t).sum : Nat) : Num) := by
      intro l hl hlt
      rw [hcast l hl]
      have h := foldl_addDouble_nat (l.map t) 0 (by simpa using hlt)
      simpa using h
    have hsub : ∀ k, ((sales.filter (fun s => viewerKey env s = k)).map t).sum
        ≤ (sales.map t).sum := by
      intro k
      exact List.Sublist.sum_le_sum ((List.filter_sublist _).map t) (fun _ _ => Nat.zero_le _)
    have hbucket : ∀ e ∈ sortedGroups env sales,
        e.2.total = (((e.2.sales.map t).sum : Nat) : Num) := by
      intro e he
      obtain ⟨_, h1, h2⟩ := hshape e he
      rw [h2, h1]
      exact hexact _ (fun s hs => (List.mem_filter.mp hs).1) (lt_of_le_of_lt (hsub _) hsum)
    have htotals : (sortedGroups env sales).map (fun e => e.2.total)
        = ((sortedGroups env sales).map (fun e => (e.2.sales.map t).sum)).map
            (Nat.cast : Nat → Num) := by
      rw [List.map_map]
      apply List.map_congr_left
      intro e he
      exact hbucket e he
    have hnat : ((sortedGroups env sales).map (fun e => (e.2.sales.map t).sum)).sum
        = (sales.map t).sum := by
      rw [(hperm.map _).sum_eq, viewerGroups_eq, List.map_map]
      exact sum_by_key (viewerKey env) t _ (nodup_firstKeys _) sales hcover
    refine ⟨hbucket, ?_, hexact sales (fun _ hs => hs) hsum⟩
    rw [htotals]
    have h := foldl_addDouble_nat
      ((sortedGroups env sales).map (fun e => (e.2.sales.map t).sum)) 0
      (by rw [hnat]; simpa using hsum)
    rw [hnat] at h
    simpa using h

/-- Claim C28 as amended, at three sales of 30 on two days: the bucket totals 30 and 60 add
up to 90, as the totals of the sequence do. -/
theorem viewer_bucket_totals_witness :
    ((sortedGroups utcEnv [viewerSaleAt "a" 1514894400000, viewerSaleAt "b" 1685620800000,
        viewerSaleAt "c" 1704196800000]).map (fun e => e.2.total)).foldl addDouble 0
      = (((([viewerSaleAt "a" 1514894400000, viewerSaleAt "b" 1685620800000,
        viewerSaleAt "c" 1704196800000].map (fun _ => 30)).sum : Nat)) : Num) :=
  ((viewer_bucket_totals utcEnv [viewerSaleAt "a" 1514894400000,
      viewerSaleAt "b" 1685620800000, viewerSaleAt "c" 1704196800000]).2.2.2.2.2
    (fun _ => 30) (by simp [viewerSaleAt]) (by norm_num)).2.1

/-- The lower-casing of the examples keeps the number of characters, so under it a padded
name is longer than the name by the padding, whatever the padding. -/
theorem asciiLowerCase_padding (pre name post : String) :
    (asciiLowerCase (pre ++ name ++ post)).length
      = pre.length + (asciiLowerCase name).length + post.length := by
  show ((pre ++ name ++ post).data.map Char.toLower).length
    = pre.data.length + (name.data.map Char.toLower).length + post.data.length
  simp only [String.data_append, List.map_append, List.length_append, List.length_map]

/-- Claim C29: `handleSubmit` uses the typed client name as typed.  When the typed name is
the name of the cached client `c0` with text added before or after it (blanks, say), and
lower-casing the typed name gives the lower-cased name of `c0` lengthened by that padding (so
it is for whitespace padding, and for any padding when lower-casing works character by
character), `c0` does not match it; if no other cached client matches either, the lookup
misses, the calls issued are the creation of a client named exactly as typed, the sale write
and the stock write, and the sale records the typed name, which is not the name of `c0`.  A
name made of whitespace only is not the empty text: it passes the guard, the sale is written
with that name, and the success box is shown. -/
theorem handleSubmit_uses_untrimmed_client
    (toLowerCase : String → String)
    (clients : List Client) (now : String) (rClient rSale rStock : Reply)
    (f : Form) (w : World) (p : Product) (c0 : Client) (pre post : String)
    (hp : f.selectedProduct = some p) (hq : 0 < f.quantity) (hs : f.quantity ≤ p.stock)
    (hname : f.clientName = pre ++ c0.name ++ post) (hpad : pre ++ post ≠ "")
    (hlower : (toLowerCase (pre ++ c0.name ++ post)).length
      = pre.length + (toLowerCase c0.name).length + post.length)
    (hothers : ∀ c ∈ clients, c ≠ c0 → toLowerCase c.name ≠ toLowerCase f.clientName) :
    toLowerCase c0.name ≠ toLowerCase f.clientName
    ∧ clients.find? (fun c => toLowerCase c.name = toLowerCase f.clientName) = none
    ∧ (handleSubmit toLowerCase clients now rClient rSale rStock f w).2.calls
        = w.calls ++ [StoreCall.addDoc (.client { name := pre ++ c0.name ++ post }),
            StoreCall.addDoc (.sale (saleData p f now)),
            StoreCall.updateDoc p.id (.product { stock := some (p.stock - f.quantity) })]
    ∧ (saleData p f now).client = pre ++ c0.name ++ post
    ∧ (saleData p f now).client ≠ c0.name
    ∧ (∀ (g : Form) (spaces : List Char), spaces ≠ [] → (∀ c ∈ spaces, isSpace c = true) →
        g.clientName = ⟨spaces⟩ → g.selectedProduct = some p → 0 < g.quantity →
        g.quantity ≤ p.stock →
        StoreCall.addDoc (.sale (saleData p g now))
            ∈ (handleSubmit toLowerCase clients now rClient rSale rStock g w).2.calls
        ∧ (saleData p g now).client = ⟨spaces⟩
        ∧ (handleSubmit toLowerCase clients now rClient rSale rStock g w).2.alerts
            = w.alerts ++ [Alert.saleRegistered]) := by
  have hlen : pre.data.length + post.data.length ≠ 0 := by
    intro h0
    apply hpad
    apply String.ext
    have h1 : pre.data = [] := List.length_eq_zero.mp (by omega)
    have h2 : post.data = [] := List.length_eq_zero.mp (by omega)
    simp [h1, h2]
  have hne : toLowerCase c0.name ≠ toLowerCase f.clientName := by
    intro h
    have hl := congrArg String.length h
    rw [hname, hlower] at hl
    simp only [String.length] at hl
    omega
  have hc : f.clientName ≠ "" := by
    intro h
    have hl := congrArg (fun s : String => s.data.length) h
    simp only [hname, String.data_append, List.length_append] at hl
    have h0 : ("" : String).data.length = 0 := rfl
    rw [h0] at hl
    omega
  have hmiss : clients.find? (fun c => toLowerCase c.name = toLowerCase f.clientName) = none := by
    apply find_miss
    intro c hcm
    by_cases hcc : c = c0
    · rw [hcc]
      exact hne
    · exact hothers c hcm hcc
  have hvalid : ∀ g : Form, g.selectedProduct = some p → 0 < g.quantity → g.quantity ≤ p.stock →
      g.clientName ≠ "" →
      StoreCall.addDoc (.sale (saleData p g now))
          ∈ (handleSubmit toLowerCase clients now rClient rSale rStock g w).2.calls
      ∧ (handleSubmit toLowerCase clients now rClient rSale rStock g w).2.alerts
          = w.alerts ++ [Alert.saleRegistered] := by
    intro g hgp hgq hgs hgc
    rw [handleSubmit_of_valid toLowerCase clients now rClient rSale rStock g w p hgp hgq hgc hgs]
    cases clients.find? (fun c => toLowerCase c.name = toLowerCase g.clientName) <;>
      cases rClient <;> cases rSale <;> cases rStock <;>
      simp [alert, issue, addDocument, updateDocument, addDoc, updateDoc]
  refine ⟨hne, hmiss, ?_, ?_, ?_, ?_⟩
  · rw [handleSubmit_of_valid toLowerCase clients now rClient rSale rStock f w p hp hq hc hs, hmiss]
    simp [alert, issue, addDocument_calls, updateDocument_calls, hname]
  · simp [saleData, hname]
  · intro h
    have hl := congrArg (fun s : String => s.data.length) h
    simp only [saleData, hname, String.data_append, List.length_append] at hl
    omega
  · intro g spaces hne0 _ hg hgp hgq hgs
    have hgc : g.clientName ≠ "" := by
      rw [hg]
      intro h
      exact hne0 (congrArg String.data h)
    exact ⟨(hvalid g hgp hgq hgs hgc).1, by simp [saleData, hg], (hvalid g hgp hgq hgs hgc).2⟩

/-- Claim C29 at " Juan Perez " typed while "Juan Perez" is cached: a second client is
created. -/
theorem handleSubmit_untrimmed_witness :
    (handleSubmit asciiLowerCase [demoClient] "2026-11-06T10:00:00.000Z" (.ack "c1" 1)
        (.ack "s1" 2) (.ack "p1" 3) paddedForm demoWorld).2.calls
      = demoWorld.calls ++ [StoreCall.addDoc (.client { name := " " ++ demoClient.name ++ " " }),
          StoreCall.addDoc (.sale (saleData demoProduct paddedForm "2026-11-06T10:00:00.000Z")),
          StoreCall.updateDoc demoProduct.id
            (.product { stock := some (demoProduct.stock - paddedForm.quantity) })] :=
  (handleSubmit_uses_untrimmed_client asciiLowerCase [demoClient] "2026-11-06T10:00:00.000Z"
    (.ack "c1" 1) (.ack "s1" 2) (.ack "p1" 3) paddedForm demoWorld demoProduct demoClient " " " "
    rfl (by norm_num [paddedForm, demoForm]) (by norm_num [paddedForm, demoForm, demoProduct])
    (by decide) (by decide) (by decide) (by simp)).2.2.1

/-- A text without the character `c` that starts `x ++ c :: y` starts `x`. -/
theorem starts_before_char {t x y : List Char} {c : Char} (hc : c ∉ t)
    (h : t <+: x ++ c :: y) : t <+: x := by
  rcases List.prefix_or_prefix_of_prefix h (List.prefix_append x (c :: y)) with h1 | h1
  · exact h1
  · obtain ⟨r, hr⟩ := h1
    rw [← hr, List.prefix_append_right_inj] at h
    cases r with
    | nil => rw [← hr]; simp
    | cons a r =>
      have ha : a = c := by
        obtain ⟨z, hz⟩ := h
        simp at hz
        exact hz.1
      exact absurd (by rw [← hr, ha]; simp) hc

/-- A text without the character `c` occurs in `x ++ c :: y` only inside `x` or inside `y`. -/
theorem occurs_around_char {t y : List Char} {c : Char} (hc : c ∉ t) (x : List Char)
    (h : t <:+: x ++ c :: y) : t <:+: x ∨ t <:+: y := by
  induction x with
  | nil =>
    rcases List.infix_cons_iff.mp h with h1 | h1
    · left
      have := starts_before_char (x := []) hc h1
      exact this.isInfix
    · right
      exact h1
  | cons a x ih =>
    rw [List.cons_append] at h
    rcases List.infix_cons_iff.mp h with h1 | h1
    · left
      exact (starts_before_char (x := a :: x) hc h1).isInfix
    · rcases ih h1 with h2 | h2
      · left
        exact h2.trans (List.suffix_cons a x).isInfix
      · right
        exact h2

/-- In an address `name@sales.app` the text `fabricio` occurs, ignoring case, exactly when it
occurs in the name, when lower-casing leaves the suffix `@sales.app` as it is. -/
theorem includes_fabricio_address (toLowerCase : String → String) (name : String)
    (hlower : toLowerCase (name ++ "@sales.app") = toLowerCase name ++ "@sales.app") :
    includes (toLowerCase (name ++ "@sales.app")) "fabricio"
      = includes (toLowerCase name) "fabricio" := by
  have hdata : (toLowerCase (name ++ "@sales.app")).data
      = (toLowerCase name).data ++ '@' :: "sales.app".data := by
    rw [hlower, String.data_append]
  have hno : ¬ "fabricio".data <:+: "sales.app".data := by
    rw [← includes_iff]
    decide
  rw [Bool.eq_iff_iff, includes_iff, includes_iff, hdata]
  constructor
  · intro h
    rcases occurs_around_char (by decide) _ h with h1 | h1
    · exact h1
    · exact absurd h1 hno
  · intro h
    exact h.trans (List.prefix_append _ _).isInfix

/-- The local part of `name@sales.app` is the name, when the name has no `@`. -/
theorem localPart_address (name : String) (hat : '@' ∉ name.data) :
    localPart (name ++ "@sales.app") = name := by
  have h : ∀ l : List Char, '@' ∉ l → ∀ rest : List Char,
      (l ++ '@' :: rest).takeWhile (fun c => c ≠ '@') = l := by
    intro l
    induction l with
    | nil => intro _ rest; simp [List.takeWhile]
    | cons a l ih =>
      intro ha rest
      have h1 : a ≠ '@' := fun e => ha (by simp [e])
      have h2 : '@' ∉ l := fun e => ha (List.mem_cons_of_mem _ e)
      have hrec := ih h2 rest
      simp only [List.cons_append, List.takeWhile_cons, h1, ne_eq, not_false_eq_true,
        decide_True, if_true, hrec]
  apply String.ext
  show ((name ++ "@sales.app").data).takeWhile (fun c => c ≠ '@') = name.data
  rw [String.data_append]
  exact h _ hat _

/-- Claim C30: when the read of the profile document fails (a store error or `DB_TIMEOUT`),
the handler still sets a profile, with `error: true` and the role "admin" exactly when the
lower-cased e-mail contains "fabricio", "registrar" otherwise, and stops loading.  When the
document is missing and its creation succeeds, the profile written has the role "admin"
exactly when the lower-cased local part of the e-mail contains "fabricio", "registrar"
otherwise.  For a user whose e-mail is `name@sales.app`, `name` without `@`, both roles are
the same, "admin" exactly when the lower-cased name contains "fabricio"; here the runtime's
`toLowerCase` is taken to leave the suffix `@sales.app` of the address as it is. -/
theorem profile_unreadable_role (toLowerCase : String → String) (name : String) (u : AuthUser)
    (message : String) (rSetDoc : Except String Unit) (now : Nat) (st : AuthState)
    (w : AuthWorld)
    (hat : '@' ∉ name.data) (hemail : u.email = some (name ++ "@sales.app"))
    (hlower : toLowerCase (name ++ "@sales.app") = toLowerCase name ++ "@sales.app") :
    -- the profile cannot be read
    (onAuthStateChanged toLowerCase (some u) (.failed message) rSetDoc now st w).1.userData
        = some { username := none, role := some (fallbackRole toLowerCase u), error := true }
    ∧ (onAuthStateChanged toLowerCase (some u) (.failed message) rSetDoc now st w).1.loading
        = false
    ∧ (∀ v : AuthUser, (fallbackRole toLowerCase v = "admin"
          ↔ includes (toLowerCase (orElse v.email "")) "fabricio" = true)
        ∧ (fallbackRole toLowerCase v = "registrar"
          ↔ includes (toLowerCase (orElse v.email "")) "fabricio" = false))
    -- the profile is missing
    ∧ (onAuthStateChanged toLowerCase (some u) .missing (.ok ()) now st w).1.userData
        = some { username := some name, role := some (initialRole toLowerCase u),
                 createdAt := some now }
    ∧ (onAuthStateChanged toLowerCase (some u) .missing (.ok ()) now st w).2.calls
        = w.calls ++ [AuthCall.setDoc u.uid
            { username := some name, role := some (initialRole toLowerCase u),
              createdAt := some now }]
    ∧ (∀ v : AuthUser, orElse v.email "" ≠ "" →
        (initialRole toLowerCase v = "admin"
          ↔ includes (toLowerCase (localPart (orElse v.email ""))) "fabricio" = true)
        ∧ (initialRole toLowerCase v = "registrar"
          ↔ includes (toLowerCase (localPart (orElse v.email ""))) "fabricio" = false))
    -- the two derivations agree
    ∧ initialRole toLowerCase u = fallbackRole toLowerCase u
    ∧ (initialRole toLowerCase u = "admin" ↔ includes (toLowerCase name) "fabricio" = true) := by
  have hne : name ++ "@sales.app" ≠ "" := by
    intro h
    have hl := congrArg (fun s : String => s.data.length) h
    simp at hl
  have hor : orElse u.email "" = name ++ "@sales.app" := by
    simp [orElse, hemail, hne]
  have huser : recoveredUsername u = name := by
    simp [recoveredUsername, hor, hne, localPart_address name hat]
  have hinit : initialRole toLowerCase u
      = if includes (toLowerCase name) "fabricio" then "admin" else "registrar" := by
    simp [initialRole, huser]
  have hfall : fallbackRole toLowerCase u
      = if includes (toLowerCase name) "fabricio" then "admin" else "registrar" := by
    simp [fallbackRole, hor, includes_fabricio_address toLowerCase name hlower]
  refine ⟨?_, ?_, ?_, ?_, ?_, ?_, ?_, ?_⟩
  · simp [onAuthStateChanged, profileSteps]
  · simp [onAuthStateChanged, profileSteps]
  · intro v
    unfold fallbackRole
    cases includes (toLowerCase (orElse v.email "")) "fabricio" <;> simp
  · simp [onAuthStateChanged, profileSteps, sdkSetDoc, AuthWorld.call, huser]
  · simp [onAuthStateChanged, profileSteps, sdkSetDoc, AuthWorld.call, huser]
  · intro v hv
    unfold initialRole recoveredUsername
    rw [if_neg hv]
    cases includes (toLowerCase (localPart (orElse v.email ""))) "fabricio" <;> simp
  · rw [hinit, hfall]
  · rw [hinit]
    cases includes (toLowerCase name) "fabricio" <;> simp

/-- Claim C30 at the user `fabricio@sales.app` with the read timing out: the role is
"admin" on both paths. -/
theorem profile_unreadable_witness :
    (onAuthStateChanged asciiLowerCase (some fabricioUser) (.failed "DB_TIMEOUT") (.ok ()) 7
        initialAuthState adminWorld).1.userData
      = some { username := none, role := some (fallbackRole asciiLowerCase fabricioUser),
               error := true }
    ∧ fallbackRole asciiLowerCase fabricioUser = "admin"
    ∧ initialRole asciiLowerCase fabricioUser = "admin" :=
  ⟨(profile_unreadable_role asciiLowerCase "fabricio" fabricioUser "DB_TIMEOUT" (.ok ()) 7
      initialAuthState adminWorld (by decide) rfl (by decide)).1, by decide, by decide⟩

end HieloRosita
